import Mathlib

/-! Dolt: the binlog producer, the statistics worker and the statistics reader.

A shallow embedding of

* `go/libraries/doltcore/sqle/binlogreplication/binlog_producer.go`
* `go/libraries/doltcore/sqle/statspro/worker.go`
* `go/libraries/doltcore/sqle/stats/read.go`

Go functions that mutate their receiver are functions from a state to a result
and a state; the state is returned on the error paths as well, because the Go
code keeps every assignment it made before it returns an error.  Calls into
collaborators that are not part of these files (the position store, the
system variables, the row serializer, the GTID set library) are either fields
of an environment record or small models that say so in their doc comment.  A `GoError.panic` is the
outcome of a statement that panicked: it ends every function on the way up like
an error that is returned, and the places of the code that log an error and go
on hand it up unchanged.
-/

set_option linter.dupNamespace false

namespace Dolt

/-- Error values of the Go code: `io.EOF`, and every other error kept by its message.
`panic` is the outcome of a statement that panics (an index out of range, a nil
dereference), which ends the function like an error does. -/
inductive GoError where
  | eof
  | msg (text : String)
  | panic (text : String)
deriving DecidableEq, Repr

/-- The outcome of a statement that panicked. -/
def GoError.isPanic : GoError → Bool
  | GoError.panic _ => true
  | _ => false

deriving instance DecidableEq for Except

/-- Go strings that the code takes apart character by character. -/
abbrev GoString := List Char

/-- Conversion to `int64`: the value modulo `2^64`, taken in `[-2^63, 2^63)`. -/
def wrapInt64 (x : Int) : Int :=
  (x + 2 ^ 63) % 2 ^ 64 - 2 ^ 63

namespace Binlog

/-! ## Row diffs (`tree.Diff`) and schemas -/

/-- The type `tree.DiffType` is a byte with three named values: `AddedDiff = 0`,
`ModifiedDiff = 1`, `RemovedDiff = 2`; `other` stands for the remaining bytes. -/
inductive DiffType where
  | AddedDiff
  | ModifiedDiff
  | RemovedDiff
  | other (code : Nat)
deriving DecidableEq, Repr

/-- A `val.Tuple` seen through its field accessors: one entry per field, `none` for NULL. -/
abbrev Tuple := List (Option Nat)

/-- The struct `tree.Diff`; its field `Type` is `Type_` here. -/
structure Diff where
  Key : Tuple
  From : Tuple
  To : Tuple
  Type_ : DiffType
deriving DecidableEq, Repr

/-- A column as the producer reads it: the SQL type it is serialized by
(`col.TypeInfo.ToSqlType().Type()`) and `col.IsNullable()`. -/
structure Column where
  sqlType : Nat
  IsNullable : Bool
deriving DecidableEq, Repr

/-- What the producer reads of a `schema.Schema`: whether it is keyless
(`schema.IsKeyless`) and the columns of `GetAllCols().GetColumns()`. -/
structure Schema where
  keyless : Bool
  columns : List Column
deriving DecidableEq, Repr

/-- Models `TupleDesc.GetUint64(i, tup)`: the value of field `i` as a `uint64` and `true`,
or `(0, false)` when the field is NULL. -/
def GetUint64 (i : Nat) (tup : Tuple) : Nat × Bool :=
  match tup.get? i with
  | some (some v) => (v % 2 ^ 64, true)
  | _ => (0, false)

/-- The function `extractRowCountAndDiffType`: the three results `(rowCount, diffType, err)`.
The zero `DiffType` of the error returns is `AddedDiff`. -/
def extractRowCountAndDiffType (sch : Schema) (diff : Diff) : Nat × DiffType × Option GoError :=
  if sch.keyless = false then
    (1, diff.Type_, none)
  else
    match diff.Type_ with
    | DiffType.AddedDiff =>
      let (toRowCount, notNull) := GetUint64 0 diff.To
      if !notNull then
        (0, DiffType.AddedDiff, some (GoError.msg "row count for a keyless table row cannot be null"))
      else (toRowCount, diff.Type_, none)
    | DiffType.RemovedDiff =>
      let (fromRowCount, notNull) := GetUint64 0 diff.From
      if !notNull then
        (0, DiffType.AddedDiff, some (GoError.msg "row count for a keyless table row cannot be null"))
      else (fromRowCount, diff.Type_, none)
    | DiffType.ModifiedDiff =>
      let (toRowCount, notNull) := GetUint64 0 diff.To
      if !notNull then
        (0, DiffType.AddedDiff, some (GoError.msg "row count for a keyless table row cannot be null"))
      else
        let (fromRowCount, notNull) := GetUint64 0 diff.From
        if !notNull then
          (0, DiffType.AddedDiff, some (GoError.msg "row count for a keyless table row cannot be null"))
        else if toRowCount > fromRowCount then
          (toRowCount - fromRowCount, DiffType.AddedDiff, none)
        else if toRowCount < fromRowCount then
          (fromRowCount - toRowCount, DiffType.RemovedDiff, none)
        else
          (0, DiffType.AddedDiff, some (GoError.msg
            "row count for a modified row diff cannot be the same on both sides of the diff"))
    | DiffType.other _ =>
      (0, DiffType.AddedDiff, some (GoError.msg "unexpected DiffType"))

/-! ## GTIDs, GTID sets and positions (the `mysql` package of vitess) -/

/-- The type `mysql.SID`: the 16 bytes of a server UUID. -/
structure SID where
  bytes : List Nat
deriving DecidableEq, Repr

/-- One lower-case hexadecimal digit. -/
def hexDigit (n : Nat) : Char :=
  ['0', '1', '2', '3', '4', '5', '6', '7', '8', '9', 'a', 'b', 'c', 'd', 'e', 'f'].getD (n % 16) '0'

/-- Models `hex.Encode`: two digits per byte. -/
def hexEncode : List Nat → GoString
  | [] => []
  | b :: bs => hexDigit (b / 16) :: hexDigit b :: hexEncode bs

/-- Models `SID.String()`: the bytes in hexadecimal, grouped 4-2-2-2-6 with dashes. -/
def SID.String (sid : SID) : GoString :=
  hexEncode (sid.bytes.take 4) ++ '-' :: hexEncode ((sid.bytes.drop 4).take 2) ++
    '-' :: hexEncode ((sid.bytes.drop 6).take 2) ++ '-' :: hexEncode ((sid.bytes.drop 8).take 2) ++
    '-' :: hexEncode ((sid.bytes.drop 10).take 6)

/-- The decimal digit `d` as a character. -/
def digitChar (d : Nat) : Char :=
  ['0', '1', '2', '3', '4', '5', '6', '7', '8', '9'].getD (d % 10) '0'

/-- Decimal digits of `n` in front of `acc`, most significant first; `fuel` bounds the recursion. -/
def decimalCore : Nat → Nat → GoString → GoString
  | 0, _, acc => acc
  | fuel + 1, n, acc =>
    if n < 10 then digitChar n :: acc
    else decimalCore fuel (n / 10) (digitChar (n % 10) :: acc)

/-- The decimal numeral of a natural number. -/
def decimal (n : Nat) : GoString :=
  decimalCore (n + 1) n []

/-- Models `strconv.FormatInt(i, 10)`. -/
def FormatInt (i : Int) : GoString :=
  if i < 0 then '-' :: decimal i.natAbs else decimal i.natAbs

/-- The value of a decimal digit character. -/
def digitVal (c : Char) : Option Nat :=
  if 48 ≤ c.toNat ∧ c.toNat ≤ 57 then some (c.toNat - 48) else none

/-- Reads a run of decimal digits onto `acc`; `none` at the first other character. -/
def parseDigits : GoString → Nat → Option Nat
  | [], acc => some acc
  | c :: cs, acc =>
    match digitVal c with
    | none => none
    | some d => parseDigits cs (acc * 10 + d)

/-- Models `strconv.Atoi` for a 64-bit `int`: an optional sign, then at least one decimal
digit and nothing else; a value outside of `[-2^63, 2^63)` is a range error. -/
def Atoi (s : GoString) : Except GoError Int :=
  match s with
  | [] => Except.error (GoError.msg "strconv.Atoi: invalid syntax")
  | c :: cs =>
    let neg := decide (c = '-')
    let ds := if c = '-' ∨ c = '+' then cs else s
    if ds = [] then Except.error (GoError.msg "strconv.Atoi: invalid syntax")
    else
      match parseDigits ds 0 with
      | none => Except.error (GoError.msg "strconv.Atoi: invalid syntax")
      | some n =>
        let v : Int := if neg then -(n : Int) else (n : Int)
        if v < -(2 : Int) ^ 63 ∨ (2 : Int) ^ 63 ≤ v then
          Except.error (GoError.msg "strconv.Atoi: value out of range")
        else Except.ok v

/-- Models `strings.Split(s, sep)` for a one-character separator. -/
def Split (sep : Char) : GoString → List GoString
  | [] => [[]]
  | c :: cs =>
    if c = sep then [] :: Split sep cs
    else
      match Split sep cs with
      | [] => [[c]]
      | p :: ps => (c :: p) :: ps

/-- Models `strings.Contains(s, sep)` for a one-character `sep`. -/
def Contains (s : GoString) (sep : Char) : Bool :=
  s.contains sep

/-- The struct `mysql.interval`: the sequence numbers `start .. end` (field `end` is `end_`). -/
structure interval where
  start : Int
  end_ : Int
deriving DecidableEq, Repr

/-- The struct `mysql.Mysql56GTID`. -/
structure Mysql56GTID where
  Server : SID
  Sequence : Int
deriving DecidableEq, Repr

/-- The map `mysql.Mysql56GTIDSet` from SID to sorted intervals, as the association list
of its entries in the order of `SIDs()` (sorted by SID). -/
structure Mysql56GTIDSet where
  sids : List (SID × List interval)
deriving DecidableEq, Repr

/-- The intervals `set[sid]` (none when the SID is not in the map). -/
def Mysql56GTIDSet.lookup (set : Mysql56GTIDSet) (sid : SID) : List interval :=
  match set.sids.find? (fun e => e.1 = sid) with
  | some e => e.2
  | none => []

/-- The loop of `ContainsGTID` over the sorted intervals of one SID. -/
def containsSequence : List interval → Int → Bool
  | [], _ => false
  | iv :: ivs, seq =>
    if iv.start > seq then false
    else if seq ≤ iv.end_ then true
    else containsSequence ivs seq

/-- Models `Mysql56GTIDSet.ContainsGTID`. -/
def Mysql56GTIDSet.ContainsGTID (set : Mysql56GTIDSet) (gtid : Mysql56GTID) : Bool :=
  containsSequence (set.lookup gtid.Server) gtid.Sequence

/-- The inner loop of `AddGTID` over the intervals of the GTID's own SID: widens an interval
the sequence number touches, or puts a new one in front of the first interval beyond it, and
merges an interval into the previous one when they touch.  Returns `newIntervals` and `added`. -/
def addToIntervals (seq : Int) : List interval → List interval → Bool → List interval × Bool
  | [], newIntervals, added => (newIntervals, added)
  | iv :: ivs, newIntervals, added =>
    let step : interval × List interval × Bool :=
      if added then (iv, newIntervals, added)
      else if seq = iv.start - 1 then (⟨seq, iv.end_⟩, newIntervals, true)
      else if seq = iv.end_ + 1 then (⟨iv.start, seq⟩, newIntervals, true)
      else if seq < iv.start - 1 then (iv, newIntervals ++ [⟨seq, seq⟩], true)
      else (iv, newIntervals, false)
    match step.2.1.getLast? with
    | some last =>
      if step.1.start = last.end_ + 1 then
        addToIntervals seq ivs (step.2.1.dropLast ++ [⟨last.start, step.1.end_⟩]) step.2.2
      else addToIntervals seq ivs (step.2.1 ++ [step.1]) step.2.2
    | none => addToIntervals seq ivs (step.2.1 ++ [step.1]) step.2.2

/-- Lexicographic order of SIDs, the order of `SIDs()`. -/
def sidLess : List Nat → List Nat → Bool
  | [], [] => false
  | [], _ :: _ => true
  | _ :: _, [] => false
  | a :: as, b :: bs => if a < b then true else if b < a then false else sidLess as bs

/-- Puts the entry of a SID that is not in the map at its place in the SID order. -/
def insertSID (e : SID × List interval) : List (SID × List interval) → List (SID × List interval)
  | [] => [e]
  | x :: xs => if sidLess e.1.bytes x.1.bytes then e :: x :: xs else x :: insertSID e xs

/-- Models `Mysql56GTIDSet.AddGTID`: the same set when it contains the GTID already, else a
copy in which the intervals of the GTID's SID hold its sequence number. -/
def Mysql56GTIDSet.AddGTID (set : Mysql56GTIDSet) (gtid : Mysql56GTID) : Mysql56GTIDSet :=
  if set.ContainsGTID gtid then set
  else if set.sids.any (fun e => e.1 = gtid.Server) then
    ⟨set.sids.map (fun e =>
      if e.1 = gtid.Server then
        let r := addToIntervals gtid.Sequence e.2 [] false
        (e.1, if r.2 then r.1 else r.1 ++ [⟨gtid.Sequence, gtid.Sequence⟩])
      else e)⟩
  else ⟨insertSID (gtid.Server, [⟨gtid.Sequence, gtid.Sequence⟩]) set.sids⟩

/-- One interval in `String()`: `:start` or `:start-end`. -/
def intervalString (iv : interval) : GoString :=
  ':' :: FormatInt iv.start ++ (if iv.end_ ≠ iv.start then '-' :: FormatInt iv.end_ else [])

/-- The entries of `String()`, separated by commas. -/
def sidsString : List (SID × List interval) → GoString
  | [] => []
  | [e] => e.1.String ++ (e.2.map intervalString).flatten
  | e :: e2 :: rest => e.1.String ++ (e.2.map intervalString).flatten ++ ',' :: sidsString (e2 :: rest)

/-- Models `Mysql56GTIDSet.String()`. -/
def Mysql56GTIDSet.String (set : Mysql56GTIDSet) : GoString :=
  sidsString set.sids

/-- The struct `mysql.Position`; `GTIDSet` is `none` for the nil interface (`IsZero`). -/
structure Position where
  GTIDSet : Option Mysql56GTIDSet
deriving DecidableEq, Repr

/-- Models `Position.IsZero()`. -/
def Position.IsZero (p : Position) : Bool :=
  p.GTIDSet.isNone

/-- The string `position.GTIDSet.String()`. -/
def Position.gtidString (p : Position) : GoString :=
  match p.GTIDSet with
  | some set => set.String
  | none => []

/-! ## Binlog events -/

/-- The struct `mysql.Row` of a rows event. -/
structure Row where
  NullColumns : List Bool
  Data : List Nat
  NullIdentifyColumns : List Bool
  Identify : List Nat
deriving DecidableEq, Repr

/-- The struct `mysql.Rows`; a bitmap from `NewServerBitmap` is the list of its bits. -/
structure Rows where
  DataColumns : List Bool
  IdentifyColumns : List Bool
  Rows : List Row
deriving DecidableEq, Repr

/-- The struct `mysql.TableMap`. -/
structure TableMap where
  Flags : Nat
  Database : String
  Name : String
  Types : List Nat
  CanBeNull : List Bool
  Metadata : List Nat
deriving DecidableEq, Repr

/-- What a binlog event is, by the constructor of the `mysql` package that made it:
`NewMySQLGTIDEvent`, `NewQueryEvent`, `NewTableMapEvent`, `NewWriteRowsEvent`,
`NewDeleteRowsEvent`, `NewUpdateRowsEvent`, `NewXIDEvent`. -/
inductive EventKind where
  | gtid (g : Mysql56GTID)
  | query (Database : String) (SQL : String)
  | tableMap (tableId : Nat) (tm : TableMap)
  | writeRows (tableId : Nat) (rows : Rows)
  | deleteRows (tableId : Nat) (rows : Rows)
  | updateRows (tableId : Nat) (rows : Rows)
  | xid
deriving DecidableEq, Repr

/-- A `mysql.BinlogEvent`: its kind and the `LogPosition` of the stream it was made on. -/
structure BinlogEvent where
  kind : EventKind
  logPos : Nat
deriving DecidableEq, Repr

/-- What the producer asks of a `*doltdb.Table`: its schema and its node store. -/
structure DoltTable where
  GetSchema : Except GoError Schema
  NodeStore : Nat
deriving DecidableEq

/-- What the producer asks of a `diff.TableDelta`.  `diffs` is the stream of row diffs that
`prolly.DiffMaps` walks for the two row maps of the delta and `diffEnd` the error that ends
the stream, which is what `DiffMaps` returns when the callback never fails (`io.EOF` when
the walk is complete). -/
structure TableDelta where
  FromName : String
  ToName : String
  FromTable : DoltTable
  ToTable : DoltTable
  IsRename : Bool
  IsDrop : Bool
  HasSchemaChanged : Except GoError Bool
  HasDataChanged : Except GoError Bool
  schemaPatchStatements : Except GoError (List String)
  GetRowData : Option GoError
  diffs : List Diff
  diffEnd : Option GoError
deriving DecidableEq

/-! ## The producer, its collaborators and the record of what it did to them -/

/-- A call the producer made on a collaborator, in the order of the calls. -/
inductive Action where
  | load
  | save (p : Position) (ok : Bool)
  | assign (gtidExecuted : GoString) (ok : Bool)
  | send (events : List BinlogEvent)
deriving DecidableEq, Repr

/-- The collaborators of the producer.  A collaborator that can fail gives its outcome as a
function of the `clock`, the number of collaborator calls made before it.

* `posBits`: the width of `BinlogStream.LogPosition`;
* `Length`: `BinlogEvent.Length()`;
* `loadErr`, `saveErr`: the error of `positionStore.Load` and `positionStore.Save`;
* `assignErr`: the error of `sql.SystemVariables.AssignValues`;
* `getServerUuid`, `ParseSID`: the functions of these names;
* `serializeRow`: `serializeRowToBinlogBytes(ctx, sch, key, value, ns)`;
* `typeSerializersMap`: the table of this name, giving the type byte and the metadata of
  a column type. -/
structure Env where
  posBits : Nat
  Length : EventKind → Nat
  loadErr : Nat → Option GoError
  saveErr : Nat → Option GoError
  assignErr : Nat → Option GoError
  getServerUuid : Nat → Except GoError GoString
  ParseSID : GoString → Except GoError SID
  serializeRow : Schema → Tuple → Tuple → Nat → Except GoError (List Nat × List Bool)
  typeSerializersMap : Nat → Option (Nat × Nat)

/-- The struct `binlogProducer` (`LogPosition` is `binlogStream.LogPosition`) together with
the state of its collaborators: the position the store holds, the system variable
`gtid_executed`, the clock and the trace of calls. -/
structure State where
  LogPosition : Nat
  gtidPosition : Option Position
  gtidSequence : Int
  positionStore : Option Position
  gtidExecuted : GoString
  clock : Nat
  trace : List Action
deriving DecidableEq, Repr

/-- The statement `b.binlogStream.LogPosition += binlogEvent.Length()`. -/
def State.advance (env : Env) (s : State) (ev : BinlogEvent) : State :=
  { s with LogPosition := (s.LogPosition + env.Length ev.kind) % 2 ^ env.posBits }

/-- An event made on the stream of `s`. -/
def State.newEvent (s : State) (kind : EventKind) : BinlogEvent :=
  ⟨kind, s.LogPosition⟩

/-- The test `position == nil || position.IsZero() || position.GTIDSet.String() == ""` of
`initializeGtidPosition`: the loaded position when the test is false, `none` when the
store holds no position. -/
def loadedPosition (position : Option Position) : Option Position :=
  match position with
  | none => none
  | some position =>
    if position.IsZero || position.gtidString = [] then none else some position

/-- The string parsing of `initializeGtidPosition`: the integer read from the sequence
part of the GTID set string, or the error. -/
def parseGtidSequence (gtidString : GoString) : Except GoError Int :=
  if Contains gtidString ',' then Except.error (GoError.msg "unexpected GTID format")
  else
    let gtidComponents := Split ':' gtidString
    if gtidComponents.length ≠ 2 then Except.error (GoError.msg "unexpected GTID format")
    else
      let sequenceComponents := Split '-' (gtidComponents.getD 1 [])
      let gtidSequenceString : Option GoString :=
        match sequenceComponents with
        | [c0] => some c0
        | [_, c1] => some c1
        | _ => none
      match gtidSequenceString with
      | none => Except.error (GoError.msg "unexpected GTID format")
      | some gtidSequenceString =>
        match Atoi gtidSequenceString with
        | Except.error _ => Except.error (GoError.msg "unable to parse GTID position")
        | Except.ok i => Except.ok i

/-- The function `binlogProducer.initializeGtidPosition`; the result is its error. -/
def initializeGtidPosition (env : Env) (s : State) : Option GoError × State :=
  if s.gtidPosition ≠ none then (none, s)
  else
    let s1 : State := { s with clock := s.clock + 1, trace := s.trace ++ [Action.load] }
    match env.loadErr s.clock with
    | some err => (some err, s1)
    | none =>
      match loadedPosition s.positionStore with
      | none => (none, { s1 with gtidPosition := some ⟨some ⟨[]⟩⟩, gtidSequence := 1 })
      | some position =>
        let s2 : State := { s1 with gtidPosition := some position }
        match parseGtidSequence position.gtidString with
        | Except.error err => (some err, s2)
        | Except.ok i => (none, { s2 with gtidSequence := wrapInt64 (i + 1) })

/-- The function `binlogProducer.createGtidEvent`.  After a successful initialization
`b.gtidPosition` and its `GTIDSet` are not nil; a nil one is a nil dereference. -/
def createGtidEvent (env : Env) (s : State) : Except GoError BinlogEvent × State :=
  match initializeGtidPosition env s with
  | (some err, s1) => (Except.error err, s1)
  | (none, s1) =>
    let s2 : State := { s1 with clock := s1.clock + 1 }
    match env.getServerUuid s1.clock with
    | Except.error err => (Except.error err, s2)
    | Except.ok serverUuid =>
      match env.ParseSID serverUuid with
      | Except.error err => (Except.error err, s2)
      | Except.ok sid =>
        let gtid : Mysql56GTID := ⟨sid, s2.gtidSequence⟩
        let binlogEvent := s2.newEvent (EventKind.gtid gtid)
        let s3 : State := { s2.advance env binlogEvent with gtidSequence := wrapInt64 (s2.gtidSequence + 1) }
        match s3.gtidPosition.bind (fun p => p.GTIDSet) with
        | none => (Except.error (GoError.panic "nil pointer dereference"), s3)
        | some set =>
          let position : Position := ⟨some (set.AddGTID gtid)⟩
          let s4 : State := { s3 with gtidPosition := some position, clock := s3.clock + 1 }
          match env.saveErr s3.clock with
          | some _ =>
            (Except.error (GoError.msg "unable to store GTID executed metadata to disk"),
              { s4 with trace := s3.trace ++ [Action.save position false] })
          | none =>
            let s5 : State :=
              { s4 with positionStore := some position, clock := s4.clock + 1,
                        trace := s3.trace ++ [Action.save position true] }
            match env.assignErr s4.clock with
            | some err =>
              (Except.error err,
                { s5 with trace := s5.trace ++ [Action.assign position.gtidString false] })
            | none =>
              (Except.ok binlogEvent,
                { s5 with gtidExecuted := position.gtidString,
                          trace := s5.trace ++ [Action.assign position.gtidString true] })

/-- The loop of `createSchemaChangeQueryEvents` over the schema patch statements of one
delta: a GTID event and a query event for each statement. -/
def schemaStatementEvents (env : Env) (databaseName : String) :
    List String → List BinlogEvent → State → Except GoError (List BinlogEvent) × State
  | [], events, s => (Except.ok events, s)
  | schemaPatchStatement :: rest, events, s =>
    match createGtidEvent env s with
    | (Except.error err, s1) => (Except.error err, s1)
    | (Except.ok gtidEvent, s1) =>
      let queryEvent := s1.newEvent (EventKind.query databaseName schemaPatchStatement)
      schemaStatementEvents env databaseName rest (events ++ [gtidEvent, queryEvent])
        (s1.advance env queryEvent)

/-- The loop of `createSchemaChangeQueryEvents` over the table deltas, from the events and
the `hasDataChanges` flag gathered so far. -/
def schemaChangeLoop (env : Env) (databaseName : String) :
    List TableDelta → List BinlogEvent → Bool → State →
      Except GoError (List BinlogEvent × Bool) × State
  | [], events, hasDataChanges, s => (Except.ok (events, hasDataChanges), s)
  | tableDelta :: rest, events, hasDataChanges, s =>
    match tableDelta.HasSchemaChanged with
    | Except.error err => (Except.error err, s)
    | Except.ok schemaChanged =>
      match tableDelta.HasDataChanged with
      | Except.error err => (Except.error err, s)
      | Except.ok dataChanged =>
        let hasDataChanges1 := hasDataChanges || (dataChanged && !tableDelta.IsDrop)
        if !schemaChanged && !tableDelta.IsRename then
          schemaChangeLoop env databaseName rest events hasDataChanges1 s
        else
          match tableDelta.schemaPatchStatements with
          | Except.error err => (Except.error err, s)
          | Except.ok schemaPatchStatements =>
            match schemaStatementEvents env databaseName schemaPatchStatements events s with
            | (Except.error err, s1) => (Except.error err, s1)
            | (Except.ok events1, s1) =>
              schemaChangeLoop env databaseName rest events1 hasDataChanges1 s1

/-- The function `binlogProducer.createSchemaChangeQueryEvents`: the events and
`hasDataChanges`, or the error. -/
def createSchemaChangeQueryEvents (env : Env) (databaseName : String)
    (tableDeltas : List TableDelta) (s : State) :
    Except GoError (List BinlogEvent × Bool) × State :=
  schemaChangeLoop env databaseName tableDeltas [] false s

/-- The column loop of `createTableMapFromDoltTable`: the type bytes, the metadata and the
nullability bits, or the error of the first column whose type has no serializer. -/
def tableMapColumns (env : Env) : List Column → Except GoError (List Nat × List Nat × List Bool)
  | [] => Except.ok ([], [], [])
  | col :: cols =>
    match env.typeSerializersMap col.sqlType with
    | none => Except.error (GoError.msg "unsupported type for binlog replication")
    | some (typ, meta) =>
      match tableMapColumns env cols with
      | Except.error err => Except.error err
      | Except.ok (types, metadata, canBeNull) =>
        Except.ok (typ :: types, meta :: metadata, col.IsNullable :: canBeNull)

/-- The function `createTableMapFromDoltTable`. -/
def createTableMapFromDoltTable (env : Env) (databaseName tableName : String)
    (table : DoltTable) : Except GoError TableMap :=
  match table.GetSchema with
  | Except.error err => Except.error err
  | Except.ok schema =>
    match tableMapColumns env schema.columns with
    | Except.error err => Except.error err
    | Except.ok (types, metadata, canBeNull) =>
      Except.ok ⟨0, databaseName, tableName, types, canBeNull, metadata⟩

/-- A Go `map[string]uint64` as the list of its assignments, the latest first. -/
abbrev TableIds := List (String × Nat)

/-- The value `tablesToId[tableName]`, zero for a name that is not in the map. -/
def TableIds.get (m : TableIds) (tableName : String) : Nat :=
  (m.lookup tableName).getD 0

/-- The name a delta goes by: `ToName`, or `FromName` when `ToName` is empty. -/
def TableDelta.tableName (tableDelta : TableDelta) : String :=
  if tableDelta.ToName = "" then tableDelta.FromName else tableDelta.ToName

/-- The loop of `createTableMapEvents`, from the `tableId`, the map and the events so far. -/
def tableMapLoop (env : Env) (databaseName : String) :
    List TableDelta → Nat → TableIds → List BinlogEvent → State →
      Except GoError (List BinlogEvent × TableIds) × State
  | [], _, tablesToId, events, s => (Except.ok (events, tablesToId), s)
  | tableDelta :: rest, tableId, tablesToId, events, s =>
    match tableDelta.HasDataChanged with
    | Except.error err => (Except.error err, s)
    | Except.ok dataChanged =>
      if !dataChanged || tableDelta.IsDrop then
        tableMapLoop env databaseName rest tableId tablesToId events s
      else
        let tableId1 := (tableId + 1) % 2 ^ 64
        let tableName := tableDelta.tableName
        let tablesToId1 : TableIds := (tableName, tableId1) :: tablesToId
        match createTableMapFromDoltTable env databaseName tableName tableDelta.ToTable with
        | Except.error err => (Except.error err, s)
        | Except.ok tableMap =>
          let binlogEvent := s.newEvent (EventKind.tableMap tableId1 tableMap)
          tableMapLoop env databaseName rest tableId1 tablesToId1 (events ++ [binlogEvent])
            (s.advance env binlogEvent)

/-- The function `binlogProducer.createTableMapEvents`. -/
def createTableMapEvents (env : Env) (databaseName : String) (tableDeltas : List TableDelta)
    (s : State) : Except GoError (List BinlogEvent × TableIds) × State :=
  tableMapLoop env databaseName tableDeltas 2 [] [] s

/-- The three slices `tableRowsToWrite`, `tableRowsToDelete`, `tableRowsToUpdate` that the
diff callback of `createRowEvents` appends to; a nil slice is the empty list. -/
structure RowBuffers where
  tableRowsToWrite : List Row
  tableRowsToDelete : List Row
  tableRowsToUpdate : List Row
deriving DecidableEq, Repr

/-- The callback that `createRowEvents` hands to `prolly.DiffMaps`, for one diff. -/
def diffCallback (env : Env) (sch : Schema) (tableDelta : TableDelta) (bufs : RowBuffers)
    (diff : Diff) : Option GoError × RowBuffers :=
  let r := extractRowCountAndDiffType sch diff
  match r.2.2 with
  | some err => (some err, bufs)
  | none =>
    match r.2.1 with
    | DiffType.AddedDiff =>
      match env.serializeRow sch diff.Key diff.To tableDelta.ToTable.NodeStore with
      | Except.error err => (some err, bufs)
      | Except.ok (data, nullBitmap) =>
        (none, { bufs with tableRowsToWrite :=
          bufs.tableRowsToWrite ++ List.replicate r.1 ⟨nullBitmap, data, [], []⟩ })
    | DiffType.ModifiedDiff =>
      match env.serializeRow sch diff.Key diff.To tableDelta.ToTable.NodeStore with
      | Except.error err => (some err, bufs)
      | Except.ok (data, nullColumns) =>
        match env.serializeRow sch diff.Key diff.From tableDelta.FromTable.NodeStore with
        | Except.error err => (some err, bufs)
        | Except.ok (identify, nullIdentifyColumns) =>
          let row : Row := ⟨nullColumns, data, nullIdentifyColumns, identify⟩
          (none, { bufs with tableRowsToUpdate :=
            bufs.tableRowsToUpdate ++ List.replicate r.1 row })
    | DiffType.RemovedDiff =>
      match env.serializeRow sch diff.Key diff.From tableDelta.FromTable.NodeStore with
      | Except.error err => (some err, bufs)
      | Except.ok (identifyData, nullBitmap) =>
        (none, { bufs with tableRowsToDelete :=
          bufs.tableRowsToDelete ++ List.replicate r.1 ⟨[], [], nullBitmap, identifyData⟩ })
    | DiffType.other _ => (some (GoError.msg "unexpected diff type"), bufs)

/-- Models `prolly.DiffMaps`: calls the callback on the diffs in order and returns its first
error; when the callback never fails, returns the error that ends the stream. -/
def DiffMaps (cb : RowBuffers → Diff → Option GoError × RowBuffers) (diffEnd : Option GoError) :
    List Diff → RowBuffers → Option GoError × RowBuffers
  | [], bufs => (diffEnd, bufs)
  | diff :: rest, bufs =>
    match cb bufs diff with
    | (some err, bufs1) => (some err, bufs1)
    | (none, bufs1) => DiffMaps cb diffEnd rest bufs1

/-- The end of the loop body of `createRowEvents`: a write, a delete and an update rows
event, in this order, each for a slice that is not nil. -/
def rowEventsOfBuffers (env : Env) (columns : Nat) (tableId : Nat) (bufs : RowBuffers)
    (events : List BinlogEvent) (s : State) : List BinlogEvent × State :=
  let w : List BinlogEvent × State :=
    if bufs.tableRowsToWrite ≠ [] then
      let binlogEvent := s.newEvent
        (EventKind.writeRows tableId ⟨List.replicate columns true, [], bufs.tableRowsToWrite⟩)
      (events ++ [binlogEvent], s.advance env binlogEvent)
    else (events, s)
  let d : List BinlogEvent × State :=
    if bufs.tableRowsToDelete ≠ [] then
      let binlogEvent := w.2.newEvent
        (EventKind.deleteRows tableId ⟨[], List.replicate columns true, bufs.tableRowsToDelete⟩)
      (w.1 ++ [binlogEvent], w.2.advance env binlogEvent)
    else w
  if bufs.tableRowsToUpdate ≠ [] then
    let binlogEvent := d.2.newEvent
      (EventKind.updateRows tableId
        ⟨List.replicate columns true, List.replicate columns true, bufs.tableRowsToUpdate⟩)
    (d.1 ++ [binlogEvent], d.2.advance env binlogEvent)
  else d

/-- The loop of `createRowEvents` over the table deltas, from the events so far. -/
def rowEventsLoop (env : Env) (tablesToId : TableIds) :
    List TableDelta → List BinlogEvent → State → Except GoError (List BinlogEvent) × State
  | [], events, s => (Except.ok events, s)
  | tableDelta :: rest, events, s =>
    if tableDelta.IsDrop then rowEventsLoop env tablesToId rest events s
    else
      match tableDelta.GetRowData with
      | some err => (Except.error err, s)
      | none =>
        let tableName := tableDelta.tableName
        match tableDelta.ToTable.GetSchema with
        | Except.error err => (Except.error err, s)
        | Except.ok sch =>
          let tableId := tablesToId.get tableName
          let r := DiffMaps (diffCallback env sch tableDelta) tableDelta.diffEnd tableDelta.diffs
            ⟨[], [], []⟩
          if r.1 ≠ none ∧ r.1 ≠ some GoError.eof then
            (Except.error (r.1.getD GoError.eof), s)
          else
            let e := rowEventsOfBuffers env sch.columns.length tableId r.2 events s
            rowEventsLoop env tablesToId rest e.1 e.2

/-- The function `binlogProducer.createRowEvents`. -/
def createRowEvents (env : Env) (tableDeltas : List TableDelta) (tablesToId : TableIds)
    (s : State) : Except GoError (List BinlogEvent) × State :=
  rowEventsLoop env tablesToId tableDeltas [] s

/-- The variable `BinlogBranch`. -/
def BinlogBranch : String := "main"

/-- Models `binlogStreamerManager.sendEvents`: the call is recorded in the trace. -/
def sendEvents (binlogEvents : List BinlogEvent) (s : State) : State :=
  { s with clock := s.clock + 1, trace := s.trace ++ [Action.send binlogEvents] }

/-- The function `binlogProducer.WorkingRootUpdated`; `tableDeltas` is the result of
`diff.GetTableDeltas(ctx, before, after)`.  The result is the error. -/
def WorkingRootUpdated (env : Env) (databaseName branchName : String)
    (tableDeltas : Except GoError (List TableDelta)) (s : State) : Option GoError × State :=
  if branchName ≠ BinlogBranch then (none, s)
  else
    match tableDeltas with
    | Except.error err => (some err, s)
    | Except.ok tableDeltas =>
      match createSchemaChangeQueryEvents env databaseName tableDeltas s with
      | (Except.error err, s1) => (some err, s1)
      | (Except.ok (binlogEvents, hasDataChanges), s1) =>
        if hasDataChanges then
          match createGtidEvent env s1 with
          | (Except.error err, s2) => (some err, s2)
          | (Except.ok gtidEvent, s2) =>
            let beginEvent := s2.newEvent (EventKind.query databaseName "BEGIN")
            let s3 := s2.advance env beginEvent
            match createTableMapEvents env databaseName tableDeltas s3 with
            | (Except.error err, s4) => (some err, s4)
            | (Except.ok (tableMapEvents, tablesToId), s4) =>
              match createRowEvents env tableDeltas tablesToId s4 with
              | (Except.error err, s5) => (some err, s5)
              | (Except.ok rowEvents, s5) =>
                let xidEvent := s5.newEvent EventKind.xid
                let s6 := s5.advance env xidEvent
                (none, sendEvents
                  (binlogEvents ++ [gtidEvent, beginEvent] ++ tableMapEvents ++ rowEvents ++
                    [xidEvent]) s6)
        else (none, sendEvents binlogEvents s1)

/-- The common body of `DatabaseCreated` and `DatabaseDropped`: a GTID event and a query
event with the statement, sent together. -/
def databaseStatement (env : Env) (databaseName statement : String) (s : State) :
    Option GoError × State :=
  match createGtidEvent env s with
  | (Except.error err, s1) => (some err, s1)
  | (Except.ok gtidEvent, s1) =>
    let queryEvent := s1.newEvent (EventKind.query databaseName statement)
    (none, sendEvents [gtidEvent, queryEvent] (s1.advance env queryEvent))

/-- The function `binlogProducer.DatabaseCreated`. -/
def DatabaseCreated (env : Env) (databaseName : String) (s : State) : Option GoError × State :=
  databaseStatement env databaseName ("create database `" ++ databaseName ++ "`;") s

/-- The function `binlogProducer.DatabaseDropped`. -/
def DatabaseDropped (env : Env) (databaseName : String) (s : State) : Option GoError × State :=
  databaseStatement env databaseName ("drop database `" ++ databaseName ++ "`;") s

/-- The events and the state of `k` calls of `createGtidEvent` in a row that all succeed;
`none` when one of them returns an error. -/
def createGtidEvents (env : Env) : Nat → State → Option (List BinlogEvent × State)
  | 0, s => some ([], s)
  | k + 1, s =>
    match createGtidEvent env s with
    | (Except.error _, _) => none
    | (Except.ok binlogEvent, s1) =>
      match createGtidEvents env k s1 with
      | none => none
      | some (events, s2) => some (binlogEvent :: events, s2)

/-- A new producer (`NewBinlogProducer`) after a restart: the log position, `gtidPosition`
and `gtidSequence` are the zero values, the position store and the system variables are
what they were. -/
def restartProducer (s : State) : State :=
  { s with LogPosition := 0, gtidPosition := none, gtidSequence := 0 }

/-- A GTID event. -/
def EventKind.isGtid : EventKind → Bool
  | EventKind.gtid _ => true
  | _ => false

/-- A query event. -/
def EventKind.isQuery : EventKind → Bool
  | EventKind.query _ _ => true
  | _ => false

/-- A TableMap event. -/
def EventKind.isTableMap : EventKind → Bool
  | EventKind.tableMap _ _ => true
  | _ => false

/-- A row event: write rows, delete rows or update rows. -/
def EventKind.isRows : EventKind → Bool
  | EventKind.writeRows _ _ => true
  | EventKind.deleteRows _ _ => true
  | EventKind.updateRows _ _ => true
  | _ => false

/-- No call of `sendEvents` among the calls `acts`. -/
def NoSend (acts : List Action) : Prop :=
  ∀ events, Action.send events ∉ acts

/-- No failed `positionStore.Save` among the calls `acts`. -/
def NoFailedSave (acts : List Action) : Prop :=
  ∀ p, Action.save p false ∉ acts

/-- Every GTID event of `events` has, among the calls `acts`, a successful
`positionStore.Save` of a position whose GTID set is a set with the GTID of the event
added. -/
def GtidSaved (events : List BinlogEvent) (acts : List Action) : Prop :=
  ∀ e ∈ events, ∀ g, e.kind = EventKind.gtid g →
    ∃ set0 : Mysql56GTIDSet, Action.save ⟨some (set0.AddGTID g)⟩ true ∈ acts

/-- Between the states `s` and `s1` of one call of the producer, every `sendEvents` came
after a successful `Save` for each GTID event it was given and after no failed `Save`, and
a failed `Save` means that `sendEvents` was not called at all. -/
def SavedBeforeSent (s s1 : State) : Prop :=
  ∃ acts, s1.trace = s.trace ++ acts ∧
    (∀ pre events post, acts = pre ++ Action.send events :: post →
      NoFailedSave pre ∧ GtidSaved events pre) ∧
    ((∃ p, Action.save p false ∈ acts) → NoSend acts)

/-! ## What the claims say about the event stream -/

/-- The sum of `Length()` over the events. -/
def totalLength (env : Env) (events : List BinlogEvent) : Nat :=
  (events.map (fun e => env.Length e.kind)).sum

/-- The events handed to `sendEvents` by the calls `acts`, in the order they were handed
over. -/
def sentEvents : List Action → List BinlogEvent
  | [] => []
  | Action.send events :: rest => events ++ sentEvents rest
  | _ :: rest => sentEvents rest

/-- The events handed to `sendEvents` between the states `s` and `s1` of one call. -/
def sentDuring (s s1 : State) : List BinlogEvent :=
  sentEvents (s1.trace.drop s.trace.length)

/-- Every event was made at the log position that the events before it left, from `pos`:
each event advances the counter by its own length. -/
def positionsFrom (env : Env) : Nat → List BinlogEvent → Bool
  | _, [] => true
  | pos, e :: rest =>
    decide (e.logPos = pos) && positionsFrom env ((pos + env.Length e.kind) % 2 ^ env.posBits) rest

/-- The log position that the events leave, from `pos`. -/
def endPosition (env : Env) : Nat → List BinlogEvent → Nat
  | pos, [] => pos
  | pos, e :: rest => endPosition env ((pos + env.Length e.kind) % 2 ^ env.posBits) rest

/-- Between the states `s` and `s1` the events `new` were made, each at the log position
that the earlier ones left, and `s1` is at the log position that they leave. -/
def Emits (env : Env) (s : State) (new : List BinlogEvent) (s1 : State) : Prop :=
  positionsFrom env s.LogPosition new = true ∧
    s1.LogPosition = endPosition env s.LogPosition new

/-- The sequence number a GTID event made in state `s` gets: what the initialization of
the GTID position leaves in `gtidSequence`. -/
def nextSequence (env : Env) (s : State) : Int :=
  (initializeGtidPosition env s).2.gtidSequence

/-- The sequence number after `n` GTID events from `seq`. -/
def sequenceAfter : Nat → Int → Int
  | 0, seq => seq
  | n + 1, seq => sequenceAfter n (wrapInt64 (seq + 1))

/-- The events are, statement by statement, a GTID event with the next sequence number
immediately followed by the query event with the statement, and nothing else. -/
def gtidQueryPairs (databaseName : String) : Int → List String → List BinlogEvent → Bool
  | _, [], events => decide (events = [])
  | seq, stmt :: rest, e1 :: e2 :: events =>
    (match e1.kind with
      | EventKind.gtid g => decide (g.Sequence = seq)
      | _ => false) &&
    decide (e2.kind = EventKind.query databaseName stmt) &&
    gtidQueryPairs databaseName (wrapInt64 (seq + 1)) rest events
  | _, _ :: _, _ => false

/-- The schema patch statements that a delta contributes: those of a delta with a schema
change or a rename. -/
def patchStatements (tableDelta : TableDelta) : List String :=
  if tableDelta.HasSchemaChanged = Except.ok true ∨ tableDelta.IsRename = true then
    match tableDelta.schemaPatchStatements with
    | Except.ok statements => statements
    | Except.error _ => []
  else []

/-- The schema patch statements of the deltas, delta by delta. -/
def schemaStatements (tableDeltas : List TableDelta) : List String :=
  (tableDeltas.map patchStatements).flatten

/-- The deltas that have data changes and are not a drop. -/
def dataDeltas (tableDeltas : List TableDelta) : List TableDelta :=
  tableDeltas.filter (fun td => decide (td.HasDataChanged = Except.ok true) && !td.IsDrop)

/-- An environment in which no collaborator fails: events of length 19, the server UUID
`00000000-0000-0000-0000-000000000001`, rows serialized to their key and value fields. -/
def sampleEnv : Env where
  posBits := 32
  Length := fun _ => 19
  loadErr := fun _ => none
  saveErr := fun _ => none
  assignErr := fun _ => none
  getServerUuid := fun _ => Except.ok "00000000-0000-0000-0000-000000000001".data
  ParseSID := fun _ => Except.ok ⟨[0, 0, 0, 0, 0, 0, 0, 0, 0, 0, 0, 0, 0, 0, 0, 1]⟩
  serializeRow := fun _ key value _ =>
    Except.ok ((key ++ value).map (fun v => v.getD 0), (key ++ value).map (fun v => v.isNone))
  typeSerializersMap := fun t => some (t, 0)

/-- A table that reads its schema without error. -/
def sampleTable (keyless : Bool) : DoltTable :=
  ⟨Except.ok ⟨keyless, [⟨3, false⟩, ⟨3, true⟩]⟩, 7⟩

/-- A delta of table `t` with changed data and the given row diffs. -/
def sampleDelta (keyless : Bool) (diffs : List Diff) : TableDelta where
  FromName := "t"
  ToName := "t"
  FromTable := sampleTable keyless
  ToTable := sampleTable keyless
  IsRename := false
  IsDrop := false
  HasSchemaChanged := Except.ok false
  HasDataChanged := Except.ok true
  schemaPatchStatements := Except.ok []
  GetRowData := none
  diffs := diffs
  diffEnd := some GoError.eof

/-- The delta of a commit that creates table `t` and inserts one row into it. -/
def sampleCreateAndInsert : TableDelta :=
  { sampleDelta false [⟨[some 1], [], [some 1], DiffType.AddedDiff⟩] with
    HasSchemaChanged := Except.ok true
    schemaPatchStatements := Except.ok ["create table t(pk int primary key, c0 int);"] }

/-- The delta of a commit that alters table `t` with two statements and changes no row. -/
def sampleAlter : TableDelta :=
  { sampleDelta false [] with
    HasSchemaChanged := Except.ok true
    HasDataChanged := Except.ok false
    schemaPatchStatements :=
      Except.ok ["alter table t add column c1 int;", "alter table t drop column c0;"] }

/-- A delta of table `u` with changed data and no row diff. -/
def sampleOther : TableDelta :=
  { sampleDelta false [] with FromName := "", ToName := "u" }

/-- A producer that has not been used, over an empty position store. -/
def freshState : State :=
  ⟨0, none, 0, none, [], 0, []⟩

/-- A producer that has not been used, over a position store that holds the GTID set of
the sample server with the two intervals `1-3` and `5-7`. -/
def gapState : State :=
  { freshState with
    positionStore := some ⟨some ⟨[(⟨[0, 0, 0, 0, 0, 0, 0, 0, 0, 0, 0, 0, 0, 0, 0, 1]⟩,
      [⟨1, 3⟩, ⟨5, 7⟩])]⟩⟩ }

/-- The delta of a commit that creates table `t` and inserts a row into it, whose row data
cannot be read. -/
def sampleUnreadable : TableDelta :=
  { sampleCreateAndInsert with GetRowData := some (GoError.msg "cannot read row data") }

/-- A producer that has issued its first GTID, for the creation of the database `db`. -/
def usedState : State :=
  (DatabaseCreated sampleEnv "db" freshState).2

/-- A producer whose log position is 5 below the largest `uint32`, as it is after events
of 4294967290 bytes in all (226050910 events of length 19) were made on its stream; the
fields that do not bear on the log position are those of `usedState`. -/
def wrapState : State :=
  { usedState with LogPosition := 4294967290 }

end Binlog

namespace Statspro

/-! ## Statistics: buckets, histograms, snapshots and the cache -/

/-- The constant `collectBatchSize`. -/
def collectBatchSize : Nat := 20

/-- A `hash.Hash` (20 bytes) as the number its bytes spell; the zero value is `0`. -/
abbrev Hash := Nat

/-- A `sql.Row`: one value per column, `none` for NULL. -/
abbrev SqlRow := List (Option Nat)

/-- The struct `stats.Bucket`. -/
structure Bucket where
  RowCnt : Nat
  DistinctCnt : Nat
  NullCnt : Nat
  McvsCnt : List Nat
  BoundCnt : Nat
  BoundVal : SqlRow
  McvVals : List SqlRow
deriving DecidableEq, Repr

/-- The struct `sql.StatQualifier`. -/
structure StatQualifier where
  Database : String
  Sch : String
  Tab : String
  Idx : String
deriving DecidableEq, Repr

/-- What the worker asks of a `*sql.FuncDepSet`: `Empty()`. -/
structure FuncDepSet where
  Empty : Bool
deriving DecidableEq, Repr

/-- The struct `stats.Statistic`; `Fds` is `none` for a nil pointer and `Colset` is the
list of its column ids. -/
structure Statistic where
  RowCnt : Nat
  DistinctCnt : Nat
  NullCnt : Nat
  Hist : List Bucket
  LowerBnd : SqlRow
  Qual : StatQualifier
  Cols : List String
  Typs : List Nat
  IdxClass : Nat
  Fds : Option FuncDepSet
  Colset : List Nat
deriving DecidableEq, Repr

/-- The struct `tableIndexesKey`. -/
structure tableIndexesKey where
  db : String
  branch : String
  table : String
  schema : String
deriving DecidableEq, Repr

/-- A Go map as the list of its entries; every key occurs once. -/
abbrev GoMap (κ : Type) (α : Type) := List (κ × α)

/-- The value `m[k]` with a presence flag (`v, ok := m[k]`). -/
def GoMap.get? {κ α : Type} [DecidableEq κ] (m : GoMap κ α) (k : κ) : Option α :=
  match m with
  | [] => none
  | e :: rest => if e.1 = k then some e.2 else GoMap.get? rest k

/-- The assignment `m[k] = v`. -/
def GoMap.set {κ α : Type} [DecidableEq κ] (m : GoMap κ α) (k : κ) (v : α) : GoMap κ α :=
  match m with
  | [] => [(k, v)]
  | e :: rest => if e.1 = k then (k, v) :: rest else e :: GoMap.set rest k v

/-- The struct `rootStats`. -/
structure rootStats where
  hashes : GoMap tableIndexesKey Hash
  stats : GoMap tableIndexesKey (List Statistic)
  DbCnt : Nat
  BucketWrites : Nat
  TablesProcessed : Nat
  TablesSkipped : Nat
  hash : Nat
deriving DecidableEq, Repr

/-- The function `newRootStats`. -/
def newRootStats : rootStats :=
  ⟨[], [], 0, 0, 0, 0, 0⟩

/-- The struct `templateCacheKey`. -/
structure templateCacheKey where
  h : Hash
  idxName : String
deriving DecidableEq, Repr

/-- Modelled from the spec: the struct `memStats` of the bucket and template cache, which is
not in `worker.go`.  Buckets and bounds are keyed by node hash and key length, templates by
`templateCacheKey`; `gcGen` is the generation a GC pass recorded. -/
structure memStats where
  gcGen : Nat
  buckets : GoMap (Hash × Nat) Bucket
  bounds : GoMap (Hash × Nat) SqlRow
  templates : GoMap templateCacheKey Statistic
deriving DecidableEq, Repr

/-- Modelled from the spec: `NewMemStats`, an empty cache. -/
def NewMemStats : memStats :=
  ⟨0, [], [], []⟩

/-- Modelled from the spec: `memStats.GcGen()`. -/
def memStats.GcGen (m : memStats) : Nat :=
  m.gcGen

/-- The struct `StatsController`: the generation counter `genCnt` (an `atomic.Uint64`), the
published snapshot `Stats`, the primary cache `kv`, the GC flag and count, `memOnly`, the
errors given to `descError` (`errLog`) and the clock of the rate limiter. -/
structure StatsController where
  genCnt : Nat
  Stats : rootStats
  kv : memStats
  doGc : Bool
  gcCnt : Int
  memOnly : Bool
  errLog : List (String × Option GoError)
  clock : Nat
deriving DecidableEq, Repr

/-- Models `sc.descError(name, err)`: the error is recorded. -/
def StatsController.descError (sc : StatsController) (name : String) (err : Option GoError) :
    StatsController :=
  { sc with errLog := sc.errLog ++ [(name, err)] }

/-- A `tree.Node` of the histogram level: `HashOf()` and `TreeCount()`. -/
structure Node where
  HashOf : Hash
  TreeCount : Except GoError Nat
deriving DecidableEq

/-- What the worker asks of a `prolly.Map`: its key tuples in order, and the result of
`tree.GetHistogramLevel` on it. -/
structure ProllyMap where
  keys : List SqlRow
  histogramLevel : Except GoError (List Node)
deriving DecidableEq

/-- Models `prolly.Map.IterOrdinalRange(start, stop)`: the keys at the ordinals
`start .. stop - 1`; inverted or out-of-range bounds are an error. -/
def ProllyMap.IterOrdinalRange (m : ProllyMap) (start stop : Nat) : Except GoError (List SqlRow) :=
  if stop < start then Except.error (GoError.msg "invalid ordinal bounds")
  else if m.keys.length < stop then Except.error (GoError.msg "stop index out of bounds")
  else Except.ok ((m.keys.drop start).take (stop - start))

/-- What the worker asks of a `sql.Index`. -/
structure SqlIndex where
  ID : String
  IsSpatial : Bool
  IsFullText : Bool
  IsGenerated : Bool
  IsVector : Bool
  Expressions : List String
  ColumnExpressionTypes : List Nat
  IndexFds : Except GoError (Option FuncDepSet × List Nat)
deriving DecidableEq

/-- What the worker asks of a `*doltdb.Table`: `HashOf`, and the prolly map of an index by
its id (`GetRowData` for PRIMARY, else `GetIndexRowData`, then `ProllyMapFromIndex`). -/
structure DoltTable where
  HashOf : Except GoError Hash
  GetRowData : Except GoError ProllyMap
  GetIndexRowData : String → Except GoError ProllyMap

/-- What the worker asks of a `*sqle.DoltTable`. -/
structure SqleDoltTable where
  Name : String
  SchemaName : String
  GetIndexes : Except GoError (List SqlIndex)
  IndexCacheKey : Except GoError Hash
  DoltTable : Except GoError DoltTable

/-- The dynamic type of the table that `GetTableInsensitive` returns. -/
inductive SqlTable where
  | AlterableDoltTable (t : SqleDoltTable)
  | WritableDoltTable (t : SqleDoltTable)
  | DoltTable (t : SqleDoltTable)
  | otherTable

/-- The dynamic type of a `sql.Database`. -/
inductive DatabaseKind where
  | Database
  | ReadReplicaDatabase
  | otherDatabase
deriving DecidableEq, Repr

/-- What the worker asks of a `dsess.SqlDatabase`. -/
structure SqlDatabase where
  kind : DatabaseKind
  AliasedName : String
  Revision : String
  RevisionQualifiedName : String
  GetTableInsensitive : String → Except GoError (Option SqlTable)

/-- The collaborators of the statistics worker.

* `rateLimit`: the error of `rateLimiter.execute` when it does not run its function, by the
  clock value of the call;
* `getBucketErr`: the error of `GetBucket` for a node hash;
* `putBucketErr`: the error of `PutBucket` for a node hash;
* `finalize`: the bucket that the bucket builder makes of the key rows of one node
  (`newBucket`, `add` for each row, `finalize`), for a key length;
* `firstRowForIndex`: the function of this name;
* `GcMark`: `gcKv.GcMark(sc.kv, levelNodes, buckets, idxLen, keyBuilder)`, `none` when it
  returns false;
* `rotateStorage`, `Flush`: what the unlocked calls of `trySwapStats` leave of the
  controller, their errors logged. -/
structure Env where
  rateLimit : Nat → Option GoError
  getBucketErr : Hash → Option GoError
  putBucketErr : Hash → Option GoError
  finalize : Nat → List SqlRow → Except GoError Bucket
  firstRowForIndex : Nat → ProllyMap → Except GoError SqlRow
  GcMark : memStats → memStats → List Node → List Bucket → Nat → Option memStats
  rotateStorage : StatsController → StatsController
  Flush : StatsController → StatsController

/-! ## The cache operations of the controller -/

/-- Modelled from the spec: `sc.GetBucket(ctx, h, keyBuilder)`, the bucket stored for the
node hash and key length, a found flag, or an error. -/
def StatsController.GetBucket (env : Env) (sc : StatsController) (h : Hash) (idxLen : Nat) :
    Except GoError (Option Bucket) :=
  match env.getBucketErr h with
  | some err => Except.error err
  | none => Except.ok (sc.kv.buckets.get? (h, idxLen))

/-- Modelled from the spec: `sc.PutBucket(ctx, h, b, keyBuilder)`. -/
def StatsController.PutBucket (env : Env) (sc : StatsController) (h : Hash) (b : Bucket)
    (idxLen : Nat) : Option GoError × StatsController :=
  match env.putBucketErr h with
  | some err => (some err, sc)
  | none => (none, { sc with kv := { sc.kv with buckets := sc.kv.buckets.set (h, idxLen) b } })

/-- Modelled from the spec: `sc.GetBound(h, idxLen)`. -/
def StatsController.GetBound (sc : StatsController) (h : Hash) (idxLen : Nat) : Option SqlRow :=
  sc.kv.bounds.get? (h, idxLen)

/-- Modelled from the spec: `sc.PutBound(h, row, idxLen)`. -/
def StatsController.PutBound (sc : StatsController) (h : Hash) (row : SqlRow) (idxLen : Nat) :
    StatsController :=
  { sc with kv := { sc.kv with bounds := sc.kv.bounds.set (h, idxLen) row } }

/-- Modelled from the spec: `sc.GetTemplate(key)`. -/
def StatsController.GetTemplate (sc : StatsController) (key : templateCacheKey) :
    Option Statistic :=
  sc.kv.templates.get? key

/-- Modelled from the spec: `sc.PutTemplate(key, template)`. -/
def StatsController.PutTemplate (sc : StatsController) (key : templateCacheKey)
    (template : Statistic) : StatsController :=
  { sc with kv := { sc.kv with templates := sc.kv.templates.set key template } }

/-- Modelled from the spec: `memStats.PutTemplate(key, template)`. -/
def memStats.PutTemplate (m : memStats) (key : templateCacheKey) (template : Statistic) :
    memStats :=
  { m with templates := m.templates.set key template }

/-! ## `worker.go` -/

/-- The function `StatsController.execWithOptionalRateLimit`: `f` is run directly, or by the
rate limiter, which may return an error without running it.  `openSessionCmds` only
brackets the call in a session command. -/
def execWithOptionalRateLimit {α : Type} (env : Env) (bypassRateLimit _openSessionCmds : Bool)
    (f : StatsController → Except GoError α × StatsController) (sc : StatsController) :
    Except GoError α × StatsController :=
  if bypassRateLimit then f sc
  else
    match env.rateLimit sc.clock with
    | some err => (Except.error err, { sc with clock := sc.clock + 1 })
    | none => f { sc with clock := sc.clock + 1 }

/-- The function `StatsController.trySwapStats`: the results `(ok, err)` and the controller.
`ctxErr` is `ctx.Err()` read in the critical section, `newStats` and `gcKv` are `none` for
nil pointers.  The listener signal of the deferred call is not part of the state. -/
def trySwapStats (env : Env) (ctxErr : Option GoError) (prevGen : Nat)
    (newStats : Option rootStats) (gcKv : Option memStats) (sc : StatsController) :
    (Bool × Option GoError) × StatsController :=
  match newStats with
  | none => ((false, some (GoError.msg "attempted to place a nil stats object")), sc)
  | some newStats =>
    match ctxErr with
    | some cause => ((false, some cause), sc)
    | none =>
      if sc.genCnt = prevGen then
        let sc1 : StatsController := { sc with genCnt := (prevGen + 1) % 2 ^ 64, Stats := newStats }
        match gcKv with
        | some gcKv =>
          if prevGen ≠ gcKv.GcGen then
            ((false, some (GoError.msg "gc gen didn't match update gen")), sc1)
          else
            let sc2 : StatsController :=
              { sc1 with doGc := false, gcCnt := wrapInt64 (sc1.gcCnt + 1), kv := gcKv }
            let sc3 := if !sc2.memOnly then env.rotateStorage sc2 else sc2
            let sc4 := if !sc3.memOnly then env.Flush sc3 else sc3
            ((true, none), sc4)
        | none =>
          let sc2 := if !sc1.memOnly then env.Flush sc1 else sc1
          ((true, none), sc2)
      else ((false, none), sc)

/-- The function `StatsController.preexistingStats`; a key that is not in a map reads as
the zero hash and the nil list. -/
def preexistingStats (sc : StatsController) (k : tableIndexesKey) (h : Hash) :
    List Statistic × Bool :=
  if (sc.Stats.hashes.get? k).getD 0 = h then ((sc.Stats.stats.get? k).getD [], true)
  else ([], false)

/-- The function `StatsController.finalizeHistogram`; the counters are `uint64`. -/
def finalizeHistogram (template : Statistic) (buckets : List Bucket) (firstBound : SqlRow) :
    Statistic :=
  buckets.foldl
    (fun t b =>
      { t with RowCnt := (t.RowCnt + b.RowCnt) % 2 ^ 64,
               DistinctCnt := (t.DistinctCnt + b.DistinctCnt) % 2 ^ 64,
               NullCnt := (t.NullCnt + b.NullCnt) % 2 ^ 64,
               Hist := t.Hist ++ [b] })
    { template with LowerBnd := firstBound }

/-- The variables `i`, `offset` and `writes` that the batch closure of `collectIndexNodes`
captures; `rest` is `nodes[i:]`.  `ranges` is not a variable of the Go code: it records
the pair `start, stop` that the closure computed for each node it visited, in the order
of the visits. -/
structure BatchState where
  rest : List Node
  offset : Nat
  writes : Nat
  ranges : List (Nat × Nat)
deriving DecidableEq

/-- The batch closure of `collectIndexNodes`: visits nodes until `collectBatchSize` buckets
were written or no node is left.  `newWrites` counts the buckets written by this call.
The result is the error of the closure and the captured variables as the closure left
them, on an error too. -/
def batchClosure (env : Env) (prollyMap : ProllyMap) (idxLen : Nat) :
    List Node → Nat → Nat → Nat → List (Nat × Nat) → StatsController →
      Option GoError × BatchState × StatsController
  | [], _, offset, writes, ranges, sc => (none, ⟨[], offset, writes, ranges⟩, sc)
  | n :: rest, newWrites, offset, writes, ranges, sc =>
    if ¬ newWrites < collectBatchSize then (none, ⟨n :: rest, offset, writes, ranges⟩, sc)
    else
      match n.TreeCount with
      | Except.error err => (some err, ⟨rest, offset, writes, ranges⟩, sc)
      | Except.ok treeCnt =>
        let start := offset
        let stop := (offset + treeCnt) % 2 ^ 64
        let ranges1 := ranges ++ [(start, stop)]
        match sc.GetBucket env n.HashOf idxLen with
        | Except.error err => (some err, ⟨rest, stop, writes, ranges1⟩, sc)
        | Except.ok (some _) =>
          batchClosure env prollyMap idxLen rest newWrites stop writes ranges1 sc
        | Except.ok none =>
          match prollyMap.IterOrdinalRange start stop with
          | Except.error err => (some err, ⟨rest, stop, writes + 1, ranges1⟩, sc)
          | Except.ok keys =>
            match env.finalize idxLen (keys.map (fun key => key.take idxLen)) with
            | Except.error err => (some err, ⟨rest, stop, writes + 1, ranges1⟩, sc)
            | Except.ok newBucket =>
              match sc.PutBucket env n.HashOf newBucket idxLen with
              | (some err, sc1) => (some err, ⟨rest, stop, writes + 1, ranges1⟩, sc1)
              | (none, sc1) =>
                batchClosure env prollyMap idxLen rest (newWrites + 1) stop (writes + 1)
                  ranges1 sc1

/-- One round of the loop of `collectIndexNodes`: the batch closure run by
`execWithOptionalRateLimit`.  The closure hands its error and the variables it captured
back through its result; a rate limiter that does not run the closure leaves the
variables as they are. -/
def batchRound (env : Env) (prollyMap : ProllyMap) (idxLen : Nat)
    (bypassRateLimit openSessionCmds : Bool) (st : BatchState) (sc : StatsController) :
    Option GoError × BatchState × StatsController :=
  match execWithOptionalRateLimit env bypassRateLimit openSessionCmds
      (fun sc0 =>
        let r := batchClosure env prollyMap idxLen st.rest 0 st.offset st.writes st.ranges sc0
        (Except.ok (r.1, r.2.1), r.2.2))
      sc with
  | (Except.error err, sc1) => (some err, st, sc1)
  | (Except.ok (err, st1), sc1) => (err, st1, sc1)

/-- The loop `for i := 0; i < len(nodes);` of `collectIndexNodes`, which runs the batch
closure under the rate limiter; `fuel` bounds the number of rounds. -/
def batchLoop (env : Env) (prollyMap : ProllyMap) (idxLen : Nat)
    (bypassRateLimit openSessionCmds : Bool) :
    Nat → BatchState → StatsController → Option GoError × BatchState × StatsController
  | 0, st, sc =>
    if st.rest = [] then (none, st, sc) else (some (GoError.panic "out of fuel"), st, sc)
  | fuel + 1, st, sc =>
    if st.rest = [] then (none, st, sc)
    else
      match batchRound env prollyMap idxLen bypassRateLimit openSessionCmds st sc with
      | (some err, st1, sc1) => (some err, st1, sc1)
      | (none, st1, sc1) =>
        batchLoop env prollyMap idxLen bypassRateLimit openSessionCmds fuel st1 sc1

/-- The number of rounds that the loop of `collectIndexNodes` makes, each of which invokes
the batch closure at most once, when it may make at most `fuel` rounds. -/
def batchLoopRounds (env : Env) (prollyMap : ProllyMap) (idxLen : Nat)
    (bypassRateLimit openSessionCmds : Bool) : Nat → BatchState → StatsController → Nat
  | 0, _, _ => 0
  | fuel + 1, st, sc =>
    if st.rest = [] then 0
    else
      match batchRound env prollyMap idxLen bypassRateLimit openSessionCmds st sc with
      | (some _, _, _) => 1
      | (none, st1, sc1) =>
        1 + batchLoopRounds env prollyMap idxLen bypassRateLimit openSessionCmds fuel st1 sc1

/-- The last closure of `collectIndexNodes`: reads the bucket of every node back from the
cache.  A missing bucket is logged and ends the loop with the error of the lookup, which
is nil when the lookup itself did not fail; a lookup that panics logs nothing. -/
def gatherBuckets (env : Env) (idxLen : Nat) :
    List Node → List Bucket → StatsController → Option GoError × List Bucket × StatsController
  | [], buckets, sc => (none, buckets, sc)
  | n :: rest, buckets, sc =>
    match sc.GetBucket env n.HashOf idxLen with
    | Except.error err =>
      if err.isPanic then (some err, buckets, sc)
      else (some err, buckets, sc.descError "missing histogram bucket for node" (some err))
    | Except.ok none => (none, buckets, sc.descError "missing histogram bucket for node" none)
    | Except.ok (some newBucket) => gatherBuckets env idxLen rest (buckets ++ [newBucket]) sc

/-- The function `StatsController.collectIndexNodes`: the buckets, the lower bound and the
number of writes, or the error.  An empty `nodes` is an index out of range at `nodes[0]`. -/
def collectIndexNodes (env : Env) (prollyMap : ProllyMap) (idxLen : Nat) (nodes : List Node)
    (bypassRateLimit openSessionCmds : Bool) (sc : StatsController) :
    Except GoError (List Bucket × SqlRow × Nat) × StatsController :=
  match nodes with
  | [] => (Except.error (GoError.panic "index out of range"), sc)
  | first :: _ =>
    let firstNodeHash := first.HashOf
    let bound : Except GoError SqlRow × StatsController :=
      match sc.GetBound firstNodeHash idxLen with
      | some lowerBound => (Except.ok lowerBound, sc)
      | none =>
        execWithOptionalRateLimit env bypassRateLimit openSessionCmds
          (fun sc0 =>
            match env.firstRowForIndex idxLen prollyMap with
            | Except.error err =>
              if err.isPanic then (Except.error err, sc0)
              else (Except.error (GoError.msg "get histogram bucket for node"), sc0)
            | Except.ok lowerBound =>
              (Except.ok lowerBound, sc0.PutBound firstNodeHash lowerBound idxLen))
          sc
    match bound with
    | (Except.error err, sc1) => (Except.error err, sc1)
    | (Except.ok lowerBound, sc1) =>
      match batchLoop env prollyMap idxLen bypassRateLimit openSessionCmds nodes.length
          ⟨nodes, 0, 0, []⟩ sc1 with
      | (some err, _, sc2) => (Except.error err, sc2)
      | (none, st, sc2) =>
        match gatherBuckets env idxLen nodes [] sc2 with
        | (some err, _, sc3) => (Except.error err, sc3)
        | (none, buckets, sc3) => (Except.ok (buckets, lowerBound, st.writes), sc3)

/-- Models `strings.ToLower` (ASCII). -/
def ToLower (s : String) : String :=
  String.mk (s.data.map Char.toLower)

/-- Models `strings.EqualFold` (ASCII). -/
def EqualFold (a b : String) : Bool :=
  decide (ToLower a = ToLower b)

/-- Cuts `lead` off the front of `cs` when `cs` starts with it. -/
def trimLeading : List Char → List Char → Option (List Char)
  | [], cs => some cs
  | _ :: _, [] => none
  | p :: ps, c :: cs => if p = c then trimLeading ps cs else none

/-- Models `strings.TrimPrefix(s, lead)`. -/
def TrimLeading (s lead : String) : String :=
  match trimLeading lead.data s.data with
  | some rest => String.mk rest
  | none => s

/-- The function `GetLatestTable`. -/
def GetLatestTable (tableName : String) (sqlDb : SqlDatabase) :
    Except GoError (SqleDoltTable × DoltTable) :=
  match sqlDb.kind with
  | DatabaseKind.otherDatabase => Except.error (GoError.msg "expected sqle.Database")
  | _ =>
    match sqlDb.GetTableInsensitive tableName with
    | Except.error err => Except.error err
    | Except.ok none => Except.error (GoError.msg "statistics refresh error: table not found")
    | Except.ok (some sqlTable) =>
      let unwrapped : Except GoError SqleDoltTable :=
        match sqlTable with
        | SqlTable.AlterableDoltTable t => Except.ok t
        | SqlTable.WritableDoltTable t => Except.ok t
        | SqlTable.DoltTable t => Except.ok t
        | SqlTable.otherTable => Except.error (GoError.msg "failed to unwrap dolt table")
      match unwrapped with
      | Except.error err => Except.error err
      | Except.ok sqleTable =>
        match sqleTable.DoltTable with
        | Except.error err => Except.error err
        | Except.ok dTab => Except.ok (sqleTable, dTab)

/-- The function `StatsController.getTemplate`.  The index classes are
`sql.IndexClassDefault = 0`, `IndexClassSpatial = 1`, `IndexClassFulltext = 2`. -/
def getTemplate (sqlTable : SqleDoltTable) (sqlIdx : SqlIndex) (sc : StatsController) :
    Except GoError (templateCacheKey × Statistic) × StatsController :=
  match sqlTable.IndexCacheKey with
  | Except.error err => (Except.error err, sc)
  | Except.ok schHash =>
    let key : templateCacheKey := ⟨schHash, sqlIdx.ID⟩
    match sc.GetTemplate key with
    | some template => (Except.ok (key, template), sc)
    | none =>
      match sqlIdx.IndexFds with
      | Except.error err => (Except.error err, sc)
      | Except.ok (fds, colset) =>
        let cls : Nat := if sqlIdx.IsSpatial then 1 else if sqlIdx.IsFullText then 2 else 0
        let tableLead := ToLower sqlTable.Name ++ "."
        let cols := sqlIdx.Expressions.map (fun c => TrimLeading (ToLower c) tableLead)
        let template : Statistic :=
          { RowCnt := 0, DistinctCnt := 0, NullCnt := 0, Hist := [], LowerBnd := [],
            Qual := ⟨"", "", ToLower sqlTable.Name, ToLower sqlIdx.ID⟩,
            Cols := cols, Typs := sqlIdx.ColumnExpressionTypes, IdxClass := cls,
            Fds := fds, Colset := colset }
        (Except.ok (key, template), sc.PutTemplate key template)

/-- What one collection pass works on: the controller, the snapshot `newStats` it builds and
the GC cache `gcKv` (`none` for nil). -/
structure Pass where
  sc : StatsController
  newStats : rootStats
  gcKv : Option memStats
deriving DecidableEq

/-- The first closure of the index loop of `updateTable`: the prolly map of the index and
its template. -/
def indexMapAndTemplate (sqlTable : SqleDoltTable) (dTab : DoltTable) (sqlIdx : SqlIndex)
    (sc : StatsController) :
    Except GoError (ProllyMap × templateCacheKey × Statistic) × StatsController :=
  let idx :=
    if EqualFold sqlIdx.ID "PRIMARY" then dTab.GetRowData else dTab.GetIndexRowData sqlIdx.ID
  match idx with
  | Except.error err => (Except.error err, sc)
  | Except.ok prollyMap =>
    match getTemplate sqlTable sqlIdx sc with
    | (Except.error err, sc1) =>
      if err.isPanic then (Except.error err, sc1)
      else
        (Except.error
          (GoError.msg "stats collection failed to generate a statistic template"), sc1)
    | (Except.ok (templateKey, template), sc1) =>
      (Except.ok (prollyMap, templateKey, template), sc1)

/-- The index loop of `updateTable`, from the `newTableStats` gathered so far. -/
def indexLoop (env : Env) (sqlDb : SqlDatabase) (sqlTable : SqleDoltTable) (dTab : DoltTable)
    (bypassRateLimit openSessionCmds : Bool) :
    List SqlIndex → List Statistic → Pass → Except GoError (List Statistic) × Pass
  | [], newTableStats, p => (Except.ok newTableStats, p)
  | sqlIdx :: rest, newTableStats, p =>
    if sqlIdx.IsSpatial || sqlIdx.IsFullText || sqlIdx.IsGenerated || sqlIdx.IsVector then
      indexLoop env sqlDb sqlTable dTab bypassRateLimit openSessionCmds rest newTableStats p
    else
      match execWithOptionalRateLimit env bypassRateLimit openSessionCmds
          (indexMapAndTemplate sqlTable dTab sqlIdx) p.sc with
      | (Except.error err, sc1) => (Except.error err, { p with sc := sc1 })
      | (Except.ok (prollyMap, templateKey, template0), sc1) =>
        if template0.Fds.all (fun fds => fds.Empty) then
          (Except.error (GoError.msg "failed to creat template"), { p with sc := sc1 })
        else
          let template : Statistic :=
            { template0 with Qual := { template0.Qual with Database := sqlDb.AliasedName } }
          let idxLen := sqlIdx.Expressions.length
          match execWithOptionalRateLimit env bypassRateLimit openSessionCmds
              (fun sc0 =>
                match prollyMap.histogramLevel with
                | Except.error err =>
                  if err.isPanic then (Except.error err, sc0)
                  else (Except.error err, sc0.descError "get level" (some err))
                | Except.ok levelNodes => (Except.ok levelNodes, sc0))
              sc1 with
          | (Except.error err, sc2) => (Except.error err, { p with sc := sc2 })
          | (Except.ok levelNodes, sc2) =>
            let collected : Except GoError (List Bucket × SqlRow × Nat) × StatsController :=
              if levelNodes.length > 0 then
                collectIndexNodes env prollyMap idxLen levelNodes bypassRateLimit
                  openSessionCmds sc2
              else (Except.ok ([], [], 0), sc2)
            match collected with
            | (Except.error err, sc3) =>
              if err.isPanic then (Except.error err, { p with sc := sc3 })
              else
                indexLoop env sqlDb sqlTable dTab bypassRateLimit openSessionCmds rest
                  newTableStats { p with sc := sc3.descError "" (some err) }
            | (Except.ok (buckets, firstBound, writes), sc3) =>
              let newStats1 : rootStats :=
                { p.newStats with BucketWrites := p.newStats.BucketWrites + writes }
              let newTableStats1 :=
                newTableStats ++ [finalizeHistogram template buckets firstBound]
              match p.gcKv with
              | none =>
                indexLoop env sqlDb sqlTable dTab bypassRateLimit openSessionCmds rest
                  newTableStats1 ⟨sc3, newStats1, none⟩
              | some gcKv =>
                match env.GcMark gcKv sc3.kv levelNodes buckets idxLen with
                | none =>
                  (Except.error (GoError.msg "GC interrupted updated"),
                    ⟨sc3, newStats1, some gcKv⟩)
                | some gcKv1 =>
                  indexLoop env sqlDb sqlTable dTab bypassRateLimit openSessionCmds rest
                    newTableStats1 ⟨sc3, newStats1, some (gcKv1.PutTemplate templateKey template)⟩

/-- The function `StatsController.updateTable`; the result is its error. -/
def updateTable (env : Env) (tableName : String) (sqlDb : SqlDatabase)
    (bypassRateLimit openSessionCmds : Bool) (p : Pass) : Option GoError × Pass :=
  match execWithOptionalRateLimit env bypassRateLimit openSessionCmds
      (fun sc0 => (GetLatestTable tableName sqlDb, sc0)) p.sc with
  | (Except.error err, sc1) => (some err, { p with sc := sc1 })
  | (Except.ok (sqlTable, dTab), sc1) =>
    let tableKey : tableIndexesKey :=
      ⟨ToLower sqlDb.AliasedName, ToLower sqlDb.Revision, ToLower tableName,
        ToLower sqlTable.SchemaName⟩
    match dTab.HashOf with
    | Except.error err => (some err, { p with sc := sc1 })
    | Except.ok tableHash =>
      let pre := preexistingStats sc1 tableKey tableHash
      if p.gcKv = none ∧ pre.2 = true then
        (none, { p with sc := sc1, newStats :=
          { p.newStats with
              stats := p.newStats.stats.set tableKey pre.1,
              hashes := p.newStats.hashes.set tableKey tableHash,
              TablesSkipped := p.newStats.TablesSkipped + 1 } })
      else
        match execWithOptionalRateLimit env bypassRateLimit openSessionCmds
            (fun sc0 => (sqlTable.GetIndexes, sc0)) sc1 with
        | (Except.error err, sc2) => (some err, { p with sc := sc2 })
        | (Except.ok indexes, sc2) =>
          match indexLoop env sqlDb sqlTable dTab bypassRateLimit openSessionCmds indexes []
              { p with sc := sc2 } with
          | (Except.error err, p1) => (some err, p1)
          | (Except.ok newTableStats, p1) =>
            (none, { p1 with newStats :=
              { p1.newStats with
                  stats := p1.newStats.stats.set tableKey newTableStats,
                  hashes := p1.newStats.hashes.set tableKey tableHash,
                  TablesProcessed := p1.newStats.TablesProcessed + 1 } })

/-- The tree counts of the nodes, up to the first node whose `TreeCount` fails. -/
def treeCounts : List Node → List Nat
  | [] => []
  | n :: rest =>
    match n.TreeCount with
    | Except.ok treeCnt => treeCnt :: treeCounts rest
    | Except.error _ => []

/-- The half-open ordinal ranges of consecutive nodes with the given tree counts, the
first one starting at `offset`: node `i` gets the counts before it up to the counts
through it. -/
def ordinalRanges : Nat → List Nat → List (Nat × Nat)
  | _, [] => []
  | offset, c :: rest => (offset, offset + c) :: ordinalRanges (offset + c) rest

/-- Two nodes with the tree counts 2 and 3. -/
def sampleNodes : List Node :=
  [⟨1, Except.ok 2⟩, ⟨2, Except.ok 3⟩]

/-- A prolly map with five keys whose histogram level is `sampleNodes`. -/
def sampleMap : ProllyMap :=
  ⟨[[some 1], [some 2], [some 3], [some 4], [some 5]], Except.ok sampleNodes⟩

/-- An environment whose collaborators never fail: a bucket counts the rows it is given,
the storage calls leave the controller as it is. -/
def sampleEnv : Env where
  rateLimit := fun _ => none
  getBucketErr := fun _ => none
  putBucketErr := fun _ => none
  finalize := fun _ rows => Except.ok ⟨rows.length, rows.length, 0, [], 0, rows.getLastD [], []⟩
  firstRowForIndex := fun idxLen m => Except.ok ((m.keys.headD []).take idxLen)
  GcMark := fun gcKv _ _ _ _ => some gcKv
  rotateStorage := fun sc => sc
  Flush := fun sc => sc

/-- A snapshot that records hash 77 and one statistic for the table `db/main/t`. -/
def sampleStats : rootStats :=
  ⟨[(⟨"db", "main", "t", "public"⟩, 77)],
    [(⟨"db", "main", "t", "public"⟩,
      [⟨3, 2, 0, [], [], ⟨"db", "", "t", "primary"⟩, ["pk"], [1], 0, some ⟨false⟩, [1]⟩])],
    1, 0, 1, 0, 5⟩

/-- A controller at generation 4 that publishes `sampleStats`. -/
def sampleController : StatsController :=
  ⟨4, sampleStats, NewMemStats, false, 0, true, [], 0⟩

/-- The table `t` of the sample database: content hash 77, one index. -/
def sampleSqleTable : SqleDoltTable where
  Name := "t"
  SchemaName := "public"
  GetIndexes := Except.ok [⟨"PRIMARY", false, false, false, false, ["t.pk"], [1],
    Except.ok (some ⟨false⟩, [1])⟩]
  IndexCacheKey := Except.ok 9
  DoltTable := Except.ok ⟨Except.ok 77, Except.ok ⟨[[some 1], [some 2]], Except.ok []⟩,
    fun _ => Except.error (GoError.msg "index not found")⟩

/-- A database `db` on branch `main` with the single table `t`. -/
def sampleDatabase : SqlDatabase where
  kind := DatabaseKind.Database
  AliasedName := "db"
  Revision := "main"
  RevisionQualifiedName := "db/main"
  GetTableInsensitive := fun name =>
    if ToLower name = "t" then Except.ok (some (SqlTable.WritableDoltTable sampleSqleTable))
    else Except.ok none

/-- What `newStatsForRoot` asks of a `sql.DatabaseSchema` that `AllSchemas` returned:
`SchemaName()`, `GetTableNames(ctx)`, and the database that the type assertion
`sqlDb.(dsess.SqlDatabase)` yields, `none` when the dynamic type is another one. -/
structure SchemaDb where
  SchemaName : String
  GetTableNames : Except GoError (List String)
  asSqlDatabase : Option SqlDatabase

/-- What `newStatsForRoot` asks of a branch of a database: the error of
`sqle.RevisionDbForBranch` for it, and `AllSchemas(ctx)` of the revision database. -/
structure Branch where
  RevisionDbForBranch : Option GoError
  AllSchemas : Except GoError (List SchemaDb)

/-- What `newStatsForRoot` asks of a database of the provider: whether it is a
`dsess.SqlDatabase`, the error of `GetRoot`, `HashOf()` of the root, whether
`dSess.GetDoltDB` finds it, and `GetBranches`. -/
structure ProviderDb where
  isSqlDatabase : Bool
  GetRoot : Option GoError
  HashOf : Except GoError Hash
  GetDoltDB : Bool
  GetBranches : Except GoError (List Branch)

/-- What the session and the runtime give `newStatsForRoot`: the databases of the provider,
`Sum64` of the xxhash digest over the root hashes written to it, and the text of
`debug.Stack()`. -/
structure Session where
  AllDatabases : List ProviderDb
  Sum64 : List Hash → Nat
  Stack : String

/-- The loop over the branches in the first closure of `newStatsForRoot`: a branch whose
revision database or schemas cannot be read is logged and skipped. -/
def branchLoop : List Branch → List (List SchemaDb) → StatsController →
    Option GoError × List (List SchemaDb) × StatsController
  | [], toVisit, sc => (none, toVisit, sc)
  | branch :: rest, toVisit, sc =>
    match branch.RevisionDbForBranch with
    | some err =>
      if err.isPanic then (some err, toVisit, sc)
      else branchLoop rest toVisit (sc.descError "revisionForBranch" (some err))
    | none =>
      match branch.AllSchemas with
      | Except.error err =>
        if err.isPanic then (some err, toVisit, sc)
        else branchLoop rest toVisit (sc.descError "getDatabaseSchemas" (some err))
      | Except.ok revSchemas => branchLoop rest (toVisit ++ [revSchemas]) sc

/-- The loop over the databases in the first closure of `newStatsForRoot`, from the root
hashes written to the digest and the schemas gathered so far. -/
def databaseLoop : List ProviderDb → List Hash → List (List SchemaDb) → StatsController →
    Option GoError × List Hash × List (List SchemaDb) × StatsController
  | [], digest, toVisit, sc => (none, digest, toVisit, sc)
  | db :: rest, digest, toVisit, sc =>
    if !db.isSqlDatabase then databaseLoop rest digest toVisit sc
    else
      match db.GetRoot with
      | some err => (some err, digest, toVisit, sc)
      | none =>
        match db.HashOf with
        | Except.error err => (some err, digest, toVisit, sc)
        | Except.ok rootHash =>
          let digest1 := digest ++ [rootHash]
          if !db.GetDoltDB then
            (some (GoError.msg "get dolt db dolt database not found"), digest1, toVisit, sc)
          else
            match db.GetBranches with
            | Except.error err => (some err, digest1, toVisit, sc)
            | Except.ok branches =>
              match branchLoop branches toVisit sc with
              | (some err, toVisit1, sc1) => (some err, digest1, toVisit1, sc1)
              | (none, toVisit1, sc1) => databaseLoop rest digest1 toVisit1 sc1

/-- The first closure of `newStatsForRoot`: the digest and the schemas to visit. -/
def collectSchemas (session : Session) (sc : StatsController) :
    Except GoError (List Hash × List (List SchemaDb)) × StatsController :=
  match databaseLoop session.AllDatabases [] [] sc with
  | (some err, _, _, sc1) => (Except.error err, sc1)
  | (none, digest, toVisit, sc1) => (Except.ok (digest, toVisit), sc1)

/-- The loop over the table names of one schema in `newStatsForRoot`: the first error of
`updateTable` ends it.  The type assertion `sqlDb.(dsess.SqlDatabase)` of the call panics
for a schema of another dynamic type. -/
def tableLoop (env : Env) (sqlDb : SchemaDb) (bypassRateLimit openSessionCmds : Bool) :
    List String → Pass → Option GoError × Pass
  | [], p => (none, p)
  | tableName :: rest, p =>
    match sqlDb.asSqlDatabase with
    | none => (some (GoError.panic "interface conversion: not a dsess.SqlDatabase"), p)
    | some db =>
      match updateTable env tableName db bypassRateLimit openSessionCmds p with
      | (some err, p1) => (some err, p1)
      | (none, p1) => tableLoop env sqlDb bypassRateLimit openSessionCmds rest p1

/-- The two nested loops of `newStatsForRoot` over `toVisit` and the schemas of each entry,
which visit the schemas in order.  The schemas `dolt`, `information_schema`
(`sql.InformationSchemaDatabaseName`) and `pg_catalog` are skipped, and so is, logged, a
schema whose table names cannot be read. -/
def schemaLoop (env : Env) (bypassRateLimit openSessionCmds : Bool) :
    List SchemaDb → Pass → Option GoError × Pass
  | [], p => (none, p)
  | sqlDb :: rest, p =>
    if sqlDb.SchemaName = "dolt" ∨ sqlDb.SchemaName = "information_schema" ∨
        sqlDb.SchemaName = "pg_catalog" then
      schemaLoop env bypassRateLimit openSessionCmds rest p
    else
      match execWithOptionalRateLimit env bypassRateLimit openSessionCmds
          (fun sc0 => (sqlDb.GetTableNames, sc0)) p.sc with
      | (Except.error err, sc1) =>
        if err.isPanic then (some err, { p with sc := sc1 })
        else
          schemaLoop env bypassRateLimit openSessionCmds rest
            { p with sc := sc1.descError "getTableNames" (some err) }
      | (Except.ok tableNames, sc1) =>
        let newStats1 : rootStats := { p.newStats with DbCnt := p.newStats.DbCnt + 1 }
        match tableLoop env sqlDb bypassRateLimit openSessionCmds tableNames
            ⟨sc1, newStats1, p.gcKv⟩ with
        | (some err, p1) => (some err, p1)
        | (none, p1) => schemaLoop env bypassRateLimit openSessionCmds rest p1

/-- The body of `newStatsForRoot` without its deferred function: the error it returns, or
the panic that ends it, and the pass with the snapshot `newStats` as built so far. -/
def newStatsForRootBody (env : Env) (session : Session) (gcKv : Option memStats)
    (bypassRateLimit openSessionCmds : Bool) (sc : StatsController) : Option GoError × Pass :=
  match execWithOptionalRateLimit env bypassRateLimit openSessionCmds (collectSchemas session)
      sc with
  | (Except.error err, sc1) => (some err, ⟨sc1, newRootStats, gcKv⟩)
  | (Except.ok (digest, toVisit), sc1) =>
    match schemaLoop env bypassRateLimit openSessionCmds toVisit.flatten
        ⟨sc1, newRootStats, gcKv⟩ with
    | (some err, p) => (some err, p)
    | (none, p) => (none, { p with newStats := { p.newStats with hash := session.Sum64 digest } })

/-- The function `StatsController.newStatsForRoot`: the results `(newStats, err)` and the
pass.  The deferred function turns a panic of the body into an error and reports every
error with `descError`.  A `return nil, err` of the body returns no snapshot; after a
panic the named result `newStats` is what it was when the panic was raised. -/
def newStatsForRoot (env : Env) (session : Session) (gcKv : Option memStats)
    (bypassRateLimit openSessionCmds : Bool) (sc : StatsController) :
    (Option rootStats × Option GoError) × Pass :=
  match newStatsForRootBody env session gcKv bypassRateLimit openSessionCmds sc with
  | (some (GoError.panic r), p) =>
    let err := GoError.msg ("worker panicked running work: " ++ r ++ "\n" ++ session.Stack)
    ((some p.newStats, some err),
      { p with sc := p.sc.descError "stats update interrupted" (some err) })
  | (some err, p) =>
    ((none, some err), { p with sc := p.sc.descError "stats update interrupted" (some err) })
  | (none, p) => ((some p.newStats, none), p)

/-- The schema `public` of the sample database, with the tables `t` and `missing`, of which
only `t` exists. -/
def sampleSchema : SchemaDb :=
  ⟨"public", Except.ok ["t", "missing"], some sampleDatabase⟩

/-- A schema whose dynamic type is not a `dsess.SqlDatabase`, with the table `t`. -/
def sampleForeignSchema : SchemaDb :=
  ⟨"public", Except.ok ["t"], none⟩

/-- A session with one database, root hash 5, and one branch with the given schemas. -/
def sampleSession (schemas : List SchemaDb) : Session :=
  ⟨[⟨true, none, Except.ok 5, true, Except.ok [⟨none, Except.ok schemas⟩]⟩],
    fun digest => digest.sum, "goroutine 1 [running]"⟩

/-- The schema `public` of the sample database with the table `t` only. -/
def sampleGoodSchema : SchemaDb :=
  ⟨"public", Except.ok ["t"], some sampleDatabase⟩

end Statspro

namespace Stats

/-! ## `stats/read.go`: loading stored statistics -/

/-- A `sql.Row`: one value per column, `none` for NULL; the nil row is `[]`. -/
abbrev SqlRow := List (Option Nat)

/-- The struct `sql.StatQualifier` with the fields that `sql.NewStatQualifier(db, table,
index)` fills. -/
structure StatQualifier where
  Database : String
  Tab : String
  Idx : String
deriving DecidableEq, Repr

/-- One row that the iterator of `dtables.NewStatsIter` yields, by column tag.  `Commit` is
the hash that `hash.Parse` reads from the commit column, `Mcvs` is the slice
`row[schema.StatsMcv1Tag:schema.StatsMcvCountsTag]` with `none` for nil; the counts are
`uint64` values. -/
structure StatsRow where
  Position : Int
  Db : String
  Table : String
  Index : String
  Commit : Nat
  RowCount : Nat
  DistinctCount : Nat
  NullCount : Nat
  Columns : GoString
  Types : GoString
  UpperBound : GoString
  UpperBoundCnt : Nat
  CreatedAt : Nat
  Mcvs : List (Option GoString)
  McvCounts : GoString
deriving DecidableEq, Repr

/-- Modelled from the spec: the struct `DoltBucket`, whose declaration is not in `read.go`;
the fields are those of the composite literal in `loadStats`. -/
structure DoltBucket where
  Chunk : Nat
  RowCount : Nat
  DistinctCount : Nat
  NullCount : Nat
  CreatedAt : Nat
  Mcvs : List SqlRow
  McvCount : List Nat
  BoundCount : Nat
  UpperBound : SqlRow
deriving DecidableEq, Repr

/-- Modelled from the spec: the struct `DoltStats`, whose declaration is not in `read.go`;
the fields are those that `loadStats` reads and writes.  A nil `Histogram` is `[]`. -/
structure DoltStats where
  Qual : StatQualifier
  Columns : List GoString
  LowerBound : SqlRow
  Types : List Nat
  Histogram : List DoltBucket
  RowCount : Nat
  DistinctCount : Nat
  NullCount : Nat
  CreatedAt : Nat
deriving DecidableEq, Repr

/-- Modelled from the spec: the struct `dbStats`, whose declaration is not in `read.go`; the
fields are those of the composite literal in `loadStats`. -/
structure dbStats where
  db : String
  active : Statspro.GoMap Nat Int
  stats : Statspro.GoMap StatQualifier DoltStats
deriving DecidableEq, Repr

/-- What `loadLowerBound` asks of the prolly map of an index: the field count of its key
descriptor, the keys of `IterOrdinalRange(ctx, 0, 1)`, and `tree.GetField` on a key. -/
structure IndexMap where
  Count : Nat
  IterOrdinalRange : Except GoError (List (List (Option Nat)))
  GetField : Nat → List (Option Nat) → Except GoError (Option Nat)

/-- What `loadLowerBound` asks of a `*doltdb.Table`. -/
structure Table where
  GetIndexRowData : String → Except GoError IndexMap

/-- The collaborators of `read.go`.

* `numMcvs`: the constant `schema.StatsMcvCountsTag - schema.StatsMcv1Tag`;
* `NewStatQualifier`, `QualString`: `sql.NewStatQualifier` and `StatQualifier.String`;
* `ParseRow`: `iter.ParseRow`;
* `ParseTypeStrings`: `stats.ParseTypeStrings`;
* `GetRoots`: `dSess.GetRoots(ctx, db)`, as the `GetTable` of the head root: the table
  (`none` when `ok` is false) and the error. -/
structure Env where
  numMcvs : Nat
  NewStatQualifier : String → String → String → StatQualifier
  QualString : StatQualifier → String
  ParseRow : GoString → Except GoError SqlRow
  ParseTypeStrings : List GoString → Except GoError (List Nat)
  GetRoots : String → Option (String → Option Table × Option GoError)

/-- The assignment `s[i] = v` to a slice: an index at or beyond the length panics. -/
def setIndex {α : Type} (s : List α) (i : Nat) (v : α) : Except GoError (List α) :=
  if i < s.length then Except.ok (s.set i v)
  else Except.error (GoError.panic "index out of range")

/-- The loop `for i := 0; i < keyBuilder.Desc.Count(); i++` of `loadLowerBound`, with `n`
rounds left: `firstRow[i], err = tree.GetField(...)` assigns both results, then `err` is
checked. -/
def fillFirstRow (m : IndexMap) (firstKey : List (Option Nat)) :
    Nat → Nat → SqlRow → Except GoError SqlRow
  | 0, _, firstRow => Except.ok firstRow
  | n + 1, i, firstRow =>
    let field := m.GetField i firstKey
    let v : Option Nat :=
      match field with
      | Except.ok v => v
      | Except.error _ => none
    match setIndex firstRow i v with
    | Except.error err => Except.error err
    | Except.ok firstRow1 =>
      match field with
      | Except.error err => Except.error err
      | Except.ok _ => fillFirstRow m firstKey n (i + 1) firstRow1

/-- The function `loadLowerBound`; the row it fills starts as the nil slice
(`var firstRow sql.Row`).  `Next` on an iterator without a key is `io.EOF`. -/
def loadLowerBound (env : Env) (qual : StatQualifier) : Except GoError SqlRow :=
  match env.GetRoots qual.Database with
  | none => Except.ok []
  | some GetTable =>
    match GetTable qual.Tab with
    | (none, _) => Except.ok []
    | (some _, some err) => Except.error err
    | (some table, none) =>
      match table.GetIndexRowData qual.Idx with
      | Except.error err => Except.error err
      | Except.ok prollyMap =>
        match prollyMap.IterOrdinalRange with
        | Except.error err => Except.error err
        | Except.ok [] => Except.error GoError.eof
        | Except.ok (firstKey :: _) => fillFirstRow prollyMap firstKey prollyMap.Count 0 []

/-- Models `unicode.IsSpace` on the characters below U+0100. -/
def isSpace (c : Char) : Bool :=
  c = ' ' || c = '\t' || c = '\n' || c.toNat = 11 || c.toNat = 12 || c = '\r' ||
    c.toNat = 133 || c.toNat = 160

/-- Models `strings.TrimSpace`. -/
def TrimSpace (s : GoString) : GoString :=
  ((s.dropWhile isSpace).reverse.dropWhile isSpace).reverse

/-- The loop `for i, v := range mcvCountsStr` of `loadStats`, at index `i`:
`mcvCnts[i] = uint64(val)` for the value that `strconv.Atoi` reads. -/
def parseMcvCounts : List GoString → Nat → List Nat → Except GoError (List Nat)
  | [], _, mcvCnts => Except.ok mcvCnts
  | v :: rest, i, mcvCnts =>
    match Binlog.Atoi v with
    | Except.error err => Except.error err
    | Except.ok val =>
      match setIndex mcvCnts i (val % 2 ^ 64).toNat with
      | Except.error err => Except.error err
      | Except.ok mcvCnts1 => parseMcvCounts rest (i + 1) mcvCnts1

/-- The loop `for i, v := range row[schema.StatsMcv1Tag:schema.StatsMcvCountsTag]` of
`loadStats`, at index `i`: a value that is not nil is parsed into `mcvs[i]`. -/
def parseMcvs (env : Env) : List (Option GoString) → Nat → List SqlRow →
    Except GoError (List SqlRow)
  | [], _, mcvs => Except.ok mcvs
  | none :: rest, i, mcvs => parseMcvs env rest (i + 1) mcvs
  | some v :: rest, i, mcvs =>
    match env.ParseRow v with
    | Except.error err => Except.error err
    | Except.ok row =>
      match setIndex mcvs i row with
      | Except.error err => Except.error err
      | Except.ok mcvs1 => parseMcvs env rest (i + 1) mcvs1

/-- The body of the row loop of `loadStats` for one row: the statistics gathered so far
and the statistic under construction, or the error that ends `loadStats`.  The variable
`lowerBound` of `loadStats` is never assigned, so it is the nil row. -/
def loadRow (env : Env) (row : StatsRow) (dbStat : dbStats) (currentStat : DoltStats) :
    Except GoError (dbStats × DoltStats) :=
  let columns := Binlog.Split ',' row.Columns
  let typs := (Binlog.Split ',' row.Types).map TrimSpace
  let mcvCountsStr := Binlog.Split ',' row.McvCounts
  match parseMcvCounts mcvCountsStr 0 (List.replicate env.numMcvs 0) with
  | Except.error err => Except.error err
  | Except.ok mcvCnts0 =>
    match parseMcvs env row.Mcvs 0 (List.replicate env.numMcvs []) with
    | Except.error err => Except.error err
    | Except.ok mcvs0 =>
      let mcvCnts := mcvCnts0.takeWhile (fun v => v != 0)
      let mcvs := if mcvCnts.length < mcvCnts0.length then mcvs0.take mcvCnts.length else mcvs0
      match env.ParseRow row.UpperBound with
      | Except.error err => Except.error err
      | Except.ok boundRow =>
        let qual := env.NewStatQualifier row.Db row.Table row.Index
        let switched : Except GoError (dbStats × DoltStats) :=
          if env.QualString currentStat.Qual ≠ env.QualString qual then
            let fresh : DoltStats := ⟨qual, columns, [], [], [], 0, 0, 0, 0⟩
            if env.QualString currentStat.Qual ≠ "" then
              match loadLowerBound env currentStat.Qual with
              | Except.error err => Except.error err
              | Except.ok lowerBound =>
                let finished : DoltStats := { currentStat with LowerBound := lowerBound }
                Except.ok
                  ({ dbStat with stats := dbStat.stats.set finished.Qual finished }, fresh)
            else Except.ok (dbStat, fresh)
          else Except.ok (dbStat, currentStat)
        match switched with
        | Except.error err => Except.error err
        | Except.ok (dbStat1, currentStat1) =>
          let typed : Except GoError DoltStats :=
            if currentStat1.Histogram = [] then
              match env.ParseTypeStrings typs with
              | Except.error err => Except.error err
              | Except.ok types => Except.ok { currentStat1 with Types := types, Qual := qual }
            else Except.ok currentStat1
          match typed with
          | Except.error err => Except.error err
          | Except.ok currentStat2 =>
            let bucket : DoltBucket :=
              ⟨row.Commit, row.RowCount, row.DistinctCount, row.NullCount, row.CreatedAt,
                mcvs, mcvCnts, row.UpperBoundCnt, boundRow⟩
            let dbStat2 : dbStats :=
              { dbStat1 with active := dbStat1.active.set row.Commit row.Position }
            let createdAt :=
              if currentStat2.CreatedAt < row.CreatedAt then row.CreatedAt
              else currentStat2.CreatedAt
            let currentStat3 : DoltStats :=
              ⟨currentStat2.Qual, currentStat2.Columns, currentStat2.LowerBound,
                currentStat2.Types, currentStat2.Histogram ++ [bucket],
                (currentStat2.RowCount + row.RowCount) % 2 ^ 64,
                (currentStat2.DistinctCount + row.DistinctCount) % 2 ^ 64,
                (currentStat2.NullCount + row.RowCount) % 2 ^ 64,
                createdAt⟩
            Except.ok (dbStat2, currentStat3)

/-- The row loop of `loadStats` over what `iter.Next` yields: `io.EOF` ends the loop, any
other error ends `loadStats`; the end of the list is `io.EOF` as well. -/
def loadRows (env : Env) :
    List (Except GoError StatsRow) → dbStats → DoltStats → Except GoError (dbStats × DoltStats)
  | [], dbStat, currentStat => Except.ok (dbStat, currentStat)
  | Except.error GoError.eof :: _, dbStat, currentStat => Except.ok (dbStat, currentStat)
  | Except.error err :: _, _, _ => Except.error err
  | Except.ok row :: rest, dbStat, currentStat =>
    match loadRow env row dbStat currentStat with
    | Except.error err => Except.error err
    | Except.ok (dbStat1, currentStat1) => loadRows env rest dbStat1 currentStat1

/-- The function `loadStats`; `iter` is the result of `dtables.NewStatsIter(ctx, m)`, the
rows that its `Next` yields. -/
def loadStats (env : Env) (dbName : String)
    (iter : Except GoError (List (Except GoError StatsRow))) : Except GoError dbStats :=
  match iter with
  | Except.error err => Except.error err
  | Except.ok rows =>
    match loadRows env rows ⟨dbName, [], []⟩ ⟨⟨"", "", ""⟩, [], [], [], [], 0, 0, 0, 0⟩ with
    | Except.error err => Except.error err
    | Except.ok (dbStat, currentStat) =>
      Except.ok { dbStat with stats := dbStat.stats.set currentStat.Qual currentStat }

/-- An environment of the reader: four most-common-value columns, qualifiers in lower case
printed as `db.table.index`, rows of one decimal number, types by their length, and no
session roots. -/
def sampleEnv : Env where
  numMcvs := 4
  NewStatQualifier := fun db table index =>
    ⟨Statspro.ToLower db, Statspro.ToLower table, Statspro.ToLower index⟩
  QualString := fun q =>
    if q.Idx ≠ "" then q.Database ++ "." ++ q.Tab ++ "." ++ q.Idx else q.Database ++ "." ++ q.Tab
  ParseRow := fun s => Except.ok [Binlog.parseDigits s 0]
  ParseTypeStrings := fun typs => Except.ok (typs.map List.length)
  GetRoots := fun _ => none

/-- One stored row of the index `db.t.primary`: 5 rows, 3 distinct values, 1 null. -/
def sampleRow : StatsRow :=
  ⟨0, "db", "t", "primary", 11, 5, 3, 1, "pk".data, "int".data, "9".data, 1, 100,
    [some "7".data, none, none, none], "2,0,0,0".data⟩

/-- An index whose key descriptor has one field and whose map holds the one key `[7]`. -/
def sampleIndexMap : IndexMap :=
  ⟨1, Except.ok [[some 7]], fun i key => Except.ok (key.getD i none)⟩

/-- An environment of the reader in which the database `db` has the table `t` with the
index `primary`, which is `sampleIndexMap`. -/
def sampleIndexEnv : Env :=
  { sampleEnv with
    GetRoots := fun db =>
      if db = "db" then
        some (fun table =>
          if table = "t" then
            (some ⟨fun index =>
              if index = "primary" then Except.ok sampleIndexMap
              else Except.error (GoError.msg "index not found")⟩, none)
          else (none, none))
      else none }

end Stats

/-! # Theorems -/

namespace Binlog

/-- C2: for a keyless schema and a Modified diff whose duplicate counts `f` (from side) and
`t` (to side) are both non-null: if `t > f`, `extractRowCountAndDiffType` returns
`(t - f, AddedDiff, nil)` and the diff callback of `createRowEvents` appends exactly `t - f`
rows to the write rows; if `t < f`, it returns `(f - t, RemovedDiff, nil)` and exactly
`f - t` rows are appended to the delete rows.  The other row slices are unchanged. -/
theorem keyless_modified_count_difference (env : Env) (sch : Schema) (tableDelta : TableDelta)
    (bufs : RowBuffers) (diff : Diff) (f t : Nat)
    (hk : sch.keyless = true) (hty : diff.Type_ = DiffType.ModifiedDiff)
    (hf : GetUint64 0 diff.From = (f, true)) (ht : GetUint64 0 diff.To = (t, true)) :
    (f < t →
      extractRowCountAndDiffType sch diff = (t - f, DiffType.AddedDiff, none) ∧
      ∀ data nullBitmap,
        env.serializeRow sch diff.Key diff.To tableDelta.ToTable.NodeStore
            = Except.ok (data, nullBitmap) →
          diffCallback env sch tableDelta bufs diff =
            (none, ⟨bufs.tableRowsToWrite ++ List.replicate (t - f) ⟨nullBitmap, data, [], []⟩,
              bufs.tableRowsToDelete, bufs.tableRowsToUpdate⟩)) ∧
    (t < f →
      extractRowCountAndDiffType sch diff = (f - t, DiffType.RemovedDiff, none) ∧
      ∀ identifyData nullBitmap,
        env.serializeRow sch diff.Key diff.From tableDelta.FromTable.NodeStore
            = Except.ok (identifyData, nullBitmap) →
          diffCallback env sch tableDelta bufs diff =
            (none, ⟨bufs.tableRowsToWrite,
              bufs.tableRowsToDelete ++ List.replicate (f - t) ⟨[], [], nullBitmap, identifyData⟩,
              bufs.tableRowsToUpdate⟩)) := by
  have hlt : ∀ a b : Nat, a < b → ¬ b < a := fun a b h => Nat.lt_asymm h
  constructor
  · intro h
    have hx : extractRowCountAndDiffType sch diff = (t - f, DiffType.AddedDiff, none) := by
      simp [extractRowCountAndDiffType, hk, hty, hf, ht, h]
    refine ⟨hx, ?_⟩
    intro data nullBitmap hs
    simp [diffCallback, hx, hs]
  · intro h
    have hx : extractRowCountAndDiffType sch diff = (f - t, DiffType.RemovedDiff, none) := by
      simp [extractRowCountAndDiffType, hk, hty, hf, ht, h, hlt t f h]
    refine ⟨hx, ?_⟩
    intro identifyData nullBitmap hs
    simp [diffCallback, hx, hs]

/-- Witness of C2: duplicate counts 2 to 5 give 3 Added rows, 5 to 2 give 3 Removed rows. -/
theorem keyless_modified_count_difference_witness :
    extractRowCountAndDiffType ⟨true, []⟩ ⟨[], [some 2], [some 5], DiffType.ModifiedDiff⟩
        = (3, DiffType.AddedDiff, none) ∧
      (diffCallback sampleEnv ⟨true, []⟩ (sampleDelta true []) ⟨[], [], []⟩
          ⟨[], [some 2], [some 5], DiffType.ModifiedDiff⟩).2.tableRowsToWrite.length = 3 ∧
      extractRowCountAndDiffType ⟨true, []⟩ ⟨[], [some 5], [some 2], DiffType.ModifiedDiff⟩
        = (3, DiffType.RemovedDiff, none) ∧
      (diffCallback sampleEnv ⟨true, []⟩ (sampleDelta true []) ⟨[], [], []⟩
          ⟨[], [some 5], [some 2], DiffType.ModifiedDiff⟩).2.tableRowsToDelete.length = 3 := by
  have h1 := (keyless_modified_count_difference sampleEnv ⟨true, []⟩ (sampleDelta true [])
    ⟨[], [], []⟩ ⟨[], [some 2], [some 5], DiffType.ModifiedDiff⟩ 2 5 rfl rfl
    (by decide) (by decide)).1 (by decide)
  have h2 := (keyless_modified_count_difference sampleEnv ⟨true, []⟩ (sampleDelta true [])
    ⟨[], [], []⟩ ⟨[], [some 5], [some 2], DiffType.ModifiedDiff⟩ 5 2 rfl rfl
    (by decide) (by decide)).2 (by decide)
  refine ⟨h1.1, ?_, h2.1, ?_⟩
  · rw [h1.2 _ _ rfl]; decide
  · rw [h2.2 _ _ rfl]; decide

/-- The diffs in front of a failing diff do not change what `DiffMaps` returns for it. -/
theorem DiffMaps_append_error (cb : RowBuffers → Diff → Option GoError × RowBuffers)
    (diffEnd : Option GoError) (err : GoError) (diff : Diff) (d2 : List Diff) :
    ∀ (d1 : List Diff) (bufs0 bufs1 : RowBuffers),
      DiffMaps cb none d1 bufs0 = (none, bufs1) → cb bufs1 diff = (some err, bufs1) →
      DiffMaps cb diffEnd (d1 ++ diff :: d2) bufs0 = (some err, bufs1) := by
  intro d1
  induction d1 with
  | nil =>
    intro bufs0 bufs1 h hcb
    simp only [DiffMaps, Prod.mk.injEq, true_and] at h
    subst h
    simp [DiffMaps, hcb]
  | cons d ds ih =>
    intro bufs0 bufs1 h hcb
    simp only [DiffMaps, List.cons_append] at h ⊢
    cases hd : cb bufs0 d with
    | mk e b =>
      cases e with
      | some e0 => simp [hd] at h
      | none =>
        simp only [hd] at h ⊢
        exact ih b bufs1 h hcb

/-- C3: for a keyless schema and a Modified diff whose to-side and from-side duplicate
counts are both non-null and equal, `extractRowCountAndDiffType` returns a non-nil error
with `rowCount` 0; the diff callback returns that error and appends no row; and
`createRowEvents`, on reaching the delta of such a diff (after diffs `d1` that the callback
accepted), returns that error, with no event and without touching the producer. -/
theorem keyless_modified_equal_counts_error (env : Env) (sch : Schema) (tableDelta : TableDelta)
    (rest : List TableDelta) (tablesToId : TableIds) (events : List BinlogEvent) (s : State)
    (d1 d2 : List Diff) (diff : Diff) (c : Nat) (bufs1 : RowBuffers)
    (hdrop : tableDelta.IsDrop = false) (hrow : tableDelta.GetRowData = none)
    (hsch : tableDelta.ToTable.GetSchema = Except.ok sch) (hk : sch.keyless = true)
    (hdiffs : tableDelta.diffs = d1 ++ diff :: d2)
    (hpre : DiffMaps (diffCallback env sch tableDelta) none d1 ⟨[], [], []⟩ = (none, bufs1))
    (hty : diff.Type_ = DiffType.ModifiedDiff)
    (hf : GetUint64 0 diff.From = (c, true)) (ht : GetUint64 0 diff.To = (c, true)) :
    extractRowCountAndDiffType sch diff =
        (0, DiffType.AddedDiff, some (GoError.msg
          "row count for a modified row diff cannot be the same on both sides of the diff")) ∧
      diffCallback env sch tableDelta bufs1 diff =
        (some (GoError.msg
          "row count for a modified row diff cannot be the same on both sides of the diff"),
          bufs1) ∧
      rowEventsLoop env tablesToId (tableDelta :: rest) events s =
        (Except.error (GoError.msg
          "row count for a modified row diff cannot be the same on both sides of the diff"),
          s) := by
  have hx : extractRowCountAndDiffType sch diff =
      (0, DiffType.AddedDiff, some (GoError.msg
        "row count for a modified row diff cannot be the same on both sides of the diff")) := by
    simp [extractRowCountAndDiffType, hk, hty, hf, ht]
  have hcb : diffCallback env sch tableDelta bufs1 diff =
      (some (GoError.msg
        "row count for a modified row diff cannot be the same on both sides of the diff"),
        bufs1) := by
    simp [diffCallback, hx]
  refine ⟨hx, hcb, ?_⟩
  have hdm := DiffMaps_append_error (diffCallback env sch tableDelta) tableDelta.diffEnd _ diff d2
    d1 ⟨[], [], []⟩ bufs1 hpre hcb
  simp [rowEventsLoop, hdrop, hrow, hsch, hdiffs, hdm]

/-- Witness of C3: a keyless delta whose second diff is Modified with duplicate count 4 on
both sides. -/
theorem keyless_modified_equal_counts_error_witness :
    createRowEvents sampleEnv
        [sampleDelta true [⟨[], [], [some 1], DiffType.AddedDiff⟩,
          ⟨[], [some 4], [some 4], DiffType.ModifiedDiff⟩]] [] freshState =
      (Except.error (GoError.msg
        "row count for a modified row diff cannot be the same on both sides of the diff"),
        freshState) :=
  (keyless_modified_equal_counts_error sampleEnv ⟨true, [⟨3, false⟩, ⟨3, true⟩]⟩
    (sampleDelta true [⟨[], [], [some 1], DiffType.AddedDiff⟩,
      ⟨[], [some 4], [some 4], DiffType.ModifiedDiff⟩]) [] [] [] freshState
    [⟨[], [], [some 1], DiffType.AddedDiff⟩] [] ⟨[], [some 4], [some 4], DiffType.ModifiedDiff⟩ 4
    ⟨[⟨[false], [1], [], []⟩], [], []⟩ rfl rfl rfl rfl rfl (by decide) rfl (by decide)
    (by decide)).2.2

/-! ### The calls a producer function makes -/

/-- What `initializeGtidPosition` adds to the trace: nothing, or one `Load`. -/
theorem initializeGtidPosition_trace (env : Env) (s : State) :
    (initializeGtidPosition env s).2.trace = s.trace ∨
      (initializeGtidPosition env s).2.trace = s.trace ++ [Action.load] := by
  unfold initializeGtidPosition
  by_cases hpos : s.gtidPosition ≠ none
  · simp [hpos]
  · right
    simp only [hpos, if_false]
    cases env.loadErr s.clock with
    | some err => rfl
    | none =>
      simp only
      cases loadedPosition s.positionStore with
      | none => rfl
      | some position =>
        simp only
        cases parseGtidSequence position.gtidString <;> rfl

/-- What `createGtidEvent` adds to the trace: never a `sendEvents`; when it returns an
event, no failed `Save`, and a successful `Save` of the position with the GTID of the
event added. -/
theorem createGtidEvent_trace (env : Env) (s : State) :
    ∃ acts, (createGtidEvent env s).2.trace = s.trace ++ acts ∧ NoSend acts ∧
      ∀ ev, (createGtidEvent env s).1 = Except.ok ev →
        NoFailedSave acts ∧ ∃ g, ev.kind = EventKind.gtid g ∧
          ∃ set0 : Mysql56GTIDSet, Action.save ⟨some (set0.AddGTID g)⟩ true ∈ acts := by
  have hinit := initializeGtidPosition_trace env s
  have hacts0 : ∃ acts0, (initializeGtidPosition env s).2.trace = s.trace ++ acts0 ∧
      ∀ a ∈ acts0, a = Action.load := by
    rcases hinit with h | h
    · exact ⟨[], by simp [h], by simp⟩
    · exact ⟨[Action.load], h, by simp⟩
  obtain ⟨acts0, h0, hload⟩ := hacts0
  have hquiet : NoSend acts0 := by
    intro evs hmem
    cases hload _ hmem
  have hquiet2 : ∀ (p : Position) (ok : Bool), NoSend (acts0 ++ [Action.save p ok]) := by
    intro p ok evs hmem
    rcases List.mem_append.1 hmem with h | h
    · cases hload _ h
    · simp at h
  have hquiet3 : ∀ (p : Position) (ok : Bool) (v : GoString) (ok2 : Bool),
      NoSend (acts0 ++ [Action.save p ok] ++ [Action.assign v ok2]) := by
    intro p ok v ok2 evs hmem
    rcases List.mem_append.1 hmem with h | h
    · exact hquiet2 p ok evs h
    · simp at h
  unfold createGtidEvent
  cases hi : initializeGtidPosition env s with
  | mk e s1 =>
    rw [hi] at h0
    simp only at h0
    cases e with
    | some err => exact ⟨acts0, h0, hquiet, by intro ev h; cases h⟩
    | none =>
      simp only [State.advance, State.newEvent]
      split
      · exact ⟨acts0, h0, hquiet, by intro ev h; cases h⟩
      · split
        · exact ⟨acts0, h0, hquiet, by intro ev h; cases h⟩
        · rename_i sid _
          split
          · exact ⟨acts0, h0, hquiet, by intro ev h; cases h⟩
          · rename_i set _
            split
            · exact ⟨_, by simp only [h0, List.append_assoc]; rfl, hquiet2 _ false,
                by intro ev h; cases h⟩
            · split
              · refine ⟨acts0 ++ [Action.save ⟨some (set.AddGTID ⟨sid, s1.gtidSequence⟩)⟩ true] ++
                  [Action.assign (Position.gtidString
                    ⟨some (set.AddGTID ⟨sid, s1.gtidSequence⟩)⟩) false], ?_, hquiet3 _ _ _ _, ?_⟩
                · simp only [h0, List.append_assoc]
                · intro ev h; cases h
              · refine ⟨acts0 ++ [Action.save ⟨some (set.AddGTID ⟨sid, s1.gtidSequence⟩)⟩ true] ++
                  [Action.assign (Position.gtidString
                    ⟨some (set.AddGTID ⟨sid, s1.gtidSequence⟩)⟩) true], ?_, hquiet3 _ _ _ _, ?_⟩
                · simp only [h0, List.append_assoc]
                · intro ev h
                  simp only [Except.ok.injEq] at h
                  subst h
                  refine ⟨?_, ⟨sid, s1.gtidSequence⟩, rfl, set, by simp⟩
                  intro p hmem
                  rcases List.mem_append.1 hmem with h | h
                  · rcases List.mem_append.1 h with h | h
                    · cases hload _ h
                    · simp at h
                  · simp at h

/-- No calls, no `sendEvents`. -/
theorem NoSend_nil : NoSend [] := by
  intro evs h
  cases h

/-- No calls, no failed `Save`. -/
theorem NoFailedSave_nil : NoFailedSave [] := by
  intro p h
  cases h

/-- No events, nothing to save. -/
theorem GtidSaved_nil (acts : List Action) : GtidSaved [] acts := by
  intro e h
  cases h

/-- No `sendEvents` in two runs of calls is no `sendEvents` in the two together. -/
theorem NoSend_append {a b : List Action} (ha : NoSend a) (hb : NoSend b) : NoSend (a ++ b) := by
  intro evs hmem
  rcases List.mem_append.1 hmem with h | h
  · exact ha evs h
  · exact hb evs h

/-- No failed `Save` in two runs of calls is no failed `Save` in the two together. -/
theorem NoFailedSave_append {a b : List Action} (ha : NoFailedSave a) (hb : NoFailedSave b) :
    NoFailedSave (a ++ b) := by
  intro p hmem
  rcases List.mem_append.1 hmem with h | h
  · exact ha p h
  · exact hb p h

/-- Events saved by earlier calls and events saved by later calls are saved by all calls. -/
theorem GtidSaved_append {e1 e2 : List BinlogEvent} {a b : List Action} (h1 : GtidSaved e1 a)
    (h2 : GtidSaved e2 b) : GtidSaved (e1 ++ e2) (a ++ b) := by
  intro e hmem g hg
  rcases List.mem_append.1 hmem with h | h
  · obtain ⟨set0, hs⟩ := h1 e h g hg
    exact ⟨set0, List.mem_append.2 (Or.inl hs)⟩
  · obtain ⟨set0, hs⟩ := h2 e h g hg
    exact ⟨set0, List.mem_append.2 (Or.inr hs)⟩

/-- What the statement loop of `createSchemaChangeQueryEvents` adds to the trace and to the
events: no `sendEvents`; when it succeeds, no failed `Save`, and new GTID and query events
whose GTID events were saved. -/
theorem schemaStatementEvents_spec (env : Env) (databaseName : String) :
    ∀ (stmts : List String) (events : List BinlogEvent) (s : State),
      ∃ acts, (schemaStatementEvents env databaseName stmts events s).2.trace = s.trace ++ acts ∧
        NoSend acts ∧
        ∀ events1, (schemaStatementEvents env databaseName stmts events s).1 = Except.ok events1 →
          NoFailedSave acts ∧ ∃ new, events1 = events ++ new ∧ GtidSaved new acts ∧
            ∀ e ∈ new, e.kind.isGtid = true ∨ e.kind.isQuery = true := by
  intro stmts
  induction stmts with
  | nil =>
    intro events s
    refine ⟨[], by simp [schemaStatementEvents], NoSend_nil, ?_⟩
    intro events1 h
    simp only [schemaStatementEvents, Except.ok.injEq] at h
    subst h
    exact ⟨NoFailedSave_nil, [], by simp, GtidSaved_nil _, fun _ h => by cases h⟩
  | cons stmt rest ih =>
    intro events s
    obtain ⟨acts1, ht1, hns1, hok1⟩ := createGtidEvent_trace env s
    simp only [schemaStatementEvents]
    cases hc : createGtidEvent env s with
    | mk r s1 =>
      rw [hc] at ht1 hok1
      simp only at ht1 hok1
      cases r with
      | error err => exact ⟨acts1, ht1, hns1, by intro _ h; cases h⟩
      | ok gtidEvent =>
        simp only
        obtain ⟨hnf1, g, hg, set0, hsave⟩ := hok1 gtidEvent rfl
        obtain ⟨acts2, ht2, hns2, hok2⟩ := ih
          (events ++ [gtidEvent, s1.newEvent (EventKind.query databaseName stmt)])
          (s1.advance env (s1.newEvent (EventKind.query databaseName stmt)))
        refine ⟨acts1 ++ acts2, ?_, NoSend_append hns1 hns2, ?_⟩
        · rw [ht2]
          simp only [State.advance, ht1, List.append_assoc]
        · intro events1 h
          obtain ⟨hnf2, new2, hev, hsaved2, hkinds2⟩ := hok2 events1 h
          refine ⟨NoFailedSave_append hnf1 hnf2,
            [gtidEvent, s1.newEvent (EventKind.query databaseName stmt)] ++ new2, ?_, ?_, ?_⟩
          · rw [hev, List.append_assoc]
          · refine GtidSaved_append ?_ hsaved2
            intro e hmem g2 hg2
            simp only [List.mem_cons, List.mem_singleton, List.not_mem_nil, or_false] at hmem
            rcases hmem with h | h
            · subst h
              rw [hg] at hg2
              cases hg2
              exact ⟨set0, hsave⟩
            · subst h
              simp [State.newEvent] at hg2
          · intro e hmem
            rcases List.mem_append.1 hmem with h | h
            · simp only [List.mem_cons, List.mem_singleton, List.not_mem_nil, or_false] at h
              rcases h with h | h
              · subst h
                left
                rw [hg]
                rfl
              · subst h
                right
                rfl
            · exact hkinds2 e h

/-- What the delta loop of `createSchemaChangeQueryEvents` adds to the trace and to the
events; when it succeeds, `hasDataChanges` is true exactly when it was true before or some
delta has changed data and is not a drop. -/
theorem schemaChangeLoop_spec (env : Env) (databaseName : String) :
    ∀ (deltas : List TableDelta) (events : List BinlogEvent) (hdc : Bool) (s : State),
      ∃ acts, (schemaChangeLoop env databaseName deltas events hdc s).2.trace = s.trace ++ acts ∧
        NoSend acts ∧
        ∀ events1 hdc1,
          (schemaChangeLoop env databaseName deltas events hdc s).1 = Except.ok (events1, hdc1) →
            NoFailedSave acts ∧
            (hdc1 = true ↔ hdc = true ∨
              ∃ td ∈ deltas, td.HasDataChanged = Except.ok true ∧ td.IsDrop = false) ∧
            ∃ new, events1 = events ++ new ∧ GtidSaved new acts ∧
              ∀ e ∈ new, e.kind.isGtid = true ∨ e.kind.isQuery = true := by
  intro deltas
  induction deltas with
  | nil =>
    intro events hdc s
    refine ⟨[], by simp [schemaChangeLoop], NoSend_nil, ?_⟩
    intro events1 hdc1 h
    simp only [schemaChangeLoop, Except.ok.injEq, Prod.mk.injEq] at h
    obtain ⟨h1, h2⟩ := h
    subst h1
    subst h2
    exact ⟨NoFailedSave_nil, by simp, [], by simp, GtidSaved_nil _, fun _ h => by cases h⟩
  | cons td rest ih =>
    intro events hdc s
    simp only [schemaChangeLoop]
    cases hsc : td.HasSchemaChanged with
    | error err => exact ⟨[], by simp, NoSend_nil, by intro _ _ h; cases h⟩
    | ok schemaChanged =>
      simp only
      cases hdch : td.HasDataChanged with
      | error err => exact ⟨[], by simp, NoSend_nil, by intro _ _ h; cases h⟩
      | ok dataChanged =>
        simp only
        have hflag : ∀ b : Bool, (b = true ↔ (hdc || (dataChanged && !td.IsDrop)) = true ∨
            ∃ t ∈ rest, t.HasDataChanged = Except.ok true ∧ t.IsDrop = false) →
            (b = true ↔ hdc = true ∨
              ∃ t ∈ td :: rest, t.HasDataChanged = Except.ok true ∧ t.IsDrop = false) := by
          intro b hb
          rw [hb]
          simp only [List.mem_cons, exists_eq_or_imp, hdch, Except.ok.injEq, Bool.or_eq_true,
            Bool.and_eq_true, Bool.not_eq_true']
          tauto
        split
        · obtain ⟨acts, ht, hns, hok⟩ := ih events (hdc || (dataChanged && !td.IsDrop)) s
          refine ⟨acts, ht, hns, ?_⟩
          intro events1 hdc1 h
          obtain ⟨hnf, hiff, hnew⟩ := hok events1 hdc1 h
          exact ⟨hnf, hflag hdc1 hiff, hnew⟩
        · cases hpatch : td.schemaPatchStatements with
          | error err => exact ⟨[], by simp, NoSend_nil, by intro _ _ h; cases h⟩
          | ok stmts =>
            simp only
            obtain ⟨acts1, ht1, hns1, hok1⟩ :=
              schemaStatementEvents_spec env databaseName stmts events s
            cases hst : schemaStatementEvents env databaseName stmts events s with
            | mk r s1 =>
              rw [hst] at ht1 hok1
              simp only at ht1 hok1
              cases r with
              | error err => exact ⟨acts1, ht1, hns1, by intro _ _ h; cases h⟩
              | ok events0 =>
                simp only
                obtain ⟨hnf1, new1, hev1, hsaved1, hkinds1⟩ := hok1 events0 rfl
                obtain ⟨acts2, ht2, hns2, hok2⟩ :=
                  ih events0 (hdc || (dataChanged && !td.IsDrop)) s1
                refine ⟨acts1 ++ acts2, ?_, NoSend_append hns1 hns2, ?_⟩
                · rw [ht2, ht1, List.append_assoc]
                · intro events1 hdc1 h
                  obtain ⟨hnf2, hiff, new2, hev2, hsaved2, hkinds2⟩ := hok2 events1 hdc1 h
                  refine ⟨NoFailedSave_append hnf1 hnf2, hflag hdc1 hiff, new1 ++ new2, ?_,
                    GtidSaved_append hsaved1 hsaved2, ?_⟩
                  · rw [hev2, hev1, List.append_assoc]
                  · intro e hmem
                    rcases List.mem_append.1 hmem with h | h
                    · exact hkinds1 e h
                    · exact hkinds2 e h

/-- The loop of `createTableMapEvents` calls no collaborator and adds TableMap events only. -/
theorem tableMapLoop_spec (env : Env) (databaseName : String) :
    ∀ (deltas : List TableDelta) (tableId : Nat) (ids : TableIds) (events : List BinlogEvent)
      (s : State),
      (tableMapLoop env databaseName deltas tableId ids events s).2.trace = s.trace ∧
        ∀ events1 ids1,
          (tableMapLoop env databaseName deltas tableId ids events s).1 = Except.ok (events1, ids1) →
            ∃ new, events1 = events ++ new ∧ ∀ e ∈ new, e.kind.isTableMap = true := by
  intro deltas
  induction deltas with
  | nil =>
    intro tableId ids events s
    refine ⟨rfl, ?_⟩
    intro events1 ids1 h
    simp only [tableMapLoop, Except.ok.injEq, Prod.mk.injEq] at h
    exact ⟨[], by simp [h.1], fun _ h => by cases h⟩
  | cons td rest ih =>
    intro tableId ids events s
    simp only [tableMapLoop]
    cases td.HasDataChanged with
    | error err => exact ⟨rfl, by intro _ _ h; cases h⟩
    | ok dataChanged =>
      simp only
      split
      · exact ih tableId ids events s
      · cases createTableMapFromDoltTable env databaseName td.tableName td.ToTable with
        | error err => exact ⟨rfl, by intro _ _ h; cases h⟩
        | ok tableMap =>
          simp only
          obtain ⟨ht, hok⟩ := ih ((tableId + 1) % 2 ^ 64)
            ((td.tableName, (tableId + 1) % 2 ^ 64) :: ids)
            (events ++ [s.newEvent (EventKind.tableMap ((tableId + 1) % 2 ^ 64) tableMap)])
            (s.advance env (s.newEvent (EventKind.tableMap ((tableId + 1) % 2 ^ 64) tableMap)))
          refine ⟨by rw [ht]; rfl, ?_⟩
          intro events1 ids1 h
          obtain ⟨new, hev, hk⟩ := hok events1 ids1 h
          refine ⟨s.newEvent (EventKind.tableMap ((tableId + 1) % 2 ^ 64) tableMap) :: new, ?_, ?_⟩
          · rw [hev, List.append_assoc]; rfl
          · intro e hmem
            rcases List.mem_cons.1 hmem with h | h
            · subst h; rfl
            · exact hk e h

/-- One conditional row event of `createRowEvents` keeps the trace and adds at most a row
event. -/
theorem rowStep_spec (env : Env) (c : Prop) [Decidable c] (kind : EventKind)
    (hkind : kind.isRows = true) (events0 : List BinlogEvent) (w : List BinlogEvent × State)
    (s : State)
    (hw : w.2.trace = s.trace ∧ ∃ new, w.1 = events0 ++ new ∧ ∀ e ∈ new, e.kind.isRows = true) :
    (if c then (w.1 ++ [w.2.newEvent kind], w.2.advance env (w.2.newEvent kind)) else w).2.trace
        = s.trace ∧
      ∃ new, (if c then (w.1 ++ [w.2.newEvent kind], w.2.advance env (w.2.newEvent kind))
          else w).1 = events0 ++ new ∧ ∀ e ∈ new, e.kind.isRows = true := by
  obtain ⟨ht, new, hev, hk⟩ := hw
  by_cases h : c
  · simp only [h, if_true]
    refine ⟨ht, new ++ [w.2.newEvent kind], by rw [hev, List.append_assoc], ?_⟩
    intro e hmem
    rcases List.mem_append.1 hmem with h1 | h1
    · exact hk e h1
    · simp only [List.mem_singleton] at h1
      subst h1
      exact hkind
  · simp only [h, if_false]
    exact ⟨ht, new, hev, hk⟩

/-- The end of the loop body of `createRowEvents` calls no collaborator and adds row events
only. -/
theorem rowEventsOfBuffers_spec (env : Env) (columns tableId : Nat) (bufs : RowBuffers)
    (events : List BinlogEvent) (s : State) :
    (rowEventsOfBuffers env columns tableId bufs events s).2.trace = s.trace ∧
      ∃ new, (rowEventsOfBuffers env columns tableId bufs events s).1 = events ++ new ∧
        ∀ e ∈ new, e.kind.isRows = true := by
  have h0 : (events, s).2.trace = s.trace ∧
      ∃ new, (events, s).1 = events ++ new ∧ ∀ e ∈ new, e.kind.isRows = true :=
    ⟨rfl, [], by simp, fun _ h => by cases h⟩
  have h1 := rowStep_spec env (bufs.tableRowsToWrite ≠ [])
    (EventKind.writeRows tableId ⟨List.replicate columns true, [], bufs.tableRowsToWrite⟩) rfl
    events (events, s) s h0
  have h2 := rowStep_spec env (bufs.tableRowsToDelete ≠ [])
    (EventKind.deleteRows tableId ⟨[], List.replicate columns true, bufs.tableRowsToDelete⟩) rfl
    events _ s h1
  exact rowStep_spec env (bufs.tableRowsToUpdate ≠ [])
    (EventKind.updateRows tableId
      ⟨List.replicate columns true, List.replicate columns true, bufs.tableRowsToUpdate⟩) rfl
    events _ s h2

/-- The loop of `createRowEvents` calls no collaborator and adds row events only. -/
theorem rowEventsLoop_spec (env : Env) (ids : TableIds) :
    ∀ (deltas : List TableDelta) (events : List BinlogEvent) (s : State),
      (rowEventsLoop env ids deltas events s).2.trace = s.trace ∧
        ∀ events1, (rowEventsLoop env ids deltas events s).1 = Except.ok events1 →
          ∃ new, events1 = events ++ new ∧ ∀ e ∈ new, e.kind.isRows = true := by
  intro deltas
  induction deltas with
  | nil =>
    intro events s
    refine ⟨rfl, ?_⟩
    intro events1 h
    simp only [rowEventsLoop, Except.ok.injEq] at h
    exact ⟨[], by simp [h], fun _ h => by cases h⟩
  | cons td rest ih =>
    intro events s
    simp only [rowEventsLoop]
    split
    · exact ih events s
    · cases td.GetRowData with
      | some err => exact ⟨rfl, by intro _ h; cases h⟩
      | none =>
        simp only
        cases td.ToTable.GetSchema with
        | error err => exact ⟨rfl, by intro _ h; cases h⟩
        | ok sch =>
          simp only
          split
          · exact ⟨rfl, by intro _ h; cases h⟩
          · obtain ⟨htb, newb, hevb, hkb⟩ := rowEventsOfBuffers_spec env sch.columns.length
              (ids.get td.tableName)
              (DiffMaps (diffCallback env sch td) td.diffEnd td.diffs ⟨[], [], []⟩).2 events s
            obtain ⟨ht, hok⟩ := ih
              (rowEventsOfBuffers env sch.columns.length (ids.get td.tableName)
                (DiffMaps (diffCallback env sch td) td.diffEnd td.diffs ⟨[], [], []⟩).2 events s).1
              (rowEventsOfBuffers env sch.columns.length (ids.get td.tableName)
                (DiffMaps (diffCallback env sch td) td.diffEnd td.diffs ⟨[], [], []⟩).2 events s).2
            refine ⟨by rw [ht, htb], ?_⟩
            intro events1 h
            obtain ⟨new, hev, hk⟩ := hok events1 h
            refine ⟨newb ++ new, ?_, ?_⟩
            · rw [hev, hevb, List.append_assoc]
            · intro e hmem
              rcases List.mem_append.1 hmem with h | h
              · exact hkb e h
              · exact hk e h

/-- Events that are not GTID events need no saved position. -/
theorem GtidSaved_of_not_gtid {events : List BinlogEvent} (acts : List Action)
    (h : ∀ e ∈ events, e.kind.isGtid = false) : GtidSaved events acts := by
  intro e hmem g hg
  have := h e hmem
  rw [hg] at this
  cases this

/-- Positions saved by some calls are saved by these calls and later ones. -/
theorem GtidSaved_mono_left {events : List BinlogEvent} {a : List Action} (b : List Action)
    (h : GtidSaved events a) : GtidSaved events (a ++ b) := by
  intro e hmem g hg
  obtain ⟨set0, hs⟩ := h e hmem g hg
  exact ⟨set0, List.mem_append.2 (Or.inl hs)⟩

/-- A TableMap event is not a GTID event. -/
theorem EventKind.not_gtid_of_tableMap {k : EventKind} (h : k.isTableMap = true) :
    k.isGtid = false := by
  cases k <;> simp_all [EventKind.isTableMap, EventKind.isGtid]

/-- A row event is not a GTID event. -/
theorem EventKind.not_gtid_of_rows {k : EventKind} (h : k.isRows = true) : k.isGtid = false := by
  cases k <;> simp_all [EventKind.isRows, EventKind.isGtid]

/-- A GTID event is not a row event. -/
theorem EventKind.not_rows_of_gtid {k : EventKind} (h : k.isGtid = true) : k.isRows = false := by
  cases k <;> simp_all [EventKind.isRows, EventKind.isGtid]

/-- A query event is not a row event. -/
theorem EventKind.not_rows_of_query {k : EventKind} (h : k.isQuery = true) :
    k.isRows = false := by
  cases k <;> simp_all [EventKind.isRows, EventKind.isQuery]

/-- A TableMap event is not a row event. -/
theorem EventKind.not_rows_of_tableMap {k : EventKind} (h : k.isTableMap = true) :
    k.isRows = false := by
  cases k <;> simp_all [EventKind.isRows, EventKind.isTableMap]

/-- A row event is not a TableMap event. -/
theorem EventKind.not_tableMap_of_rows {k : EventKind} (h : k.isRows = true) :
    k.isTableMap = false := by
  cases k <;> simp_all [EventKind.isRows, EventKind.isTableMap]

/-- What `WorkingRootUpdated` does on the binlog branch: when it returns an error it has not
called `sendEvents`; when it returns nil its last call is the one `sendEvents`, no `Save`
failed before it, every GTID event sent was saved before it, and the events sent are the
schema change events, followed, when `hasDataChanges` is true, by a GTID event, the BEGIN
query, TableMap events, row events and an XID event. -/
theorem WorkingRootUpdated_spec (env : Env) (databaseName : String) (deltas : List TableDelta)
    (s : State) :
    ∃ acts, (WorkingRootUpdated env databaseName BinlogBranch (Except.ok deltas) s).2.trace
        = s.trace ++ acts ∧
      ((WorkingRootUpdated env databaseName BinlogBranch (Except.ok deltas) s).1 ≠ none →
        NoSend acts) ∧
      ((WorkingRootUpdated env databaseName BinlogBranch (Except.ok deltas) s).1 = none →
        ∃ pre sent, acts = pre ++ [Action.send sent] ∧ NoSend pre ∧ NoFailedSave pre ∧
          GtidSaved sent pre ∧
          ∃ schemaEvents hdc s1,
            createSchemaChangeQueryEvents env databaseName deltas s
              = (Except.ok (schemaEvents, hdc), s1) ∧
            (hdc = true ↔ ∃ td ∈ deltas, td.HasDataChanged = Except.ok true ∧ td.IsDrop = false) ∧
            (∀ e ∈ schemaEvents, e.kind.isGtid = true ∨ e.kind.isQuery = true) ∧
            ((hdc = false ∧ sent = schemaEvents) ∨
              (hdc = true ∧ ∃ gtidEvent beginEvent tableMapEvents rowEvents xidEvent,
                sent = schemaEvents ++ [gtidEvent, beginEvent] ++ tableMapEvents ++ rowEvents ++
                  [xidEvent] ∧
                gtidEvent.kind.isGtid = true ∧
                beginEvent.kind = EventKind.query databaseName "BEGIN" ∧
                (∀ e ∈ tableMapEvents, e.kind.isTableMap = true) ∧
                (∀ e ∈ rowEvents, e.kind.isRows = true) ∧
                xidEvent.kind = EventKind.xid))) := by
  obtain ⟨acts1, ht1, hns1, hok1⟩ := schemaChangeLoop_spec env databaseName deltas [] false s
  simp only [WorkingRootUpdated, ne_eq, not_true_eq_false, if_false, createSchemaChangeQueryEvents]
  cases hsc : schemaChangeLoop env databaseName deltas [] false s with
  | mk r s1 =>
    rw [hsc] at ht1 hok1
    simp only at ht1 hok1
    cases r with
    | error err => exact ⟨acts1, ht1, fun _ => hns1, by intro h; cases h⟩
    | ok pr =>
      obtain ⟨schemaEvents, hdc⟩ := pr
      obtain ⟨hnf1, hiff, new1, hev1, hsaved1, hkinds1⟩ := hok1 schemaEvents hdc rfl
      simp only [List.nil_append] at hev1
      subst hev1
      have hiff2 : hdc = true ↔
          ∃ td ∈ deltas, td.HasDataChanged = Except.ok true ∧ td.IsDrop = false := by
        rw [hiff]; simp
      simp only
      cases hdc with
      | false =>
        simp only [Bool.false_eq_true, if_false]
        refine ⟨acts1 ++ [Action.send schemaEvents], by simp [sendEvents, ht1], ?_, ?_⟩
        · intro h; first | exact absurd rfl h | exact absurd trivial h
        · intro _
          exact ⟨acts1, schemaEvents, rfl, hns1, hnf1, hsaved1, schemaEvents, false, s1, rfl, hiff2,
            hkinds1, Or.inl ⟨rfl, rfl⟩⟩
      | true =>
        simp only [if_true]
        obtain ⟨acts2, ht2, hns2, hok2⟩ := createGtidEvent_trace env s1
        cases hg : createGtidEvent env s1 with
        | mk rg s2 =>
          rw [hg] at ht2 hok2
          simp only at ht2 hok2
          have ht12 : s2.trace = s.trace ++ (acts1 ++ acts2) := by
            rw [ht2, ht1, List.append_assoc]
          cases rg with
          | error err => exact ⟨acts1 ++ acts2, ht12, fun _ => NoSend_append hns1 hns2, by intro h; cases h⟩
          | ok gtidEvent =>
            simp only
            obtain ⟨hnf2, g, hgk, set0, hsave⟩ := hok2 gtidEvent rfl
            obtain ⟨ht3, hok3⟩ := tableMapLoop_spec env databaseName deltas 2 [] []
              (s2.advance env (s2.newEvent (EventKind.query databaseName "BEGIN")))
            simp only [createTableMapEvents]
            cases htm : tableMapLoop env databaseName deltas 2 [] []
                (s2.advance env (s2.newEvent (EventKind.query databaseName "BEGIN"))) with
            | mk rt s4 =>
              rw [htm] at ht3 hok3
              simp only at ht3 hok3
              have ht4 : s4.trace = s.trace ++ (acts1 ++ acts2) := by
                rw [ht3]; exact ht12
              cases rt with
              | error err =>
                exact ⟨acts1 ++ acts2, ht4, fun _ => NoSend_append hns1 hns2, by intro h; cases h⟩
              | ok pt =>
                obtain ⟨tableMapEvents, tablesToId⟩ := pt
                obtain ⟨newt, hevt, hkt⟩ := hok3 tableMapEvents tablesToId rfl
                simp only [List.nil_append] at hevt
                subst hevt
                obtain ⟨ht5, hok5⟩ := rowEventsLoop_spec env tablesToId deltas [] s4
                simp only [createRowEvents]
                cases hrw : rowEventsLoop env tablesToId deltas [] s4 with
                | mk rr s5 =>
                  rw [hrw] at ht5 hok5
                  simp only at ht5 hok5
                  have ht6 : s5.trace = s.trace ++ (acts1 ++ acts2) := by
                    rw [ht5]; exact ht4
                  cases rr with
                  | error err =>
                    exact ⟨acts1 ++ acts2, ht6, fun _ => NoSend_append hns1 hns2, by intro h; cases h⟩
                  | ok rowEvents =>
                    obtain ⟨newr, hevr, hkr⟩ := hok5 rowEvents rfl
                    simp only [List.nil_append] at hevr
                    subst hevr
                    simp only
                    refine ⟨(acts1 ++ acts2) ++ [Action.send
                      (schemaEvents ++ [gtidEvent, s2.newEvent (EventKind.query databaseName "BEGIN")]
                        ++ tableMapEvents ++ rowEvents ++ [s5.newEvent EventKind.xid])], ?_, ?_, ?_⟩
                    · simp only [sendEvents, State.advance, ht6, List.append_assoc]
                    · intro h; first | exact absurd rfl h | exact absurd trivial h
                    · intro _
                      refine ⟨acts1 ++ acts2, _, rfl, NoSend_append hns1 hns2, NoFailedSave_append hnf1 hnf2, ?_,
                        schemaEvents, true, s1, rfl, hiff2, hkinds1, Or.inr ⟨rfl, gtidEvent, _,
                          tableMapEvents, rowEvents, _, rfl, ?_, rfl, hkt, hkr, rfl⟩⟩
                      · have hG : GtidSaved [gtidEvent] acts2 := by
                          intro e hmem g2 hg2
                          simp only [List.mem_singleton] at hmem
                          subst hmem
                          rw [hgk] at hg2
                          cases hg2
                          exact ⟨set0, hsave⟩
                        have hrest : GtidSaved
                            ([s2.newEvent (EventKind.query databaseName "BEGIN")] ++ tableMapEvents ++
                              rowEvents ++ [s5.newEvent EventKind.xid]) [] := by
                          apply GtidSaved_of_not_gtid
                          intro e hmem
                          simp only [List.append_assoc, List.mem_append, List.mem_singleton] at hmem
                          rcases hmem with h | h | h | h
                          · subst h; rfl
                          · exact EventKind.not_gtid_of_tableMap (hkt e h)
                          · exact EventKind.not_gtid_of_rows (hkr e h)
                          · subst h; rfl
                        have hall := GtidSaved_append (GtidSaved_append hsaved1 hG) hrest
                        simp only [List.append_nil, List.append_assoc, List.singleton_append,
                          List.cons_append, List.nil_append] at hall ⊢
                        exact hall
                      · rw [hgk]; rfl

/-- In a list that ends with the only element of its kind, that element splits it one way. -/
theorem split_last_unique {α : Type} (pre : List α) (x : α) (pre1 : List α) (y : α)
    (post : List α) (h : pre ++ [x] = pre1 ++ y :: post) (hy : y ∉ pre) :
    pre1 = pre ∧ y = x ∧ post = [] := by
  induction pre generalizing pre1 with
  | nil =>
    cases pre1 with
    | nil =>
      simp only [List.nil_append, List.cons.injEq] at h
      exact ⟨rfl, h.1.symm, h.2.symm⟩
    | cons a l =>
      simp only [List.nil_append, List.cons_append, List.cons.injEq] at h
      have := h.2
      simp at this
  | cons p ps ih =>
    cases pre1 with
    | nil =>
      simp only [List.cons_append, List.nil_append, List.cons.injEq] at h
      exact absurd (h.1 ▸ List.mem_cons_self p ps) hy
    | cons a l =>
      simp only [List.cons_append, List.cons.injEq] at h
      obtain ⟨h1, h2, h3⟩ := ih l h.2 (fun hm => hy (List.mem_cons_of_mem _ hm))
      exact ⟨by rw [h.1, h1], h2, h3⟩

/-- A call of the producer that never called `sendEvents`. -/
theorem SavedBeforeSent_of_quiet {s s1 : State} (acts : List Action)
    (ht : s1.trace = s.trace ++ acts) (hns : NoSend acts) : SavedBeforeSent s s1 := by
  refine ⟨acts, ht, ?_, fun _ => hns⟩
  intro pre events post h
  exact absurd (h ▸ List.mem_append.2 (Or.inr (List.mem_cons_self _ _))) (hns events)

/-- A call of the producer whose last call is its only `sendEvents`. -/
theorem SavedBeforeSent_of_last {s s1 : State} (pre : List Action) (sent : List BinlogEvent)
    (ht : s1.trace = s.trace ++ (pre ++ [Action.send sent])) (hns : NoSend pre)
    (hnf : NoFailedSave pre) (hsaved : GtidSaved sent pre) : SavedBeforeSent s s1 := by
  refine ⟨pre ++ [Action.send sent], ht, ?_, ?_⟩
  · intro pre1 events post h
    obtain ⟨h1, h2, -⟩ := split_last_unique pre (Action.send sent) pre1 (Action.send events) post h
      (hns events)
    cases h2
    rw [h1]
    exact ⟨hnf, hsaved⟩
  · rintro ⟨p, hp⟩
    rcases List.mem_append.1 hp with h | h
    · exact absurd h (hnf p)
    · simp at h

/-- What `DatabaseCreated` and `DatabaseDropped` do: no `sendEvents` on an error, else one
`sendEvents` as the last call, after the `Save` of its GTID event. -/
theorem databaseStatement_spec (env : Env) (databaseName statement : String) (s : State) :
    SavedBeforeSent s (databaseStatement env databaseName statement s).2 := by
  obtain ⟨acts1, ht1, hns1, hok1⟩ := createGtidEvent_trace env s
  unfold databaseStatement
  cases hg : createGtidEvent env s with
  | mk r s1 =>
    rw [hg] at ht1 hok1
    simp only at ht1 hok1
    cases r with
    | error err => exact SavedBeforeSent_of_quiet acts1 ht1 hns1
    | ok gtidEvent =>
      obtain ⟨hnf, g, hgk, set0, hsave⟩ := hok1 gtidEvent rfl
      refine SavedBeforeSent_of_last acts1
        [gtidEvent, s1.newEvent (EventKind.query databaseName statement)] ?_ hns1 hnf ?_
      · simp only [sendEvents, State.advance, ht1, List.append_assoc]
      · intro e hmem g2 hg2
        simp only [List.mem_cons, List.mem_singleton, List.not_mem_nil, or_false] at hmem
        rcases hmem with h | h
        · subst h
          rw [hgk] at hg2
          cases hg2
          exact ⟨set0, hsave⟩
        · subst h
          simp [State.newEvent] at hg2

/-- C6: in every execution of `WorkingRootUpdated`, `DatabaseCreated` and `DatabaseDropped`,
every GTID event handed to `sendEvents` had its updated position (the GTID set with the
GTID of the event added) saved successfully by `positionStore.Save` before `sendEvents` was
called, no `Save` having failed before; if any `Save` fails, `sendEvents` is not called at
all in that execution. -/
theorem gtid_saved_before_send (env : Env) (databaseName : String) (s : State) :
    (∀ (branchName : String) (tableDeltas : Except GoError (List TableDelta)),
      SavedBeforeSent s (WorkingRootUpdated env databaseName branchName tableDeltas s).2) ∧
    SavedBeforeSent s (DatabaseCreated env databaseName s).2 ∧
    SavedBeforeSent s (DatabaseDropped env databaseName s).2 := by
  refine ⟨?_, databaseStatement_spec env databaseName _ s,
    databaseStatement_spec env databaseName _ s⟩
  intro branchName tableDeltas
  by_cases hb : branchName = BinlogBranch
  · subst hb
    cases tableDeltas with
    | error err =>
      exact SavedBeforeSent_of_quiet [] (by simp [WorkingRootUpdated]) NoSend_nil
    | ok deltas =>
      obtain ⟨acts, ht, herr, hok⟩ := WorkingRootUpdated_spec env databaseName deltas s
      cases hr : (WorkingRootUpdated env databaseName BinlogBranch (Except.ok deltas) s).1 with
      | some err =>
        exact SavedBeforeSent_of_quiet acts ht (herr (by rw [hr]; simp))
      | none =>
        obtain ⟨pre, sent, hacts, hns, hnf, hsaved, -⟩ := hok hr
        rw [hacts] at ht
        exact SavedBeforeSent_of_last pre sent ht hns hnf hsaved
  · exact SavedBeforeSent_of_quiet [] (by simp [WorkingRootUpdated, hb]) NoSend_nil

/-- In a list made of a part without `P` and a part without `Q`, nothing with `Q` follows
something with `P`. -/
theorem none_after_of_parts {α : Type} (P Q : α → Bool) (A B : List α)
    (hA : ∀ a ∈ A, P a = false) (hB : ∀ b ∈ B, Q b = false) (l1 : List α) (e : α)
    (l2 : List α) (h : A ++ B = l1 ++ e :: l2) (he : P e = true) : ∀ e2 ∈ l2, Q e2 = false := by
  rcases List.append_eq_append_iff.1 h with ⟨a1, h1, h2⟩ | ⟨c1, h1, h2⟩
  · intro e2 hm
    apply hB
    rw [h2]
    exact List.mem_append.2 (Or.inr (List.mem_cons_of_mem _ hm))
  · cases c1 with
    | nil =>
      simp only [List.nil_append] at h2
      intro e2 hm
      apply hB
      rw [← h2]
      exact List.mem_cons_of_mem _ hm
    | cons c cs =>
      simp only [List.cons_append, List.cons.injEq] at h2
      have hmem : e ∈ A := by
        rw [h1, ← h2.1]
        exact List.mem_append.2 (Or.inr (List.mem_cons_self _ _))
      rw [hA e hmem] at he
      cases he

/-- C1: for a successful `WorkingRootUpdated` call on the binlog branch in which at least
one table that is not dropped has data changes, `sendEvents` is called once, as the last
call, with exactly the schema change events followed by one GTID event, one Query event
with SQL `BEGIN`, the TableMap events, the row events and one XID event as the last event;
no TableMap event follows a row event. -/
theorem WorkingRootUpdated_transaction_order (env : Env) (databaseName : String)
    (deltas : List TableDelta) (s s1 : State)
    (hok : WorkingRootUpdated env databaseName BinlogBranch (Except.ok deltas) s = (none, s1))
    (hdata : ∃ td ∈ deltas, td.HasDataChanged = Except.ok true ∧ td.IsDrop = false) :
    ∃ (schemaEvents : List BinlogEvent) (s0 : State) (gtidEvent beginEvent : BinlogEvent)
      (tableMapEvents rowEvents : List BinlogEvent) (xidEvent : BinlogEvent) (pre : List Action),
      createSchemaChangeQueryEvents env databaseName deltas s
        = (Except.ok (schemaEvents, true), s0) ∧
      s1.trace = s.trace ++ pre ++
        [Action.send (schemaEvents ++ [gtidEvent, beginEvent] ++ tableMapEvents ++ rowEvents ++
          [xidEvent])] ∧
      NoSend pre ∧
      (∀ e ∈ schemaEvents, e.kind.isGtid = true ∨ e.kind.isQuery = true) ∧
      gtidEvent.kind.isGtid = true ∧
      beginEvent.kind = EventKind.query databaseName "BEGIN" ∧
      (∀ e ∈ tableMapEvents, e.kind.isTableMap = true) ∧
      (∀ e ∈ rowEvents, e.kind.isRows = true) ∧
      xidEvent.kind = EventKind.xid ∧
      (∀ l1 e l2,
        schemaEvents ++ [gtidEvent, beginEvent] ++ tableMapEvents ++ rowEvents ++ [xidEvent]
          = l1 ++ e :: l2 →
        e.kind.isRows = true → ∀ e2 ∈ l2, e2.kind.isTableMap = false) := by
  obtain ⟨acts, ht, -, hspec⟩ := WorkingRootUpdated_spec env databaseName deltas s
  rw [hok] at ht hspec
  obtain ⟨pre, sent, hacts, hns, -, -, schemaEvents, hdc, s0, hsc, hiff, hkinds, hshape⟩ :=
    hspec rfl
  have hdc1 : hdc = true := hiff.2 hdata
  rcases hshape with ⟨hf, -⟩ | ⟨-, gtidEvent, beginEvent, tableMapEvents, rowEvents, xidEvent,
    hsent, hgk, hbk, hkt, hkr, hxk⟩
  · rw [hdc1] at hf; cases hf
  · subst hdc1
    refine ⟨schemaEvents, s0, gtidEvent, beginEvent, tableMapEvents, rowEvents, xidEvent, pre,
      hsc, ?_, hns, hkinds, hgk, hbk, hkt, hkr, hxk, ?_⟩
    · simp only at ht
      simp only [ht, hacts, hsent, List.append_assoc]
    · intro l1 e l2 hsplit he
      refine none_after_of_parts (fun x => x.kind.isRows) (fun x => x.kind.isTableMap)
        (schemaEvents ++ [gtidEvent, beginEvent] ++ tableMapEvents) (rowEvents ++ [xidEvent])
        ?_ ?_ l1 e l2 (by rw [← hsplit]; simp only [List.append_assoc]) he
      · intro a ha
        simp only [List.append_assoc, List.mem_append, List.mem_cons, List.mem_singleton,
          List.not_mem_nil, or_false] at ha
        show a.kind.isRows = false
        rcases ha with h | (h | h) | h
        · rcases hkinds a h with hk | hk
          · exact EventKind.not_rows_of_gtid hk
          · exact EventKind.not_rows_of_query hk
        · rw [h]; exact EventKind.not_rows_of_gtid hgk
        · rw [h, hbk]; rfl
        · exact EventKind.not_rows_of_tableMap (hkt a h)
      · intro b hb
        simp only [List.mem_append, List.mem_singleton] at hb
        show b.kind.isTableMap = false
        rcases hb with h | h
        · exact EventKind.not_tableMap_of_rows (hkr b h)
        · rw [h, hxk]; rfl

/-- Witness of C1: a commit that creates table `t` and inserts a row into it, on a producer
that has not been used. -/
theorem WorkingRootUpdated_transaction_order_witness :
    ∃ (schemaEvents : List BinlogEvent) (s0 : State) (gtidEvent beginEvent : BinlogEvent)
      (tableMapEvents rowEvents : List BinlogEvent) (xidEvent : BinlogEvent) (pre : List Action),
      createSchemaChangeQueryEvents sampleEnv "db" [sampleCreateAndInsert] freshState
        = (Except.ok (schemaEvents, true), s0) ∧
      (WorkingRootUpdated sampleEnv "db" "main" (Except.ok [sampleCreateAndInsert])
          freshState).2.trace = freshState.trace ++ pre ++
        [Action.send (schemaEvents ++ [gtidEvent, beginEvent] ++ tableMapEvents ++ rowEvents ++
          [xidEvent])] ∧
      NoSend pre ∧
      (∀ e ∈ schemaEvents, e.kind.isGtid = true ∨ e.kind.isQuery = true) ∧
      gtidEvent.kind.isGtid = true ∧
      beginEvent.kind = EventKind.query "db" "BEGIN" ∧
      (∀ e ∈ tableMapEvents, e.kind.isTableMap = true) ∧
      (∀ e ∈ rowEvents, e.kind.isRows = true) ∧
      xidEvent.kind = EventKind.xid ∧
      (∀ l1 e l2,
        schemaEvents ++ [gtidEvent, beginEvent] ++ tableMapEvents ++ rowEvents ++ [xidEvent]
          = l1 ++ e :: l2 →
        e.kind.isRows = true → ∀ e2 ∈ l2, e2.kind.isTableMap = false) :=
  WorkingRootUpdated_transaction_order sampleEnv "db" [sampleCreateAndInsert] freshState
    (WorkingRootUpdated sampleEnv "db" "main" (Except.ok [sampleCreateAndInsert]) freshState).2
    (Prod.ext (by decide) rfl)
    ⟨sampleCreateAndInsert, List.mem_singleton.2 rfl, rfl, rfl⟩

/-! ### Parsing the stored GTID set string -/

/-- The function `Contains` is membership. -/
theorem Contains_eq_true_iff (s : GoString) (c : Char) : Contains s c = true ↔ c ∈ s := by
  simp [Contains]

/-- A string without the separator is one piece. -/
theorem Split_of_not_mem (sep : Char) : ∀ s : GoString, sep ∉ s → Split sep s = [s] := by
  intro s
  induction s with
  | nil => intro _; rfl
  | cons c cs ih =>
    intro h
    have hc : c ≠ sep := fun e => h (e ▸ List.mem_cons_self _ _)
    have hcs : sep ∉ cs := fun hm => h (List.mem_cons_of_mem _ hm)
    simp [Split, hc, ih hcs]

/-- The pieces of a string never are none at all. -/
theorem Split_ne_nil (sep : Char) : ∀ s : GoString, Split sep s ≠ [] := by
  intro s
  induction s with
  | nil => simp [Split]
  | cons c cs ih =>
    simp only [Split]
    split
    · simp
    · split
      · simp
      · simp

/-- Splitting at the first separator: the part in front of it is the first piece. -/
theorem Split_append (sep : Char) (b : GoString) :
    ∀ a : GoString, sep ∉ a → Split sep (a ++ sep :: b) = a :: Split sep b := by
  intro a
  induction a with
  | nil => intro _; simp [Split]
  | cons c cs ih =>
    intro h
    have hc : c ≠ sep := fun e => h (e ▸ List.mem_cons_self _ _)
    have hcs : sep ∉ cs := fun hm => h (List.mem_cons_of_mem _ hm)
    simp [Split, hc, ih hcs]

/-- A decimal digit reads back as its value. -/
theorem digitVal_digitChar (d : Nat) (hd : d < 10) : digitVal (digitChar d) = some d := by
  interval_cases d <;> decide

/-- A decimal digit is none of the characters the GTID parsing looks for. -/
theorem digitChar_ne (d : Nat) :
    digitChar d ≠ ':' ∧ digitChar d ≠ ',' ∧ digitChar d ≠ '-' ∧ digitChar d ≠ '+' := by
  have h : d % 10 < 10 := Nat.mod_lt _ (by decide)
  unfold digitChar
  generalize d % 10 = m at h
  interval_cases m <;> decide

/-- The digits are written in front of `acc`. -/
theorem decimalCore_append : ∀ (fuel n : Nat) (acc : GoString),
    decimalCore fuel n acc = decimalCore fuel n [] ++ acc := by
  intro fuel
  induction fuel with
  | zero => intro n acc; rfl
  | succ f ih =>
    intro n acc
    simp only [decimalCore]
    split
    · rfl
    · rw [ih (n / 10) (digitChar (n % 10) :: acc), ih (n / 10) [digitChar (n % 10)]]
      simp

/-- Every character of a numeral is a decimal digit. -/
theorem decimalCore_digits : ∀ (fuel n : Nat), ∀ c ∈ decimalCore fuel n [], ∃ d, c = digitChar d := by
  intro fuel
  induction fuel with
  | zero => intro n c h; cases h
  | succ f ih =>
    intro n c h
    simp only [decimalCore] at h
    split at h
    · simp only [List.mem_singleton] at h
      exact ⟨n, h⟩
    · rw [decimalCore_append] at h
      rcases List.mem_append.1 h with h1 | h1
      · exact ih _ c h1
      · simp only [List.mem_singleton] at h1
        exact ⟨n % 10, h1⟩

/-- A numeral holds none of the characters the GTID parsing looks for. -/
theorem decimal_not_mem (n : Nat) :
    ':' ∉ decimal n ∧ ',' ∉ decimal n ∧ '-' ∉ decimal n := by
  refine ⟨?_, ?_, ?_⟩ <;> intro h <;> obtain ⟨d, hd⟩ := decimalCore_digits _ _ _ h
  · exact (digitChar_ne d).1 hd.symm
  · exact (digitChar_ne d).2.1 hd.symm
  · exact (digitChar_ne d).2.2.1 hd.symm

/-- Reading digits goes through a concatenation. -/
theorem parseDigits_append : ∀ (xs ys : GoString) (a : Nat),
    parseDigits (xs ++ ys) a = (parseDigits xs a).bind (parseDigits ys) := by
  intro xs
  induction xs with
  | nil => intro ys a; rfl
  | cons c cs ih =>
    intro ys a
    simp only [List.cons_append, parseDigits]
    cases digitVal c with
    | none => rfl
    | some d => exact ih ys _

/-- A numeral reads back as its number. -/
theorem parseDigits_decimalCore : ∀ (fuel n : Nat), n < fuel →
    parseDigits (decimalCore fuel n []) 0 = some n := by
  intro fuel
  induction fuel with
  | zero => intro n h; cases h
  | succ f ih =>
    intro n h
    simp only [decimalCore]
    split
    · rename_i h10
      simp [parseDigits, digitVal_digitChar n h10]
    · rename_i h10
      have hlt : n / 10 < f := by omega
      rw [decimalCore_append, parseDigits_append, ih (n / 10) hlt]
      simp only [Option.some_bind, parseDigits, digitVal_digitChar (n % 10) (Nat.mod_lt _ (by decide))]
      congr 1
      omega

/-- A numeral starts with a digit. -/
theorem decimal_head (n : Nat) : ∃ d rest, decimal n = digitChar d :: rest := by
  have h : ∀ (fuel m : Nat) (acc : GoString),
      (0 < fuel ∨ ∃ d r, acc = digitChar d :: r) → ∃ d rest, decimalCore fuel m acc = digitChar d :: rest := by
    intro fuel
    induction fuel with
    | zero =>
      intro m acc h
      rcases h with h | ⟨d, r, h⟩
      · cases h
      · exact ⟨d, r, h⟩
    | succ f ih =>
      intro m acc _
      simp only [decimalCore]
      split
      · exact ⟨m, acc, rfl⟩
      · exact ih _ _ (Or.inr ⟨m % 10, acc, rfl⟩)
  exact h (n + 1) n [] (Or.inl (Nat.succ_pos n))

/-- The function `Atoi` reads the numeral of a number that fits an `int`. -/
theorem Atoi_decimal (n : Nat) (hn : n < 2 ^ 63) : Atoi (decimal n) = Except.ok (n : Int) := by
  obtain ⟨d, rest, hd⟩ := decimal_head n
  have hp : parseDigits (decimal n) 0 = some n := parseDigits_decimalCore (n + 1) n (Nat.lt_succ_self n)
  rw [hd] at hp
  rw [hd]
  have h1 := (digitChar_ne d).2.2.1
  have h2 := (digitChar_ne d).2.2.2
  simp only [Atoi, h1, h2, or_self, if_false, decide_False, hp, Bool.false_eq_true]
  have hlt : ¬ ((n : Int) < -(2 : Int) ^ 63 ∨ (2 : Int) ^ 63 ≤ (n : Int)) := by
    have : (n : Int) < 2 ^ 63 := by exact_mod_cast hn
    omega
  rw [if_neg hlt]
  simp

/-- The sequence read from a GTID set string of the form `<uuid>:<n>`. -/
theorem parseGtidSequence_single (uuid : GoString) (n : Nat) (h1 : ':' ∉ uuid) (h2 : ',' ∉ uuid)
    (hn : n < 2 ^ 63) : parseGtidSequence (uuid ++ ':' :: decimal n) = Except.ok (n : Int) := by
  obtain ⟨d1, d2, d3⟩ := decimal_not_mem n
  have hc : Contains (uuid ++ ':' :: decimal n) ',' = false := by
    rw [Bool.eq_false_iff, ne_eq, Contains_eq_true_iff]
    simp only [List.mem_append, List.mem_cons, not_or]
    exact ⟨h2, by decide, d2⟩
  have hs : Split ':' (uuid ++ ':' :: decimal n) = [uuid, decimal n] := by
    rw [Split_append ':' _ uuid h1, Split_of_not_mem ':' _ d1]
  have hs2 : Split '-' (decimal n) = [decimal n] := Split_of_not_mem '-' _ d3
  simp [parseGtidSequence, hc, hs, hs2, Atoi_decimal n hn]

/-- The sequence read from a GTID set string of the form `<uuid>:<s>-<n>`. -/
theorem parseGtidSequence_range (uuid start : GoString) (n : Nat) (h1 : ':' ∉ uuid)
    (h2 : ',' ∉ uuid) (h3 : ':' ∉ start) (h4 : ',' ∉ start) (h5 : '-' ∉ start)
    (hn : n < 2 ^ 63) :
    parseGtidSequence (uuid ++ ':' :: (start ++ '-' :: decimal n)) = Except.ok (n : Int) := by
  obtain ⟨d1, d2, d3⟩ := decimal_not_mem n
  have hc : Contains (uuid ++ ':' :: (start ++ '-' :: decimal n)) ',' = false := by
    rw [Bool.eq_false_iff, ne_eq, Contains_eq_true_iff]
    simp only [List.mem_append, List.mem_cons, not_or]
    exact ⟨h2, by decide, h4, by decide, d2⟩
  have hm : ':' ∉ start ++ '-' :: decimal n := by
    simp only [List.mem_append, List.mem_cons, not_or]
    exact ⟨h3, by decide, d1⟩
  have hs : Split ':' (uuid ++ ':' :: (start ++ '-' :: decimal n))
      = [uuid, start ++ '-' :: decimal n] := by
    rw [Split_append ':' _ uuid h1, Split_of_not_mem ':' _ hm]
  have hs2 : Split '-' (start ++ '-' :: decimal n) = [start, decimal n] := by
    rw [Split_append '-' _ start h5, Split_of_not_mem '-' _ d3]
  simp [parseGtidSequence, hc, hs, hs2, Atoi_decimal n hn]

/-- The first `initializeGtidPosition` of a producer whose store holds a position with a
GTID set string from which the sequence `i` is read. -/
theorem initializeGtidPosition_parsed (env : Env) (s : State) (p : Position) (i : Int)
    (hfresh : s.gtidPosition = none) (hload : env.loadErr s.clock = none)
    (hstore : s.positionStore = some p) (hzero : p.IsZero = false) (hne : p.gtidString ≠ [])
    (hparse : parseGtidSequence p.gtidString = Except.ok i) :
    initializeGtidPosition env s =
      (none, { s with clock := s.clock + 1, trace := s.trace ++ [Action.load],
                      gtidPosition := some p, gtidSequence := wrapInt64 (i + 1) }) := by
  simp [initializeGtidPosition, hfresh, hload, hstore, loadedPosition, hzero, hne, hparse]

/-- C4: on the first use of a producer (`gtidPosition` is nil, `Load` succeeds),
`initializeGtidPosition` sets `gtidSequence` to 1 with an empty GTID set when the position
store holds no position (nil, zero, or an empty GTID set string); when the stored GTID set
string has the form `<uuid>:<n>` or `<uuid>:<s>-<n>`, `n` the numeral of a sequence number
(an `int64`, so `n < 2^63`), it keeps the stored position and sets `gtidSequence` to
`n + 1`, computed in `int64`, which is the number `n + 1` whenever that fits. -/
theorem initializeGtidPosition_first_use (env : Env) (s : State)
    (hfresh : s.gtidPosition = none) (hload : env.loadErr s.clock = none) :
    ((s.positionStore = none ∨
        ∃ p, s.positionStore = some p ∧ (p.IsZero = true ∨ p.gtidString = [])) →
      initializeGtidPosition env s =
        (none, { s with clock := s.clock + 1, trace := s.trace ++ [Action.load],
                        gtidPosition := some ⟨some ⟨[]⟩⟩, gtidSequence := 1 })) ∧
    (∀ (p : Position) (uuid : GoString) (n : Nat),
      s.positionStore = some p → p.IsZero = false → ':' ∉ uuid → ',' ∉ uuid → n < 2 ^ 63 →
      (p.gtidString = uuid ++ ':' :: decimal n ∨
        ∃ start : GoString, ':' ∉ start ∧ ',' ∉ start ∧ '-' ∉ start ∧
          p.gtidString = uuid ++ ':' :: (start ++ '-' :: decimal n)) →
      initializeGtidPosition env s =
          (none, { s with clock := s.clock + 1, trace := s.trace ++ [Action.load],
                          gtidPosition := some p, gtidSequence := wrapInt64 ((n : Int) + 1) }) ∧
        (n + 1 < 2 ^ 63 → wrapInt64 ((n : Int) + 1) = (n : Int) + 1)) := by
  constructor
  · intro h
    have hl : loadedPosition s.positionStore = none := by
      rcases h with h | ⟨p, hp, h | h⟩
      · simp [h, loadedPosition]
      · simp [hp, loadedPosition, h]
      · simp [hp, loadedPosition, h]
    simp [initializeGtidPosition, hfresh, hload, hl]
  · intro p uuid n hstore hzero h1 h2 hn hform
    refine ⟨?_, ?_⟩
    · rcases hform with h | ⟨start, h3, h4, h5, h⟩
      · exact initializeGtidPosition_parsed env s p n hfresh hload hstore hzero
          (by rw [h]; simp) (by rw [h]; exact parseGtidSequence_single uuid n h1 h2 hn)
      · exact initializeGtidPosition_parsed env s p n hfresh hload hstore hzero
          (by rw [h]; simp)
          (by rw [h]; exact parseGtidSequence_range uuid start n h1 h2 h3 h4 h5 hn)
    · intro h
      have : ((n : Int) + 1) < 2 ^ 63 := by exact_mod_cast h
      unfold wrapInt64
      omega

/-- Witness of C4: an empty store gives sequence 1; the stored GTID set
`00000000-0000-0000-0000-000000000001:1-41` gives sequence 42. -/
theorem initializeGtidPosition_first_use_witness :
    (initializeGtidPosition sampleEnv freshState).2.gtidSequence = 1 ∧
      (initializeGtidPosition sampleEnv
        { freshState with positionStore := some ⟨some ⟨[(⟨[0, 0, 0, 0, 0, 0, 0, 0, 0, 0, 0, 0, 0,
            0, 0, 1]⟩, [⟨1, 41⟩])]⟩⟩ }).2.gtidSequence = 42 := by
  have h1 := (initializeGtidPosition_first_use sampleEnv freshState rfl rfl).1 (Or.inl rfl)
  have h2 := ((initializeGtidPosition_first_use sampleEnv
    { freshState with positionStore := some ⟨some ⟨[(⟨[0, 0, 0, 0, 0, 0, 0, 0, 0, 0, 0, 0, 0,
        0, 0, 1]⟩, [⟨1, 41⟩])]⟩⟩ } rfl rfl).2
    ⟨some ⟨[(⟨[0, 0, 0, 0, 0, 0, 0, 0, 0, 0, 0, 0, 0, 0, 0, 1]⟩, [⟨1, 41⟩])]⟩⟩
    "00000000-0000-0000-0000-000000000001".data 41 rfl rfl (by decide) (by decide) (by decide)
    (Or.inr ⟨['1'], by decide, by decide, by decide, by decide⟩)).1
  rw [h1, h2]
  exact ⟨rfl, by decide⟩

/-! ### GTID sequences across a restart -/

/-- The first GTID of a server in an empty set. -/
theorem AddGTID_empty (sid : SID) (q : Int) :
    (⟨[]⟩ : Mysql56GTIDSet).AddGTID ⟨sid, q⟩ = ⟨[(sid, [⟨q, q⟩])]⟩ := by
  simp [Mysql56GTIDSet.AddGTID, Mysql56GTIDSet.ContainsGTID, Mysql56GTIDSet.lookup,
    containsSequence, insertSID]

/-- The next GTID of a server widens the interval `1 .. j` to `1 .. j + 1`. -/
theorem AddGTID_next (sid : SID) (j : Int) (hj : 1 ≤ j) :
    (⟨[(sid, [⟨1, j⟩])]⟩ : Mysql56GTIDSet).AddGTID ⟨sid, j + 1⟩ = ⟨[(sid, [⟨1, j + 1⟩])]⟩ := by
  have h1 : ¬ (1 : Int) > j + 1 := by omega
  have h2 : ¬ (j + 1 ≤ j) := by omega
  have h3 : ¬ (j + 1 = 1 - 1) := by omega
  have h4 : ¬ (j + 1 = 0) := by omega
  simp [Mysql56GTIDSet.AddGTID, Mysql56GTIDSet.ContainsGTID, Mysql56GTIDSet.lookup,
    containsSequence, addToIntervals, h1, h2, h3, h4]

/-- A hexadecimal digit is neither a colon nor a comma. -/
theorem hexDigit_ne (n : Nat) : hexDigit n ≠ ':' ∧ hexDigit n ≠ ',' := by
  have h : n % 16 < 16 := Nat.mod_lt _ (by decide)
  unfold hexDigit
  generalize n % 16 = m at h
  interval_cases m <;> decide

/-- The hexadecimal form of bytes holds neither a colon nor a comma. -/
theorem hexEncode_not_mem : ∀ bs : List Nat, ':' ∉ hexEncode bs ∧ ',' ∉ hexEncode bs := by
  intro bs
  induction bs with
  | nil => simp [hexEncode]
  | cons b rest ih =>
    simp only [hexEncode, List.mem_cons, not_or]
    exact ⟨⟨Ne.symm (hexDigit_ne _).1, Ne.symm (hexDigit_ne _).1, ih.1⟩,
      ⟨Ne.symm (hexDigit_ne _).2, Ne.symm (hexDigit_ne _).2, ih.2⟩⟩

/-- The text of a SID holds neither a colon nor a comma. -/
theorem SID_String_not_mem (sid : SID) : ':' ∉ sid.String ∧ ',' ∉ sid.String := by
  have h1 : ∀ bs, ':' ∉ hexEncode bs := fun bs => (hexEncode_not_mem bs).1
  have h2 : ∀ bs, ',' ∉ hexEncode bs := fun bs => (hexEncode_not_mem bs).2
  constructor <;> simp [SID.String, h1, h2]

/-- The GTID set string of the sequences `1 .. k` of one server. -/
theorem gtidString_interval (sid : SID) (k : Nat) :
    Position.gtidString ⟨some ⟨[(sid, [⟨1, (k : Int)⟩])]⟩⟩ =
      sid.String ++ ':' :: (if k = 1 then decimal 1 else decimal 1 ++ '-' :: decimal k) := by
  have hf : FormatInt (k : Int) = decimal k := by
    simp [FormatInt]
  have h1 : FormatInt 1 = decimal 1 := by decide
  by_cases hk : k = 1
  · subst hk
    simp [Position.gtidString, Mysql56GTIDSet.String, sidsString, intervalString, h1]
  · have hk2 : ¬ ((k : Int) = 1) := by exact_mod_cast hk
    simp [Position.gtidString, Mysql56GTIDSet.String, sidsString, intervalString, h1, hf, hk,
      hk2]

/-- A successful `createGtidEvent` issues the sequence number the initialization left,
adds the GTID to the set, saves the position and moves the sequence number on by one. -/
theorem createGtidEvent_ok (env : Env) (uuid : GoString) (sid : SID) (s si s1 : State)
    (set : Mysql56GTIDSet) (ev : BinlogEvent)
    (huuid : ∀ t, env.getServerUuid t = Except.ok uuid) (hsid : env.ParseSID uuid = Except.ok sid)
    (hinit : initializeGtidPosition env s = (none, si))
    (hpos : si.gtidPosition = some ⟨some set⟩)
    (h : createGtidEvent env s = (Except.ok ev, s1)) :
    ev.kind = EventKind.gtid ⟨sid, si.gtidSequence⟩ ∧
      s1.gtidPosition = some ⟨some (set.AddGTID ⟨sid, si.gtidSequence⟩)⟩ ∧
      s1.positionStore = some ⟨some (set.AddGTID ⟨sid, si.gtidSequence⟩)⟩ ∧
      s1.gtidSequence = wrapInt64 (si.gtidSequence + 1) := by
  unfold createGtidEvent at h
  rw [hinit] at h
  simp only [huuid, hsid, State.advance, State.newEvent, hpos, Option.some_bind] at h
  split at h
  · cases h
  · split at h
    · cases h
    · simp only [Prod.mk.injEq, Except.ok.injEq] at h
      obtain ⟨h1, h2⟩ := h
      subst h1
      subst h2
      exact ⟨rfl, rfl, rfl, rfl⟩

/-- Conversion to `int64` keeps a number that fits. -/
theorem wrapInt64_of_lt (n : Nat) (h : n < 2 ^ 63) : wrapInt64 (n : Int) = (n : Int) := by
  have : (n : Int) < 2 ^ 63 := by exact_mod_cast h
  unfold wrapInt64
  omega

/-- The state of a producer that issued the sequences `1 .. j` of the server `sid` and
goes on with `m` successful calls. -/
theorem createGtidEvents_run (env : Env) (uuid : GoString) (sid : SID)
    (huuid : ∀ t, env.getServerUuid t = Except.ok uuid) (hsid : env.ParseSID uuid = Except.ok sid) :
    ∀ (m j : Nat) (s s1 : State) (evs : List BinlogEvent), 1 ≤ j → j + m < 2 ^ 63 →
      s.gtidPosition = some ⟨some ⟨[(sid, [⟨1, (j : Int)⟩])]⟩⟩ →
      s.gtidSequence = wrapInt64 ((j + 1 : Nat) : Int) →
      createGtidEvents env m s = some (evs, s1) →
      (m = 0 ∨ s1.positionStore = some ⟨some ⟨[(sid, [⟨1, ((j + m : Nat) : Int)⟩])]⟩⟩) ∧
      s1.gtidPosition = some ⟨some ⟨[(sid, [⟨1, ((j + m : Nat) : Int)⟩])]⟩⟩ ∧
      s1.gtidSequence = wrapInt64 ((j + m + 1 : Nat) : Int) ∧
      evs.map (fun e => e.kind) =
        (List.range' (j + 1) m).map (fun (i : Nat) => EventKind.gtid ⟨sid, (i : Int)⟩) := by
  intro m
  induction m with
  | zero =>
    intro j s s1 evs hj hlt hpos hseq hrun
    simp only [createGtidEvents, Option.some.injEq, Prod.mk.injEq] at hrun
    obtain ⟨h1, h2⟩ := hrun
    subst h1
    subst h2
    exact ⟨Or.inl rfl, hpos, hseq, rfl⟩
  | succ m ih =>
    intro j s s1 evs hj hlt hpos hseq hrun
    simp only [createGtidEvents] at hrun
    cases hc : createGtidEvent env s with
    | mk r s2 =>
      rw [hc] at hrun
      cases r with
      | error err => simp at hrun
      | ok ev =>
        simp only at hrun
        cases hrest : createGtidEvents env m s2 with
        | none => rw [hrest] at hrun; simp at hrun
        | some pr =>
          obtain ⟨evs2, s3⟩ := pr
          rw [hrest] at hrun
          simp only [Option.some.injEq, Prod.mk.injEq] at hrun
          obtain ⟨h1, h2⟩ := hrun
          subst h1
          subst h2
          have hinit : initializeGtidPosition env s = (none, s) := by
            simp [initializeGtidPosition, hpos]
          obtain ⟨hk, hp2, hst2, hs2⟩ := createGtidEvent_ok env uuid sid s s s2 _ ev huuid hsid
            hinit hpos hc
          have hseq1 : s.gtidSequence = ((j + 1 : Nat) : Int) := by
            rw [hseq]; exact wrapInt64_of_lt (j + 1) (by omega)
          have hcast : ((j + 1 : Nat) : Int) = (j : Int) + 1 := by push_cast; rfl
          rw [hseq1] at hk hs2
          rw [hseq1, hcast, AddGTID_next sid j (by exact_mod_cast hj), ← hcast] at hp2 hst2
          have hs2b : s2.gtidSequence = wrapInt64 ((j + 1 + 1 : Nat) : Int) := by
            rw [hs2]; push_cast; rfl
          obtain ⟨hst3, hp3, hs3, hev3⟩ := ih (j + 1) s2 s3 evs2 (by omega) (by omega)
            hp2 hs2b hrest
          have hjm : j + 1 + m = j + (m + 1) := by omega
          rw [hjm] at hst3 hp3 hs3
          refine ⟨Or.inr ?_, hp3, hs3, ?_⟩
          · rcases hst3 with h0 | h0
            · subst h0
              simp only [createGtidEvents, Option.some.injEq, Prod.mk.injEq] at hrest
              rw [← hrest.2]
              exact hst2
            · exact h0
          · rw [List.map_cons, hk, hev3]
            rfl

/-- The sequence read back from the stored GTID set of the sequences `1 .. k`. -/
theorem parseGtidSequence_interval (sid : SID) (k : Nat) (hk : k < 2 ^ 63) :
    parseGtidSequence (Position.gtidString ⟨some ⟨[(sid, [⟨1, (k : Int)⟩])]⟩⟩)
      = Except.ok (k : Int) := by
  obtain ⟨h1, h2⟩ := SID_String_not_mem sid
  rw [gtidString_interval]
  by_cases h : k = 1
  · subst h
    simp only [if_true]
    exact parseGtidSequence_single sid.String 1 h1 h2 (by decide)
  · simp only [h, if_false]
    exact parseGtidSequence_range sid.String (decimal 1) k h1 h2 (by decide) (by decide)
      (by decide) hk

/-- C5: for every `k >= 1` (with `k < 2^63`, the sequence numbers being `int64`) and a fixed
server UUID: starting from a producer that has not been used and an empty position store,
`k` successful `createGtidEvent` calls issue the sequences `1 .. k`; a new producer that
then runs `initializeGtidPosition` on the saved position keeps that position and gets
`gtidSequence = k + 1` (in `int64`, the number `k + 1` whenever that fits), so the next GTID
it issues has the sequence (persisted sequence) + 1, which is none of the sequences issued
before. -/
theorem restart_resumes_after_persisted_sequence (env : Env) (uuid : GoString) (sid : SID)
    (k : Nat) (s0 s : State) (evs : List BinlogEvent)
    (hk : 1 ≤ k) (hk63 : k < 2 ^ 63)
    (huuid : ∀ t, env.getServerUuid t = Except.ok uuid) (hsid : env.ParseSID uuid = Except.ok sid)
    (hfresh : s0.gtidPosition = none) (hempty : s0.positionStore = none)
    (hrun : createGtidEvents env k s0 = some (evs, s))
    (hload : env.loadErr (restartProducer s).clock = none) :
    evs.map (fun e => e.kind) = (List.range' 1 k).map (fun (i : Nat) => EventKind.gtid ⟨sid, (i : Int)⟩) ∧
      s.positionStore = some ⟨some ⟨[(sid, [⟨1, (k : Int)⟩])]⟩⟩ ∧
      initializeGtidPosition env (restartProducer s) =
        (none, { restartProducer s with
                  clock := s.clock + 1, trace := s.trace ++ [Action.load],
                  gtidPosition := s.positionStore,
                  gtidSequence := wrapInt64 ((k : Int) + 1) }) ∧
      (k + 1 < 2 ^ 63 → wrapInt64 ((k : Int) + 1) = (k : Int) + 1) ∧
      (∀ ev s2, createGtidEvent env (restartProducer s) = (Except.ok ev, s2) →
        ev.kind = EventKind.gtid ⟨sid, wrapInt64 ((k : Int) + 1)⟩) ∧
      (∀ e ∈ evs, e.kind ≠ EventKind.gtid ⟨sid, wrapInt64 ((k : Int) + 1)⟩) := by
  obtain ⟨m, rfl⟩ : ∃ m, k = m + 1 := ⟨k - 1, by omega⟩
  simp only [createGtidEvents] at hrun
  cases hc : createGtidEvent env s0 with
  | mk r s1 =>
    rw [hc] at hrun
    cases r with
    | error err => simp at hrun
    | ok ev =>
      simp only at hrun
      cases hrest : createGtidEvents env m s1 with
      | none => rw [hrest] at hrun; simp at hrun
      | some pr =>
        obtain ⟨evs2, s3⟩ := pr
        rw [hrest] at hrun
        simp only [Option.some.injEq, Prod.mk.injEq] at hrun
        obtain ⟨h1, h2⟩ := hrun
        subst h1
        subst h2
        -- the first call initializes the position to the empty set and sequence 1
        have hl : env.loadErr s0.clock = none := by
          cases hle : env.loadErr s0.clock with
          | none => rfl
          | some err =>
            have : (createGtidEvent env s0).1 = Except.error err := by
              simp [createGtidEvent, initializeGtidPosition, hfresh, hle]
            rw [hc] at this
            cases this
        have hinit := (initializeGtidPosition_first_use env s0 hfresh hl).1 (Or.inl hempty)
        obtain ⟨hk1, hp1, hst1, hs1⟩ := createGtidEvent_ok env uuid sid s0 _ s1 ⟨[]⟩ ev huuid hsid
          hinit rfl hc
        simp only at hk1 hp1 hst1 hs1
        rw [AddGTID_empty] at hp1 hst1
        obtain ⟨hst3, hp3, hs3, hev3⟩ := createGtidEvents_run env uuid sid huuid hsid m 1 s1 s3
          evs2 (le_refl 1) (by omega) hp1 hs1 hrest
        have h1m : 1 + m = m + 1 := by omega
        rw [h1m] at hst3 hp3 hs3
        have hstore : s3.positionStore = some ⟨some ⟨[(sid, [⟨1, ((m + 1 : Nat) : Int)⟩])]⟩⟩ := by
          rcases hst3 with h0 | h0
          · subst h0
            simp only [createGtidEvents, Option.some.injEq, Prod.mk.injEq] at hrest
            rw [← hrest.2]
            exact hst1
          · exact h0
        have hevs : List.map (fun e => e.kind) (ev :: evs2) =
            (List.range' 1 (m + 1)).map (fun (i : Nat) => EventKind.gtid ⟨sid, (i : Int)⟩) := by
          rw [List.map_cons, hk1, hev3]
          rfl
        have hrestart : initializeGtidPosition env (restartProducer s3) =
            (none, { restartProducer s3 with
                      clock := s3.clock + 1, trace := s3.trace ++ [Action.load],
                      gtidPosition := s3.positionStore,
                      gtidSequence := wrapInt64 (((m + 1 : Nat) : Int) + 1) }) := by
          rw [hstore]
          exact initializeGtidPosition_parsed env (restartProducer s3) _ _ rfl hload hstore rfl
            (by rw [gtidString_interval]; simp)
            (parseGtidSequence_interval sid (m + 1) hk63)
        refine ⟨hevs, hstore, hrestart, ?_, ?_, ?_⟩
        · intro h
          have := wrapInt64_of_lt (m + 1 + 1) h
          push_cast at this ⊢
          exact this
        · intro ev2 s2 hc2
          have hpos : ({ restartProducer s3 with
                      clock := s3.clock + 1, trace := s3.trace ++ [Action.load],
                      gtidPosition := s3.positionStore,
                      gtidSequence := wrapInt64 (((m + 1 : Nat) : Int) + 1) } : State).gtidPosition
              = some ⟨some ⟨[(sid, [⟨1, ((m + 1 : Nat) : Int)⟩])]⟩⟩ := hstore
          exact (createGtidEvent_ok env uuid sid (restartProducer s3) _ s2 _ ev2 huuid hsid
            hrestart hpos hc2).1
        · intro e hmem hkind
          have hmem2 : e.kind ∈ List.map (fun e => e.kind) (ev :: evs2) := List.mem_map_of_mem _ hmem
          rw [hevs, hkind] at hmem2
          have h3 : ∃ i ∈ List.range' 1 (m + 1), EventKind.gtid ⟨sid, (i : Int)⟩ =
              EventKind.gtid ⟨sid, wrapInt64 (((m + 1 : Nat) : Int) + 1)⟩ := List.mem_map.1 hmem2
          obtain ⟨i, hi, heq⟩ := h3
          simp only [EventKind.gtid.injEq, Mysql56GTID.mk.injEq, true_and] at heq
          have hi2 := List.mem_range'_1.1 hi
          have hlt : (i : Int) < 2 ^ 63 := by exact_mod_cast (by omega : i < 2 ^ 63)
          have hlt2 : ((m : Int) + 1) < 2 ^ 63 := by exact_mod_cast hk63
          unfold wrapInt64 at heq
          push_cast at heq
          omega

/-- Witness of C5: three GTIDs issued from an empty store, then a restart: the new producer
resumes at sequence 4. -/
theorem restart_resumes_after_persisted_sequence_witness :
    ∃ (evs : List BinlogEvent) (s : State),
      createGtidEvents sampleEnv 3 freshState = some (evs, s) ∧
      evs.map (fun e => e.kind) =
        [EventKind.gtid ⟨⟨[0, 0, 0, 0, 0, 0, 0, 0, 0, 0, 0, 0, 0, 0, 0, 1]⟩, 1⟩,
          EventKind.gtid ⟨⟨[0, 0, 0, 0, 0, 0, 0, 0, 0, 0, 0, 0, 0, 0, 0, 1]⟩, 2⟩,
          EventKind.gtid ⟨⟨[0, 0, 0, 0, 0, 0, 0, 0, 0, 0, 0, 0, 0, 0, 0, 1]⟩, 3⟩] ∧
      (initializeGtidPosition sampleEnv (restartProducer s)).2.gtidSequence = 4 := by
  have hsome : (createGtidEvents sampleEnv 3 freshState).isSome = true := by decide
  obtain ⟨⟨evs, s⟩, hrun⟩ := Option.isSome_iff_exists.1 hsome
  have h := restart_resumes_after_persisted_sequence sampleEnv
    "00000000-0000-0000-0000-000000000001".data ⟨[0, 0, 0, 0, 0, 0, 0, 0, 0, 0, 0, 0, 0, 0, 0, 1]⟩
    3 freshState s evs (by decide) (by decide) (fun _ => rfl) rfl rfl rfl hrun rfl
  refine ⟨evs, s, hrun, h.1, ?_⟩
  rw [h.2.2.1]
  show wrapInt64 ((3 : Int) + 1) = 4
  decide

/-! ### Log positions and sequence numbers -/

/-- The initialization of the GTID position leaves the log position as it is. -/
theorem initializeGtidPosition_LogPosition (env : Env) (s : State) :
    (initializeGtidPosition env s).2.LogPosition = s.LogPosition := by
  unfold initializeGtidPosition
  split
  · rfl
  · split
    · rfl
    · split
      · rfl
      · split <;> rfl

/-- The initialization of a producer that has a GTID position does nothing. -/
theorem initializeGtidPosition_of_some (env : Env) (s : State) (h : s.gtidPosition ≠ none) :
    initializeGtidPosition env s = (none, s) := by
  unfold initializeGtidPosition
  rw [if_pos h]

/-- A successful initialization leaves a GTID position. -/
theorem initializeGtidPosition_some (env : Env) (s s1 : State)
    (h : initializeGtidPosition env s = (none, s1)) : s1.gtidPosition ≠ none := by
  unfold initializeGtidPosition at h
  split at h
  · simp only [Prod.mk.injEq, true_and] at h
    subst h
    assumption
  · split at h
    · simp at h
    · split at h
      · simp only [Prod.mk.injEq, true_and] at h
        subst h
        simp
      · split at h
        · simp at h
        · simp only [Prod.mk.injEq, true_and] at h
          subst h
          simp

/-- A successful `createGtidEvent` returns a GTID event made at the log position of the
call, with the sequence number that the initialization left; it advances the log position
by the length of the event, moves the sequence number on by one and leaves a GTID
position. -/
theorem createGtidEvent_success (env : Env) (s s1 : State) (ev : BinlogEvent)
    (h : createGtidEvent env s = (Except.ok ev, s1)) :
    ∃ g : Mysql56GTID, ev = ⟨EventKind.gtid g, s.LogPosition⟩ ∧
      g.Sequence = nextSequence env s ∧
      s1.LogPosition = (s.LogPosition + env.Length (EventKind.gtid g)) % 2 ^ env.posBits ∧
      s1.gtidSequence = wrapInt64 (nextSequence env s + 1) ∧
      s1.gtidPosition ≠ none := by
  have hpos := initializeGtidPosition_LogPosition env s
  unfold nextSequence
  unfold createGtidEvent at h
  cases hinit : initializeGtidPosition env s with
  | mk r si =>
    rw [hinit] at h hpos
    simp only at hpos
    cases r with
    | some err => simp at h
    | none =>
      simp only [State.advance, State.newEvent] at h
      split at h
      · simp at h
      · split at h
        · simp at h
        · split at h
          · simp at h
          · split at h
            · simp at h
            · split at h
              · simp at h
              · simp only [Prod.mk.injEq, Except.ok.injEq] at h
                obtain ⟨h1, h2⟩ := h
                subst h1
                subst h2
                exact ⟨_, by rw [← hpos], rfl, by rw [← hpos], rfl, by simp⟩

/-- The log position that two runs of events leave. -/
theorem endPosition_append (env : Env) (a b : List BinlogEvent) :
    ∀ pos, endPosition env pos (a ++ b) = endPosition env (endPosition env pos a) b := by
  induction a with
  | nil => intro pos; rfl
  | cons e rest ih => intro pos; exact ih _

/-- The positions of two runs of events. -/
theorem positionsFrom_append (env : Env) (a b : List BinlogEvent) :
    ∀ pos, positionsFrom env pos (a ++ b) =
      (positionsFrom env pos a && positionsFrom env (endPosition env pos a) b) := by
  induction a with
  | nil => intro pos; simp [positionsFrom, endPosition]
  | cons e rest ih =>
    intro pos
    show (decide (e.logPos = pos) &&
        positionsFrom env ((pos + env.Length e.kind) % 2 ^ env.posBits) (rest ++ b)) = _
    rw [ih]
    simp only [positionsFrom, endPosition, Bool.and_assoc]

/-- Without wrap-around the events leave the position they start from plus the sum of
their lengths. -/
theorem endPosition_of_lt (env : Env) (events : List BinlogEvent) :
    ∀ pos, pos + totalLength env events < 2 ^ env.posBits →
      endPosition env pos events = pos + totalLength env events := by
  induction events with
  | nil => intro pos _; simp [endPosition, totalLength]
  | cons e rest ih =>
    intro pos h
    simp only [totalLength, List.map_cons, List.sum_cons] at h
    have hrest : totalLength env rest = (rest.map (fun e => env.Length e.kind)).sum := rfl
    have hmod : (pos + env.Length e.kind) % 2 ^ env.posBits = pos + env.Length e.kind :=
      Nat.mod_eq_of_lt (by omega)
    simp only [endPosition, hmod, totalLength, List.map_cons, List.sum_cons]
    rw [ih (pos + env.Length e.kind) (by rw [hrest]; omega), hrest]
    omega

/-- Without wrap-around every event was made at the start position plus the sum of the
lengths of the events before it. -/
theorem positionsFrom_of_lt (env : Env) (events : List BinlogEvent) :
    ∀ pos, pos + totalLength env events < 2 ^ env.posBits →
      positionsFrom env pos events = true →
      ∀ pre e post, events = pre ++ e :: post → e.logPos = pos + totalLength env pre := by
  induction events with
  | nil => intro pos _ _ pre e post h; simp at h
  | cons e0 rest ih =>
    intro pos hlt hpos pre e post h
    simp only [positionsFrom, Bool.and_eq_true, decide_eq_true_eq] at hpos
    simp only [totalLength, List.map_cons, List.sum_cons] at hlt
    have hrest : totalLength env rest = (rest.map (fun e => env.Length e.kind)).sum := rfl
    have hmod : (pos + env.Length e0.kind) % 2 ^ env.posBits = pos + env.Length e0.kind :=
      Nat.mod_eq_of_lt (by omega)
    cases pre with
    | nil =>
      simp only [List.nil_append, List.cons.injEq] at h
      rw [← h.1, hpos.1]
      simp [totalLength]
    | cons p pre1 =>
      simp only [List.cons_append, List.cons.injEq] at h
      rw [hmod] at hpos
      have := ih (pos + env.Length e0.kind) (by rw [hrest]; omega) hpos.2 pre1 e post h.2
      rw [this, ← h.1]
      simp only [totalLength, List.map_cons, List.sum_cons]
      omega

/-- No event, no move. -/
theorem Emits_nil (env : Env) (s s1 : State) (h : s1.LogPosition = s.LogPosition) :
    Emits env s [] s1 :=
  ⟨rfl, h⟩

/-- One run of events after another. -/
theorem Emits_append (env : Env) (s s1 s2 : State) (a b : List BinlogEvent)
    (h1 : Emits env s a s1) (h2 : Emits env s1 b s2) : Emits env s (a ++ b) s2 := by
  obtain ⟨ha, hs1⟩ := h1
  obtain ⟨hb, hs2⟩ := h2
  refine ⟨?_, ?_⟩
  · rw [positionsFrom_append, ha, ← hs1, hb]
    rfl
  · rw [endPosition_append, ← hs1, hs2]

/-- An event made on the stream, and the stream advanced by it. -/
theorem Emits_newEvent (env : Env) (s : State) (kind : EventKind) :
    Emits env s [s.newEvent kind] (s.advance env (s.newEvent kind)) := by
  simp [Emits, positionsFrom, endPosition, State.newEvent, State.advance]

/-- A successful `createGtidEvent` makes its event on the stream. -/
theorem createGtidEvent_Emits (env : Env) (s s1 : State) (ev : BinlogEvent)
    (h : createGtidEvent env s = (Except.ok ev, s1)) : Emits env s [ev] s1 := by
  obtain ⟨g, hev, _, hpos, _, _⟩ := createGtidEvent_success env s s1 ev h
  subst hev
  simp [Emits, positionsFrom, endPosition, hpos]

/-- The next sequence number of a producer that has a GTID position is `gtidSequence`. -/
theorem nextSequence_of_some (env : Env) (s : State) (h : s.gtidPosition ≠ none) :
    nextSequence env s = s.gtidSequence := by
  unfold nextSequence
  rw [initializeGtidPosition_of_some env s h]

/-- The sequence number after the events of two runs. -/
theorem sequenceAfter_add (m : Nat) : ∀ (n : Nat) (seq : Int),
    sequenceAfter (n + m) seq = sequenceAfter m (sequenceAfter n seq) := by
  intro n
  induction n with
  | zero => intro seq; simp [sequenceAfter]
  | succ n ih =>
    intro seq
    have : n + 1 + m = (n + m) + 1 := by omega
    rw [this]
    simp only [sequenceAfter]
    exact ih _

/-- The pairs of two runs of statements. -/
theorem gtidQueryPairs_append (databaseName : String) (b : List String)
    (eb : List BinlogEvent) :
    ∀ (a : List String) (ea : List BinlogEvent) (seq : Int),
      gtidQueryPairs databaseName seq a ea = true →
      gtidQueryPairs databaseName (sequenceAfter a.length seq) b eb = true →
      gtidQueryPairs databaseName seq (a ++ b) (ea ++ eb) = true := by
  intro a
  induction a with
  | nil =>
    intro ea seq h1 h2
    simp only [gtidQueryPairs, decide_eq_true_eq] at h1
    subst h1
    simpa [sequenceAfter] using h2
  | cons stmt rest ih =>
    intro ea seq h1 h2
    match ea, h1 with
    | e1 :: e2 :: events, h1 =>
      simp only [gtidQueryPairs, Bool.and_eq_true] at h1
      simp only [List.cons_append, gtidQueryPairs, Bool.and_eq_true]
      refine ⟨h1.1, ?_⟩
      exact ih events _ h1.2 (by simpa [sequenceAfter] using h2)
    | [], h1 => simp [gtidQueryPairs] at h1
    | [_], h1 => simp [gtidQueryPairs] at h1

/-- The statement loop of `createSchemaChangeQueryEvents`, when it succeeds, adds one
GTID and query pair for each statement, made on the stream, with consecutive sequence
numbers. -/
theorem schemaStatementEvents_run (env : Env) (databaseName : String) :
    ∀ (stmts : List String) (events : List BinlogEvent) (s : State)
      (events1 : List BinlogEvent) (s1 : State),
      schemaStatementEvents env databaseName stmts events s = (Except.ok events1, s1) →
      ∃ new, events1 = events ++ new ∧ Emits env s new s1 ∧
        gtidQueryPairs databaseName (nextSequence env s) stmts new = true ∧
        nextSequence env s1 = sequenceAfter stmts.length (nextSequence env s) := by
  intro stmts
  induction stmts with
  | nil =>
    intro events s events1 s1 h
    simp only [schemaStatementEvents, Prod.mk.injEq, Except.ok.injEq] at h
    obtain ⟨h1, h2⟩ := h
    subst h1
    subst h2
    exact ⟨[], by simp, Emits_nil env _ _ rfl, rfl, rfl⟩
  | cons stmt rest ih =>
    intro events s events1 s1 h
    simp only [schemaStatementEvents] at h
    cases hc : createGtidEvent env s with
    | mk r s2 =>
      rw [hc] at h
      cases r with
      | error err => simp at h
      | ok gtidEvent =>
        simp only at h
        obtain ⟨new, hnew, hem, hpairs, hseq⟩ := ih _ _ _ _ h
        obtain ⟨g, hev, hg, hpos, hs2seq, hs2pos⟩ :=
          createGtidEvent_success env s s2 gtidEvent hc
        have hnext : nextSequence env
            (s2.advance env (s2.newEvent (EventKind.query databaseName stmt)))
              = wrapInt64 (nextSequence env s + 1) := by
          rw [nextSequence_of_some _ _ (by simpa [State.advance] using hs2pos)]
          simpa [State.advance] using hs2seq
        rw [hnext] at hpairs hseq
        refine ⟨gtidEvent :: s2.newEvent (EventKind.query databaseName stmt) :: new,
          ?_, ?_, ?_, ?_⟩
        · rw [hnew]
          simp
        · have h1 := createGtidEvent_Emits env s s2 gtidEvent hc
          have h2 := Emits_newEvent env s2 (EventKind.query databaseName stmt)
          have := Emits_append env _ _ _ _ _ (Emits_append env _ _ _ _ _ h1 h2) hem
          simpa using this
        · simp only [gtidQueryPairs, Bool.and_eq_true]
          subst hev
          exact ⟨⟨by simp [hg], by simp [State.newEvent]⟩, hpairs⟩
        · simpa [sequenceAfter] using hseq

/-- The delta loop of `createSchemaChangeQueryEvents`, when it succeeds, adds one GTID and
query pair for each schema patch statement of the deltas, made on the stream, with
consecutive sequence numbers. -/
theorem schemaChangeLoop_run (env : Env) (databaseName : String) :
    ∀ (deltas : List TableDelta) (events : List BinlogEvent) (hdc : Bool) (s : State)
      (events1 : List BinlogEvent) (hdc1 : Bool) (s1 : State),
      schemaChangeLoop env databaseName deltas events hdc s = (Except.ok (events1, hdc1), s1) →
      ∃ new, events1 = events ++ new ∧ Emits env s new s1 ∧
        gtidQueryPairs databaseName (nextSequence env s) (schemaStatements deltas) new = true ∧
        nextSequence env s1 =
          sequenceAfter (schemaStatements deltas).length (nextSequence env s) := by
  intro deltas
  induction deltas with
  | nil =>
    intro events hdc s events1 hdc1 s1 h
    simp only [schemaChangeLoop, Prod.mk.injEq, Except.ok.injEq] at h
    obtain ⟨⟨h1, _⟩, h2⟩ := h
    subst h1
    subst h2
    exact ⟨[], by simp, Emits_nil env _ _ rfl, rfl, rfl⟩
  | cons td rest ih =>
    intro events hdc s events1 hdc1 s1 h
    simp only [schemaChangeLoop] at h
    cases hsc : td.HasSchemaChanged with
    | error err => rw [hsc] at h; simp at h
    | ok schemaChanged =>
      cases hd : td.HasDataChanged with
      | error err => rw [hsc, hd] at h; simp at h
      | ok dataChanged =>
        rw [hsc, hd] at h
        simp only at h
        by_cases hskip : (!schemaChanged && !td.IsRename) = true
        · rw [if_pos hskip] at h
          obtain ⟨new, hnew, hem, hpairs, hseq⟩ := ih _ _ _ _ _ _ h
          have hnone : patchStatements td = [] := by
            simp only [Bool.and_eq_true, Bool.not_eq_true', ] at hskip
            simp [patchStatements, hsc, hskip.1, hskip.2]
          have hst : schemaStatements (td :: rest) = schemaStatements rest := by
            simp [schemaStatements, hnone]
          rw [hst]
          exact ⟨new, hnew, hem, hpairs, hseq⟩
        · rw [if_neg hskip] at h
          cases hp : td.schemaPatchStatements with
          | error err => rw [hp] at h; simp at h
          | ok stmts =>
            rw [hp] at h
            simp only at h
            cases hst : schemaStatementEvents env databaseName stmts events s with
            | mk r s2 =>
              rw [hst] at h
              cases r with
              | error err => simp at h
              | ok events2 =>
                simp only at h
                obtain ⟨new1, hnew1, hem1, hpairs1, hseq1⟩ :=
                  schemaStatementEvents_run env databaseName stmts events s events2 s2 hst
                obtain ⟨new2, hnew2, hem2, hpairs2, hseq2⟩ := ih _ _ _ _ _ _ h
                have hsome : patchStatements td = stmts := by
                  have : schemaChanged = true ∨ td.IsRename = true := by
                    cases schemaChanged <;> cases hr : td.IsRename <;> simp_all
                  simp [patchStatements, hsc, hp, this]
                have hall : schemaStatements (td :: rest) = stmts ++ schemaStatements rest := by
                  simp [schemaStatements, hsome]
                rw [hall]
                refine ⟨new1 ++ new2, ?_, Emits_append env _ _ _ _ _ hem1 hem2, ?_, ?_⟩
                · rw [hnew2, hnew1, List.append_assoc]
                · apply gtidQueryPairs_append _ _ _ _ _ _ hpairs1
                  rw [← hseq1]
                  exact hpairs2
                · rw [hseq2, hseq1, List.length_append, sequenceAfter_add]

/-- When the delta loop of `createSchemaChangeQueryEvents` succeeds, every delta with a
schema change or a rename gave its schema patch statements. -/
theorem schemaChangeLoop_statements (env : Env) (databaseName : String) :
    ∀ (deltas : List TableDelta) (events : List BinlogEvent) (hdc : Bool) (s : State)
      (r : List BinlogEvent × Bool) (s1 : State),
      schemaChangeLoop env databaseName deltas events hdc s = (Except.ok r, s1) →
      ∀ td ∈ deltas, td.HasSchemaChanged = Except.ok true ∨ td.IsRename = true →
        td.schemaPatchStatements = Except.ok (patchStatements td) := by
  intro deltas
  induction deltas with
  | nil => intro _ _ _ _ _ _ td htd; cases htd
  | cons td0 rest ih =>
    intro events hdc s r s1 h td htd hch
    simp only [schemaChangeLoop] at h
    cases hsc : td0.HasSchemaChanged with
    | error err => rw [hsc] at h; simp at h
    | ok schemaChanged =>
      cases hd : td0.HasDataChanged with
      | error err => rw [hsc, hd] at h; simp at h
      | ok dataChanged =>
        rw [hsc, hd] at h
        simp only at h
        by_cases hskip : (!schemaChanged && !td0.IsRename) = true
        · rw [if_pos hskip] at h
          simp only [Bool.and_eq_true, Bool.not_eq_true'] at hskip
          rcases List.mem_cons.1 htd with heq | hmem
          · subst heq
            rw [hsc, hskip.1, hskip.2] at hch
            simp at hch
          · exact ih _ _ _ _ _ h td hmem hch
        · rw [if_neg hskip] at h
          cases hp : td0.schemaPatchStatements with
          | error err => rw [hp] at h; simp at h
          | ok stmts =>
            rw [hp] at h
            simp only at h
            cases hst : schemaStatementEvents env databaseName stmts events s with
            | mk r2 s2 =>
              rw [hst] at h
              cases r2 with
              | error err => simp at h
              | ok events2 =>
                simp only at h
                rcases List.mem_cons.1 htd with heq | hmem
                · subst heq
                  simp [patchStatements, hch, hp]
                · exact ih _ _ _ _ _ h td hmem hch

/-- Reading the pairs by index: the events are twice as many as the statements, and the
pair of statement `i` has the sequence number `i` steps on. -/
theorem gtidQueryPairs_get (databaseName : String) :
    ∀ (stmts : List String) (events : List BinlogEvent) (seq : Int),
      gtidQueryPairs databaseName seq stmts events = true →
      events.length = 2 * stmts.length ∧
        ∀ i stmt, stmts[i]? = some stmt →
          ∃ (g : Mysql56GTID) (p1 p2 : Nat), events[2 * i]? = some ⟨EventKind.gtid g, p1⟩ ∧
            g.Sequence = sequenceAfter i seq ∧
            events[2 * i + 1]? = some ⟨EventKind.query databaseName stmt, p2⟩ := by
  intro stmts
  induction stmts with
  | nil =>
    intro events seq h
    simp only [gtidQueryPairs, decide_eq_true_eq] at h
    subst h
    exact ⟨rfl, fun i stmt hi => by simp at hi⟩
  | cons stmt0 rest ih =>
    intro events seq h
    match events, h with
    | [], h => simp [gtidQueryPairs] at h
    | [_], h => simp [gtidQueryPairs] at h
    | e1 :: e2 :: tail, h =>
      simp only [gtidQueryPairs, Bool.and_eq_true, decide_eq_true_eq] at h
      obtain ⟨⟨h1, h2⟩, h3⟩ := h
      obtain ⟨hlen, hget⟩ := ih tail _ h3
      refine ⟨by simp only [List.length_cons, hlen]; omega, ?_⟩
      intro i stmt hi
      cases i with
      | zero =>
        simp only [List.getElem?_cons_zero, Option.some.injEq] at hi
        subst hi
        obtain ⟨k1, p1⟩ := e1
        obtain ⟨k2, p2⟩ := e2
        simp only at h1 h2
        subst h2
        cases k1 with
        | gtid g =>
          simp only [decide_eq_true_eq] at h1
          exact ⟨g, p1, p2, rfl, by simpa [sequenceAfter] using h1, by simp⟩
        | _ => simp at h1
      | succ j =>
        simp only [List.getElem?_cons_succ] at hi
        obtain ⟨g, p1, p2, hg1, hg2, hg3⟩ := hget j stmt hi
        refine ⟨g, p1, p2, ?_, by simpa [sequenceAfter] using hg2, ?_⟩
        · have : 2 * (j + 1) = (2 * j + 1) + 1 := by omega
          rw [this, List.getElem?_cons_succ, List.getElem?_cons_succ]
          exact hg1
        · have : 2 * (j + 1) + 1 = (2 * j + 1 + 1) + 1 := by omega
          rw [this, List.getElem?_cons_succ, List.getElem?_cons_succ]
          exact hg3

/-- Without wrap-around the sequence number after `n` GTID events is `n` larger. -/
theorem sequenceAfter_of_lt : ∀ (n : Nat) (seq : Int), -(2 : Int) ^ 63 ≤ seq →
    seq + (n : Int) < (2 : Int) ^ 63 → sequenceAfter n seq = seq + (n : Int) := by
  intro n
  induction n with
  | zero => intro seq _ _; simp [sequenceAfter]
  | succ n ih =>
    intro seq h1 h2
    have hw : wrapInt64 (seq + 1) = seq + 1 := by
      unfold wrapInt64
      push_cast at h2
      omega
    simp only [sequenceAfter, hw]
    rw [ih (seq + 1) (by omega) (by push_cast at h2; omega)]
    push_cast
    omega

/-- C14: when `createSchemaChangeQueryEvents` returns its events, they are, over the table
deltas in order and over the schema patch statements of each delta in order, exactly two
events per statement: a GTID event immediately followed by the query event that carries
the statement (no other event, so no BEGIN, comes with it).  A delta with neither a schema
change nor a rename contributes no statement, a delta with one contributes the statements
of its schema patch, and the sequence number of the GTID event of statement `i` is the
next sequence number of the producer moved on `i` times (as an `int64`), which is that
number plus `i` when this fits. -/
theorem createSchemaChangeQueryEvents_pairs (env : Env) (databaseName : String)
    (tableDeltas : List TableDelta) (s : State) (events : List BinlogEvent)
    (hasDataChanges : Bool)
    (h : (createSchemaChangeQueryEvents env databaseName tableDeltas s).1
      = Except.ok (events, hasDataChanges)) :
    gtidQueryPairs databaseName (nextSequence env s) (schemaStatements tableDeltas) events
        = true ∧
      events.length = 2 * (schemaStatements tableDeltas).length ∧
      (∀ i stmt, (schemaStatements tableDeltas)[i]? = some stmt →
        ∃ (g : Mysql56GTID) (p1 p2 : Nat), events[2 * i]? = some ⟨EventKind.gtid g, p1⟩ ∧
          g.Sequence = sequenceAfter i (nextSequence env s) ∧
          events[2 * i + 1]? = some ⟨EventKind.query databaseName stmt, p2⟩ ∧
          (-(2 : Int) ^ 63 ≤ nextSequence env s → nextSequence env s + (i : Int) < (2 : Int) ^ 63 →
            g.Sequence = nextSequence env s + (i : Int))) ∧
      (∀ td ∈ tableDeltas, td.HasSchemaChanged = Except.ok true ∨ td.IsRename = true →
        td.schemaPatchStatements = Except.ok (patchStatements td)) ∧
      (∀ td ∈ tableDeltas, td.HasSchemaChanged = Except.ok false → td.IsRename = false →
        patchStatements td = []) := by
  have hfull : createSchemaChangeQueryEvents env databaseName tableDeltas s
      = (Except.ok (events, hasDataChanges),
          (createSchemaChangeQueryEvents env databaseName tableDeltas s).2) :=
    Prod.ext h rfl
  unfold createSchemaChangeQueryEvents at hfull
  obtain ⟨new, hnew, _, hpairs, _⟩ :=
    schemaChangeLoop_run env databaseName tableDeltas [] false s events hasDataChanges _ hfull
  simp only [List.nil_append] at hnew
  subst hnew
  obtain ⟨hlen, hget⟩ := gtidQueryPairs_get databaseName _ _ _ hpairs
  refine ⟨hpairs, hlen, ?_,
    schemaChangeLoop_statements env databaseName tableDeltas [] false s _ _ hfull, ?_⟩
  · intro i stmt hi
    obtain ⟨g, p1, p2, h1, h2, h3⟩ := hget i stmt hi
    exact ⟨g, p1, p2, h1, h2, h3, fun hlo hhi => by
      rw [h2, sequenceAfter_of_lt i _ hlo hhi]⟩
  · intro td _ hsc hr
    simp [patchStatements, hsc, hr]

/-- Witness of C14: a delta without schema change, a delta with two schema patch
statements and a delta with one, on a producer that has not been used: three pairs with
the sequence numbers 1, 2 and 3. -/
theorem createSchemaChangeQueryEvents_pairs_witness :
    (createSchemaChangeQueryEvents sampleEnv "db"
        [sampleDelta false [], sampleAlter, sampleCreateAndInsert] freshState).1 =
      Except.ok
        ([⟨EventKind.gtid ⟨⟨[0, 0, 0, 0, 0, 0, 0, 0, 0, 0, 0, 0, 0, 0, 0, 1]⟩, 1⟩, 0⟩,
          ⟨EventKind.query "db" "alter table t add column c1 int;", 19⟩,
          ⟨EventKind.gtid ⟨⟨[0, 0, 0, 0, 0, 0, 0, 0, 0, 0, 0, 0, 0, 0, 0, 1]⟩, 2⟩, 38⟩,
          ⟨EventKind.query "db" "alter table t drop column c0;", 57⟩,
          ⟨EventKind.gtid ⟨⟨[0, 0, 0, 0, 0, 0, 0, 0, 0, 0, 0, 0, 0, 0, 0, 1]⟩, 3⟩, 76⟩,
          ⟨EventKind.query "db" "create table t(pk int primary key, c0 int);", 95⟩], true) ∧
      gtidQueryPairs "db" (nextSequence sampleEnv freshState)
        (schemaStatements [sampleDelta false [], sampleAlter, sampleCreateAndInsert])
        [⟨EventKind.gtid ⟨⟨[0, 0, 0, 0, 0, 0, 0, 0, 0, 0, 0, 0, 0, 0, 0, 1]⟩, 1⟩, 0⟩,
          ⟨EventKind.query "db" "alter table t add column c1 int;", 19⟩,
          ⟨EventKind.gtid ⟨⟨[0, 0, 0, 0, 0, 0, 0, 0, 0, 0, 0, 0, 0, 0, 0, 1]⟩, 2⟩, 38⟩,
          ⟨EventKind.query "db" "alter table t drop column c0;", 57⟩,
          ⟨EventKind.gtid ⟨⟨[0, 0, 0, 0, 0, 0, 0, 0, 0, 0, 0, 0, 0, 0, 0, 1]⟩, 3⟩, 76⟩,
          ⟨EventKind.query "db" "create table t(pk int primary key, c0 int);", 95⟩] = true :=
  ⟨by decide,
    (createSchemaChangeQueryEvents_pairs sampleEnv "db"
      [sampleDelta false [], sampleAlter, sampleCreateAndInsert] freshState _ true
      (by decide)).1⟩

/-- The events handed over by two runs of calls. -/
theorem sentEvents_append (a b : List Action) :
    sentEvents (a ++ b) = sentEvents a ++ sentEvents b := by
  induction a with
  | nil => rfl
  | cons x rest ih =>
    cases x <;> simp [sentEvents, ih]

/-- Calls without a `sendEvents` hand over no event. -/
theorem sentEvents_of_NoSend (acts : List Action) (h : NoSend acts) : sentEvents acts = [] := by
  induction acts with
  | nil => rfl
  | cons x rest ih =>
    have hrest : NoSend rest := fun events hm => h events (List.mem_cons_of_mem _ hm)
    cases x with
    | send events => exact absurd (List.mem_cons_self _ _) (h events)
    | load => simpa [sentEvents] using ih hrest
    | save p ok => simpa [sentEvents] using ih hrest
    | assign v ok => simpa [sentEvents] using ih hrest

/-- The events handed over during a call whose calls are `acts`. -/
theorem sentDuring_of_trace (s s1 : State) (acts : List Action)
    (h : s1.trace = s.trace ++ acts) : sentDuring s s1 = sentEvents acts := by
  unfold sentDuring
  rw [h, List.drop_left]

/-- The kinds of the events of the pairs: a GTID event, or the query event of one of the
statements; the GTID events are as many as the statements. -/
theorem gtidQueryPairs_kinds (databaseName : String) :
    ∀ (stmts : List String) (events : List BinlogEvent) (seq : Int),
      gtidQueryPairs databaseName seq stmts events = true →
      (∀ e ∈ events, e.kind.isGtid = true ∨
        ∃ stmt ∈ stmts, e.kind = EventKind.query databaseName stmt) ∧
      (events.filter (fun e => e.kind.isGtid)).length = stmts.length := by
  intro stmts
  induction stmts with
  | nil =>
    intro events seq h
    simp only [gtidQueryPairs, decide_eq_true_eq] at h
    subst h
    exact ⟨fun e he => (by cases he), rfl⟩
  | cons stmt0 rest ih =>
    intro events seq h
    match events, h with
    | [], h => simp [gtidQueryPairs] at h
    | [_], h => simp [gtidQueryPairs] at h
    | e1 :: e2 :: tail, h =>
      simp only [gtidQueryPairs, Bool.and_eq_true, decide_eq_true_eq] at h
      obtain ⟨⟨h1, h2⟩, h3⟩ := h
      obtain ⟨hk, hc⟩ := ih tail _ h3
      have hg1 : e1.kind.isGtid = true := by
        cases hk1 : e1.kind <;> simp_all [EventKind.isGtid]
      have hg2 : e2.kind.isGtid = false := by rw [h2]; rfl
      refine ⟨?_, ?_⟩
      · intro e he
        rcases List.mem_cons.1 he with rfl | he
        · exact Or.inl hg1
        · rcases List.mem_cons.1 he with rfl | he
          · exact Or.inr ⟨stmt0, List.mem_cons_self _ _, h2⟩
          · rcases hk e he with h | ⟨stmt, hs, hq⟩
            · exact Or.inl h
            · exact Or.inr ⟨stmt, List.mem_cons_of_mem _ hs, hq⟩
      · simp [List.filter_cons, hg1, hg2, hc]

/-- A GTID event is neither a TableMap event nor the XID event. -/
theorem EventKind.not_tableMap_of_gtid {k : EventKind} (h : k.isGtid = true) :
    k.isTableMap = false ∧ k ≠ EventKind.xid := by
  cases k <;> simp_all [EventKind.isTableMap, EventKind.isGtid]

/-- C15: when `createSchemaChangeQueryEvents` returns, its `hasDataChanges` is true exactly
when some table delta has `HasDataChanged` true and `IsDrop` false.  When it is false,
`WorkingRootUpdated` returns nil after handing exactly the schema change events to
`sendEvents`: these are the GTID and query pairs of the schema patch statements, so there is
no TableMap, row or XID event among them, no BEGIN query (unless a schema patch statement
is itself `BEGIN`), and as many GTID events as schema patch statements; the producer is
left in the state in which `createSchemaChangeQueryEvents` left it. -/
theorem hasDataChanges_iff_and_schema_only (env : Env) (databaseName : String)
    (tableDeltas : List TableDelta) (s : State) (events : List BinlogEvent)
    (hasDataChanges : Bool)
    (h : (createSchemaChangeQueryEvents env databaseName tableDeltas s).1
      = Except.ok (events, hasDataChanges)) :
    (hasDataChanges = true ↔
        ∃ td ∈ tableDeltas, td.HasDataChanged = Except.ok true ∧ td.IsDrop = false) ∧
      (hasDataChanges = false →
        WorkingRootUpdated env databaseName BinlogBranch (Except.ok tableDeltas) s =
            (none, sendEvents events
              (createSchemaChangeQueryEvents env databaseName tableDeltas s).2) ∧
          sentDuring s
            (WorkingRootUpdated env databaseName BinlogBranch (Except.ok tableDeltas) s).2
              = events ∧
          gtidQueryPairs databaseName (nextSequence env s) (schemaStatements tableDeltas) events
            = true ∧
          (∀ e ∈ events, e.kind.isTableMap = false ∧ e.kind.isRows = false ∧
            e.kind ≠ EventKind.xid) ∧
          ("BEGIN" ∉ schemaStatements tableDeltas →
            ∀ e ∈ events, e.kind ≠ EventKind.query databaseName "BEGIN") ∧
          (events.filter (fun e => e.kind.isGtid)).length
            = (schemaStatements tableDeltas).length) := by
  obtain ⟨acts, htrace, hnosend, hspec⟩ :=
    schemaChangeLoop_spec env databaseName tableDeltas [] false s
  cases hc : createSchemaChangeQueryEvents env databaseName tableDeltas s with
  | mk r s1 =>
    rw [hc] at h
    simp only at h
    subst h
    have hloop := hc
    unfold createSchemaChangeQueryEvents at hloop
    rw [hloop] at htrace hspec
    simp only at htrace
    obtain ⟨_, hiff, _⟩ := hspec events hasDataChanges rfl
    obtain ⟨new, hnew, _, hpairs, _⟩ :=
      schemaChangeLoop_run env databaseName tableDeltas [] false s events hasDataChanges _ hloop
    rw [List.nil_append] at hnew
    rw [← hnew] at hpairs
    obtain ⟨hkinds, hcount⟩ := gtidQueryPairs_kinds databaseName _ _ _ hpairs
    refine ⟨by simpa using hiff, ?_⟩
    intro hfalse
    subst hfalse
    have hw : WorkingRootUpdated env databaseName BinlogBranch (Except.ok tableDeltas) s =
        (none, sendEvents events s1) := by
      unfold WorkingRootUpdated
      rw [if_neg (fun hne => hne rfl)]
      simp only [hc]
      rfl
    refine ⟨hw, ?_, hpairs, ?_, ?_, hcount⟩
    · rw [hw]
      have htr : (sendEvents events s1).trace = s.trace ++ (acts ++ [Action.send events]) := by
        simp only [sendEvents]
        rw [htrace, List.append_assoc]
      rw [sentDuring_of_trace s _ _ htr, sentEvents_append, sentEvents_of_NoSend acts hnosend]
      simp [sentEvents]
    · intro e he
      rcases hkinds e he with hg | ⟨stmt, _, hq⟩
      · exact ⟨(EventKind.not_tableMap_of_gtid hg).1, EventKind.not_rows_of_gtid hg,
          (EventKind.not_tableMap_of_gtid hg).2⟩
      · rw [hq]
        exact ⟨rfl, rfl, fun hx => by cases hx⟩
    · intro hno e he
      rcases hkinds e he with hg | ⟨stmt, hs, hq⟩
      · intro hb
        rw [hb] at hg
        cases hg
      · intro hb
        rw [hq] at hb
        simp only [EventKind.query.injEq, true_and] at hb
        exact hno (hb ▸ hs)

/-- Witness of C15: a commit that alters table `t` with two statements and changes no row:
`hasDataChanges` is false and the four events of the two pairs are all that is sent. -/
theorem hasDataChanges_iff_and_schema_only_witness :
    (createSchemaChangeQueryEvents sampleEnv "db" [sampleAlter] freshState).1 =
      Except.ok
        ([⟨EventKind.gtid ⟨⟨[0, 0, 0, 0, 0, 0, 0, 0, 0, 0, 0, 0, 0, 0, 0, 1]⟩, 1⟩, 0⟩,
          ⟨EventKind.query "db" "alter table t add column c1 int;", 19⟩,
          ⟨EventKind.gtid ⟨⟨[0, 0, 0, 0, 0, 0, 0, 0, 0, 0, 0, 0, 0, 0, 0, 1]⟩, 2⟩, 38⟩,
          ⟨EventKind.query "db" "alter table t drop column c0;", 57⟩], false) ∧
      sentDuring freshState
        (WorkingRootUpdated sampleEnv "db" BinlogBranch (Except.ok [sampleAlter]) freshState).2 =
        [⟨EventKind.gtid ⟨⟨[0, 0, 0, 0, 0, 0, 0, 0, 0, 0, 0, 0, 0, 0, 0, 1]⟩, 1⟩, 0⟩,
          ⟨EventKind.query "db" "alter table t add column c1 int;", 19⟩,
          ⟨EventKind.gtid ⟨⟨[0, 0, 0, 0, 0, 0, 0, 0, 0, 0, 0, 0, 0, 0, 0, 1]⟩, 2⟩, 38⟩,
          ⟨EventKind.query "db" "alter table t drop column c0;", 57⟩] :=
  ⟨by decide,
    ((hasDataChanges_iff_and_schema_only sampleEnv "db" [sampleAlter] freshState _ false
      (by decide)).2 rfl).2.1⟩

/-- The loop of `createTableMapEvents`, when it succeeds, makes its events on the stream. -/
theorem tableMapLoop_Emits (env : Env) (databaseName : String) :
    ∀ (deltas : List TableDelta) (tableId : Nat) (ids : TableIds) (events : List BinlogEvent)
      (s : State) (r : List BinlogEvent × TableIds) (s1 : State),
      tableMapLoop env databaseName deltas tableId ids events s = (Except.ok r, s1) →
      ∃ new, r.1 = events ++ new ∧ Emits env s new s1 := by
  intro deltas
  induction deltas with
  | nil =>
    intro tableId ids events s r s1 h
    simp only [tableMapLoop, Prod.mk.injEq, Except.ok.injEq] at h
    obtain ⟨h1, h2⟩ := h
    subst h1
    subst h2
    exact ⟨[], by simp, Emits_nil env _ _ rfl⟩
  | cons td rest ih =>
    intro tableId ids events s r s1 h
    simp only [tableMapLoop] at h
    cases hd : td.HasDataChanged with
    | error err => rw [hd] at h; simp at h
    | ok dataChanged =>
      rw [hd] at h
      simp only at h
      split at h
      · exact ih _ _ _ _ _ _ h
      · cases htm : createTableMapFromDoltTable env databaseName td.tableName td.ToTable with
        | error err => rw [htm] at h; simp at h
        | ok tableMap =>
          rw [htm] at h
          simp only at h
          obtain ⟨new, hnew, hem⟩ := ih _ _ _ _ _ _ h
          refine ⟨s.newEvent (EventKind.tableMap ((tableId + 1) % 2 ^ 64) tableMap) :: new,
            ?_, ?_⟩
          · rw [hnew]
            simp
          · exact Emits_append env _ _ _ _ _ (Emits_newEvent env s _) hem

/-- One conditional row event of `createRowEvents` is made on the stream. -/
theorem rowStep_Emits (env : Env) (c : Prop) [Decidable c] (kind : EventKind)
    (events0 : List BinlogEvent) (w : List BinlogEvent × State) (s : State)
    (hw : ∃ new, w.1 = events0 ++ new ∧ Emits env s new w.2) :
    ∃ new, (if c then (w.1 ++ [w.2.newEvent kind], w.2.advance env (w.2.newEvent kind))
        else w).1 = events0 ++ new ∧
      Emits env s new
        (if c then (w.1 ++ [w.2.newEvent kind], w.2.advance env (w.2.newEvent kind)) else w).2 := by
  obtain ⟨new, hev, hem⟩ := hw
  by_cases h : c
  · simp only [h, if_true]
    exact ⟨new ++ [w.2.newEvent kind], by rw [hev, List.append_assoc],
      Emits_append env _ _ _ _ _ hem (Emits_newEvent env w.2 kind)⟩
  · simp only [h, if_false]
    exact ⟨new, hev, hem⟩

/-- The end of the loop body of `createRowEvents` makes its events on the stream. -/
theorem rowEventsOfBuffers_Emits (env : Env) (columns tableId : Nat) (bufs : RowBuffers)
    (events : List BinlogEvent) (s : State) :
    ∃ new, (rowEventsOfBuffers env columns tableId bufs events s).1 = events ++ new ∧
      Emits env s new (rowEventsOfBuffers env columns tableId bufs events s).2 := by
  have h0 : ∃ new, (events, s).1 = events ++ new ∧ Emits env s new (events, s).2 :=
    ⟨[], by simp, Emits_nil env _ _ rfl⟩
  have h1 := rowStep_Emits env (bufs.tableRowsToWrite ≠ [])
    (EventKind.writeRows tableId ⟨List.replicate columns true, [], bufs.tableRowsToWrite⟩)
    events (events, s) s h0
  have h2 := rowStep_Emits env (bufs.tableRowsToDelete ≠ [])
    (EventKind.deleteRows tableId ⟨[], List.replicate columns true, bufs.tableRowsToDelete⟩)
    events _ s h1
  exact rowStep_Emits env (bufs.tableRowsToUpdate ≠ [])
    (EventKind.updateRows tableId
      ⟨List.replicate columns true, List.replicate columns true, bufs.tableRowsToUpdate⟩)
    events _ s h2

/-- The loop of `createRowEvents`, when it succeeds, makes its events on the stream. -/
theorem rowEventsLoop_Emits (env : Env) (ids : TableIds) :
    ∀ (deltas : List TableDelta) (events : List BinlogEvent) (s : State)
      (events1 : List BinlogEvent) (s1 : State),
      rowEventsLoop env ids deltas events s = (Except.ok events1, s1) →
      ∃ new, events1 = events ++ new ∧ Emits env s new s1 := by
  intro deltas
  induction deltas with
  | nil =>
    intro events s events1 s1 h
    simp only [rowEventsLoop, Prod.mk.injEq, Except.ok.injEq] at h
    obtain ⟨h1, h2⟩ := h
    subst h1
    subst h2
    exact ⟨[], by simp, Emits_nil env _ _ rfl⟩
  | cons td rest ih =>
    intro events s events1 s1 h
    simp only [rowEventsLoop] at h
    split at h
    · exact ih _ _ _ _ h
    · cases hrd : td.GetRowData with
      | some err => rw [hrd] at h; simp at h
      | none =>
        rw [hrd] at h
        simp only at h
        cases hsch : td.ToTable.GetSchema with
        | error err => rw [hsch] at h; simp at h
        | ok sch =>
          rw [hsch] at h
          simp only at h
          split at h
          · simp at h
          · obtain ⟨newb, hevb, hemb⟩ := rowEventsOfBuffers_Emits env sch.columns.length
              (ids.get td.tableName)
              (DiffMaps (diffCallback env sch td) td.diffEnd td.diffs ⟨[], [], []⟩).2 events s
            obtain ⟨new, hev, hem⟩ := ih _ _ _ _ h
            exact ⟨newb ++ new, by rw [hev, hevb, List.append_assoc],
              Emits_append env _ _ _ _ _ hemb hem⟩

/-- The events of a run, seen from a state at the same log position. -/
theorem Emits_congr (env : Env) (s s1 s2 : State) (new : List BinlogEvent)
    (h : Emits env s new s1) (h2 : s2.LogPosition = s1.LogPosition) : Emits env s new s2 :=
  ⟨h.1, h2.trans h.2⟩

/-- A successful `WorkingRootUpdated` on the binlog branch ends with its `sendEvents`, and
the events it hands over were made on the stream, which is left where they end. -/
theorem WorkingRootUpdated_Emits (env : Env) (databaseName : String)
    (deltas : List TableDelta) (s : State)
    (hok : (WorkingRootUpdated env databaseName BinlogBranch (Except.ok deltas) s).1 = none) :
    ∃ tr sent,
      (WorkingRootUpdated env databaseName BinlogBranch (Except.ok deltas) s).2.trace
        = tr ++ [Action.send sent] ∧
      Emits env s sent (WorkingRootUpdated env databaseName BinlogBranch (Except.ok deltas) s).2 := by
  unfold WorkingRootUpdated at hok ⊢
  rw [if_neg (fun hne => hne rfl)] at hok ⊢
  simp only at hok ⊢
  cases hsc : createSchemaChangeQueryEvents env databaseName deltas s with
  | mk r s1 =>
    simp only [hsc] at hok ⊢
    cases r with
    | error err => simp at hok
    | ok pr =>
      obtain ⟨schemaEvents, hdc⟩ := pr
      have hloop := hsc
      unfold createSchemaChangeQueryEvents at hloop
      obtain ⟨new1, hnew1, hem1, _, _⟩ :=
        schemaChangeLoop_run env databaseName deltas [] false s schemaEvents hdc s1 hloop
      rw [List.nil_append] at hnew1
      subst hnew1
      cases hdc with
      | false =>
        simp only [Bool.false_eq_true, if_false]
        exact ⟨s1.trace, schemaEvents, rfl, Emits_congr env _ _ _ _ hem1 rfl⟩
      | true =>
        simp only [if_true] at hok ⊢
        cases hg : createGtidEvent env s1 with
        | mk rg s2 =>
          simp only [hg] at hok ⊢
          cases rg with
          | error err => simp at hok
          | ok gtidEvent =>
            simp only at hok ⊢
            have hem2 := createGtidEvent_Emits env s1 s2 gtidEvent hg
            have hem3 := Emits_newEvent env s2 (EventKind.query databaseName "BEGIN")
            cases htm : createTableMapEvents env databaseName deltas
                (s2.advance env (s2.newEvent (EventKind.query databaseName "BEGIN"))) with
            | mk rt s4 =>
              simp only [htm] at hok ⊢
              cases rt with
              | error err => simp at hok
              | ok pt =>
                obtain ⟨tableMapEvents, tablesToId⟩ := pt
                simp only at hok ⊢
                have htl := htm
                unfold createTableMapEvents at htl
                obtain ⟨newt, hnewt, hem4⟩ :=
                  tableMapLoop_Emits env databaseName deltas 2 [] [] _ _ s4 htl
                simp only [List.nil_append] at hnewt
                subst hnewt
                cases hrw : createRowEvents env deltas tablesToId s4 with
                | mk rr s5 =>
                  simp only [hrw] at hok ⊢
                  cases rr with
                  | error err => simp at hok
                  | ok rowEvents =>
                    simp only at hok ⊢
                    have hrl := hrw
                    unfold createRowEvents at hrl
                    obtain ⟨newr, hnewr, hem5⟩ :=
                      rowEventsLoop_Emits env tablesToId deltas [] s4 rowEvents s5 hrl
                    rw [List.nil_append] at hnewr
                    subst hnewr
                    have hem6 := Emits_newEvent env s5 EventKind.xid
                    refine ⟨s5.trace, _, rfl, ?_⟩
                    have hall := Emits_append env _ _ _ _ _
                      (Emits_append env _ _ _ _ _
                        (Emits_append env _ _ _ _ _
                          (Emits_append env _ _ _ _ _ (Emits_append env _ _ _ _ _ hem1 hem2) hem3)
                          hem4) hem5) hem6
                    refine Emits_congr env _ _ _ _ ?_ rfl
                    simpa [List.append_assoc] using hall

/-- A successful `DatabaseCreated` or `DatabaseDropped` ends with its `sendEvents`, and the
events it hands over were made on the stream, which is left where they end. -/
theorem databaseStatement_Emits (env : Env) (databaseName statement : String) (s : State)
    (hok : (databaseStatement env databaseName statement s).1 = none) :
    ∃ tr sent,
      (databaseStatement env databaseName statement s).2.trace = tr ++ [Action.send sent] ∧
      Emits env s sent (databaseStatement env databaseName statement s).2 := by
  unfold databaseStatement at hok ⊢
  cases hg : createGtidEvent env s with
  | mk rg s1 =>
    simp only [hg] at hok ⊢
    cases rg with
    | error err => simp at hok
    | ok gtidEvent =>
      simp only at hok ⊢
      have hem1 := createGtidEvent_Emits env s s1 gtidEvent hg
      have hem2 := Emits_newEvent env s1 (EventKind.query databaseName statement)
      exact ⟨_, _, rfl, Emits_congr env _ _ _ _ (Emits_append env _ _ _ _ _ hem1 hem2) rfl⟩

/-- The length of two runs of events. -/
theorem totalLength_append (env : Env) (a b : List BinlogEvent) :
    totalLength env (a ++ b) = totalLength env a + totalLength env b := by
  simp [totalLength]

/-- The events handed over during a call that ends with its only `sendEvents`. -/
theorem sentDuring_of_last (s r : State) (pre : List Action) (sent0 : List BinlogEvent)
    (tr : List Action) (sent : List BinlogEvent)
    (h1 : r.trace = s.trace ++ (pre ++ [Action.send sent0])) (hns : NoSend pre)
    (h2 : r.trace = tr ++ [Action.send sent]) : sentDuring s r = sent := by
  rw [sentDuring_of_trace s r _ h1, sentEvents_append, sentEvents_of_NoSend pre hns]
  have heq : (s.trace ++ pre) ++ [Action.send sent0] = tr ++ [Action.send sent] := by
    rw [List.append_assoc, ← h1, h2]
  have := (List.append_inj' heq rfl).2
  simp only [List.cons.injEq, Action.send.injEq, and_true] at this
  simp [sentEvents, this]

/-- What a run of events made on the stream says about the log position. -/
theorem bookkeeping_of_Emits (env : Env) (s s1 : State) (sent : List BinlogEvent)
    (hem : Emits env s sent s1) :
    positionsFrom env s.LogPosition sent = true ∧
      s1.LogPosition = endPosition env s.LogPosition sent ∧
      (s.LogPosition + totalLength env sent < 2 ^ env.posBits →
        s1.LogPosition = s.LogPosition + totalLength env sent ∧
        s.LogPosition ≤ s1.LogPosition ∧
        ∀ pre e post, sent = pre ++ e :: post →
          e.logPos = s.LogPosition + totalLength env pre ∧
          (0 < env.Length e.kind →
            e.logPos < s.LogPosition + totalLength env (pre ++ [e])) ∧
          s.LogPosition + totalLength env (pre ++ [e]) ≤ s1.LogPosition) := by
  obtain ⟨hpos, hend⟩ := hem
  refine ⟨hpos, hend, ?_⟩
  intro hlt
  have hfin : s1.LogPosition = s.LogPosition + totalLength env sent := by
    rw [hend, endPosition_of_lt env sent _ hlt]
  refine ⟨hfin, by omega, ?_⟩
  intro pre e post hsplit
  have hlog := positionsFrom_of_lt env sent _ hlt hpos pre e post hsplit
  have hlen1 : totalLength env (pre ++ [e]) = totalLength env pre + env.Length e.kind := by
    simp [totalLength]
  have hlen2 : totalLength env sent
      = totalLength env pre + env.Length e.kind + totalLength env post := by
    rw [hsplit]
    simp [totalLength]
    omega
  refine ⟨hlog, fun hpos => by omega, by omega⟩

/-- The log position that events leave is, in the width of the counter, the start value
plus the sum of their lengths. -/
theorem endPosition_mod (env : Env) (events : List BinlogEvent) :
    ∀ pos, endPosition env pos events % 2 ^ env.posBits
      = (pos + totalLength env events) % 2 ^ env.posBits := by
  induction events with
  | nil =>
    intro pos
    simp [endPosition, totalLength]
  | cons e rest ih =>
    intro pos
    simp only [endPosition]
    rw [ih, Nat.mod_add_mod]
    simp [totalLength, Nat.add_assoc]

/-- The log position that events leave from a value of the counter is a value of the
counter. -/
theorem endPosition_lt (env : Env) (events : List BinlogEvent) :
    ∀ pos, pos < 2 ^ env.posBits → endPosition env pos events < 2 ^ env.posBits := by
  induction events with
  | nil =>
    intro pos hpos
    simpa [endPosition] using hpos
  | cons e rest ih =>
    intro pos _
    simp only [endPosition]
    exact ih _ (Nat.mod_lt _ (Nat.pos_pow_of_pos _ (by decide)))

/-- C13 (as amended): for every call of `WorkingRootUpdated`, `DatabaseCreated` or
`DatabaseDropped` that returns nil, the events handed to `sendEvents` during the call were
each made at the log position that the events before them left, each event advancing the
counter by its own `Length()` once, and `LogPosition` after the call is its value before
the call plus the sum of `Length()` over these events, modulo `2 ^ posBits`, the width of
the counter (32 for the `uint32` of the stream).  As long as this sum stays below
`2 ^ posBits`, `LogPosition` after the call is the plain sum, it did not decrease, every
event was made at the start value plus the lengths of the events before it, and the
position after an event of nonzero length is strictly larger than the position it was
made at. -/
theorem LogPosition_bookkeeping (env : Env) (databaseName branchName : String)
    (tableDeltas : Except GoError (List TableDelta)) (s : State) (r : Option GoError × State)
    (hcall : r = WorkingRootUpdated env databaseName branchName tableDeltas s ∨
      r = DatabaseCreated env databaseName s ∨ r = DatabaseDropped env databaseName s)
    (hok : r.1 = none) :
    positionsFrom env s.LogPosition (sentDuring s r.2) = true ∧
      r.2.LogPosition = endPosition env s.LogPosition (sentDuring s r.2) ∧
      (s.LogPosition < 2 ^ env.posBits →
        r.2.LogPosition
          = (s.LogPosition + totalLength env (sentDuring s r.2)) % 2 ^ env.posBits) ∧
      (s.LogPosition + totalLength env (sentDuring s r.2) < 2 ^ env.posBits →
        r.2.LogPosition = s.LogPosition + totalLength env (sentDuring s r.2) ∧
        s.LogPosition ≤ r.2.LogPosition ∧
        ∀ pre e post, sentDuring s r.2 = pre ++ e :: post →
          e.logPos = s.LogPosition + totalLength env pre ∧
          (0 < env.Length e.kind →
            e.logPos < s.LogPosition + totalLength env (pre ++ [e])) ∧
          s.LogPosition + totalLength env (pre ++ [e]) ≤ r.2.LogPosition) := by
  have hdb : ∀ statement, r = databaseStatement env databaseName statement s →
      Emits env s (sentDuring s r.2) r.2 := by
    intro statement hr
    subst hr
    obtain ⟨tr, sent, htr, hem⟩ := databaseStatement_Emits env databaseName statement s hok
    obtain ⟨acts1, ht1, hns1, _⟩ := createGtidEvent_trace env s
    have hsent : sentDuring s (databaseStatement env databaseName statement s).2 = sent := by
      have hok2 := hok
      unfold databaseStatement at hok2 htr ⊢
      cases hg : createGtidEvent env s with
      | mk rg s1 =>
        rw [hg] at ht1
        simp only [hg] at hok2 htr ⊢
        cases rg with
        | error err => simp at hok2
        | ok gtidEvent =>
          simp only at htr ht1 ⊢
          refine sentDuring_of_last s _ acts1
            [gtidEvent, s1.newEvent (EventKind.query databaseName statement)] tr sent ?_ hns1 htr
          simp only [sendEvents, State.advance]
          rw [ht1, List.append_assoc]
    rw [hsent]
    exact hem
  have hem : Emits env s (sentDuring s r.2) r.2 := by
    rcases hcall with hr | hr | hr
    · by_cases hb : branchName = BinlogBranch
      · subst hb
        cases tableDeltas with
        | error err =>
          subst hr
          simp [WorkingRootUpdated] at hok
        | ok deltas =>
          subst hr
          obtain ⟨tr, sent, htr, hem⟩ := WorkingRootUpdated_Emits env databaseName deltas s hok
          obtain ⟨acts, hacts, _, hsucc⟩ := WorkingRootUpdated_spec env databaseName deltas s
          obtain ⟨pre, sent0, hsplit, hns, _⟩ := hsucc hok
          rw [hsplit] at hacts
          rw [sentDuring_of_last s _ pre sent0 tr sent hacts hns htr]
          exact hem
      · have hrs : r = (none, s) := by
          rw [hr]
          unfold WorkingRootUpdated
          rw [if_pos hb]
        rw [hrs]
        have : sentDuring s s = [] := by simp [sentDuring, sentEvents]
        simp only [this]
        exact Emits_nil env s s rfl
    · exact hdb _ hr
    · exact hdb _ hr
  obtain ⟨hpos, hend, hplain⟩ := bookkeeping_of_Emits env s r.2 _ hem
  refine ⟨hpos, hend, ?_, hplain⟩
  intro hlt
  rw [← endPosition_mod, ← hend]
  have hfin : r.2.LogPosition < 2 ^ env.posBits := by
    rw [hend]
    exact endPosition_lt env _ _ hlt
  exact (Nat.mod_eq_of_lt hfin).symm

/-- Counterexample to C13 as stated: `DatabaseCreated` on a producer whose log position is
4294967290 returns nil and hands two events of length 19 to `sendEvents`; the `uint32`
counter wraps around, so that the log position after the call is 32: it is not the value
before the call plus 38, and it is smaller than before the call. -/
theorem LogPosition_wraps_around :
    (DatabaseCreated sampleEnv "db" wrapState).1 = none ∧
      wrapState.LogPosition = 4294967290 ∧
      totalLength sampleEnv
        (sentDuring wrapState (DatabaseCreated sampleEnv "db" wrapState).2) = 38 ∧
      (DatabaseCreated sampleEnv "db" wrapState).2.LogPosition = 32 ∧
      (DatabaseCreated sampleEnv "db" wrapState).2.LogPosition ≠
        wrapState.LogPosition + totalLength sampleEnv
          (sentDuring wrapState (DatabaseCreated sampleEnv "db" wrapState).2) ∧
      (DatabaseCreated sampleEnv "db" wrapState).2.LogPosition < wrapState.LogPosition := by
  refine ⟨by decide, by decide, by decide, by decide, by decide, by decide⟩

/-- Witness of C13 (as amended): a commit that alters table `t`, creates it and inserts a
row, on a producer that has not been used: eleven events of length 19 move the log
position from 0 to 209. -/
theorem LogPosition_bookkeeping_witness :
    (WorkingRootUpdated sampleEnv "db" "main" (Except.ok [sampleAlter, sampleCreateAndInsert])
        freshState).1 = none ∧
      (WorkingRootUpdated sampleEnv "db" "main" (Except.ok [sampleAlter, sampleCreateAndInsert])
        freshState).2.LogPosition = 209 ∧
      (WorkingRootUpdated sampleEnv "db" "main" (Except.ok [sampleAlter, sampleCreateAndInsert])
        freshState).2.LogPosition =
        freshState.LogPosition + totalLength sampleEnv (sentDuring freshState
          (WorkingRootUpdated sampleEnv "db" "main"
            (Except.ok [sampleAlter, sampleCreateAndInsert]) freshState).2) :=
  ⟨by decide, by decide,
    ((LogPosition_bookkeeping sampleEnv "db" "main"
      (Except.ok [sampleAlter, sampleCreateAndInsert]) freshState _ (Or.inl rfl)
      (by decide)).2.2.2 (by decide)).1⟩

/-! ### Table ids -/

/-- Reading the map of table ids after an assignment. -/
theorem TableIds.get_cons (name0 : String) (v : Nat) (ids : TableIds) (name : String) :
    TableIds.get ((name0, v) :: ids) name = if name = name0 then v else TableIds.get ids name := by
  unfold TableIds.get
  by_cases h : name = name0
  · simp [List.lookup, h]
  · have hb : (name == name0) = false := by simpa using h
    simp [List.lookup, h, hb]

/-- The loop of `createTableMapEvents`, when it succeeds, adds one TableMap event for each
delta with changed data that is not a drop, in the order of the deltas, with the table ids
that follow `tableId`, and assigns these ids to the names of the deltas. -/
theorem tableMapLoop_ids (env : Env) (databaseName : String) :
    ∀ (deltas : List TableDelta) (tableId : Nat) (ids : TableIds) (events : List BinlogEvent)
      (s : State) (events1 : List BinlogEvent) (ids1 : TableIds) (s1 : State),
      tableId + (dataDeltas deltas).length < 2 ^ 64 →
      tableMapLoop env databaseName deltas tableId ids events s
        = (Except.ok (events1, ids1), s1) →
      ∃ new, events1 = events ++ new ∧ new.length = (dataDeltas deltas).length ∧
        (∀ (k : Nat) (td : TableDelta), (dataDeltas deltas)[k]? = some td →
          ∃ tm p, createTableMapFromDoltTable env databaseName td.tableName td.ToTable
              = Except.ok tm ∧
            new[k]? = some ⟨EventKind.tableMap (tableId + (k + 1)) tm, p⟩) ∧
        (∀ name, name ∉ (dataDeltas deltas).map TableDelta.tableName →
          ids1.get name = ids.get name) ∧
        (((dataDeltas deltas).map TableDelta.tableName).Nodup →
          ∀ (k : Nat) (td : TableDelta), (dataDeltas deltas)[k]? = some td →
            ids1.get td.tableName = tableId + (k + 1)) := by
  intro deltas
  induction deltas with
  | nil =>
    intro tableId ids events s events1 ids1 s1 _ h
    simp only [tableMapLoop, Prod.mk.injEq, Except.ok.injEq] at h
    obtain ⟨⟨h1, h2⟩, _⟩ := h
    subst h1
    subst h2
    exact ⟨[], by simp, rfl, fun k td hk => by simp [dataDeltas] at hk, fun _ _ => rfl,
      fun _ k td hk => by simp [dataDeltas] at hk⟩
  | cons td0 rest ih =>
    intro tableId ids events s events1 ids1 s1 hlt h
    simp only [tableMapLoop] at h
    cases hd : td0.HasDataChanged with
    | error err => rw [hd] at h; simp at h
    | ok dataChanged =>
      rw [hd] at h
      simp only at h
      by_cases hskip : (!dataChanged || td0.IsDrop) = true
      · rw [if_pos hskip] at h
        have hdd : dataDeltas (td0 :: rest) = dataDeltas rest := by
          unfold dataDeltas
          rw [List.filter_cons_of_neg]
          rw [hd]
          revert hskip
          cases dataChanged <;> cases td0.IsDrop <;> simp
        rw [hdd] at hlt ⊢
        exact ih _ _ _ _ _ _ _ hlt h
      · rw [if_neg hskip] at h
        have hkeep : dataChanged = true ∧ td0.IsDrop = false := by
          revert hskip
          cases dataChanged <;> cases td0.IsDrop <;> simp
        have hdd : dataDeltas (td0 :: rest) = td0 :: dataDeltas rest := by
          unfold dataDeltas
          rw [List.filter_cons_of_pos]
          rw [hd, hkeep.1, hkeep.2]
          rfl
        rw [hdd] at hlt ⊢
        simp only [List.length_cons] at hlt
        have hmod : (tableId + 1) % 2 ^ 64 = tableId + 1 := Nat.mod_eq_of_lt (by omega)
        rw [hmod] at h
        cases htm : createTableMapFromDoltTable env databaseName td0.tableName td0.ToTable with
        | error err => rw [htm] at h; simp at h
        | ok tableMap =>
          rw [htm] at h
          simp only at h
          obtain ⟨new, hnew, hlen, hget, hother, hnodup⟩ :=
            ih (tableId + 1) _ _ _ _ _ _ (by omega) h
          refine ⟨s.newEvent (EventKind.tableMap (tableId + 1) tableMap) :: new, ?_, ?_, ?_,
            ?_, ?_⟩
          · rw [hnew]
            simp
          · simp [hlen]
          · intro k td hk
            cases k with
            | zero =>
              simp only [List.getElem?_cons_zero, Option.some.injEq] at hk
              subst hk
              exact ⟨tableMap, s.LogPosition, htm, by simp [State.newEvent]⟩
            | succ j =>
              simp only [List.getElem?_cons_succ] at hk
              obtain ⟨tm, p, h1, h2⟩ := hget j td hk
              refine ⟨tm, p, h1, ?_⟩
              rw [List.getElem?_cons_succ, h2]
              have : tableId + 1 + (j + 1) = tableId + (j + 1 + 1) := by omega
              rw [this]
          · intro name hname
            simp only [List.map_cons, List.mem_cons, not_or] at hname
            rw [hother name hname.2, TableIds.get_cons, if_neg hname.1]
          · intro hnd k td hk
            simp only [List.map_cons, List.nodup_cons] at hnd
            cases k with
            | zero =>
              simp only [List.getElem?_cons_zero, Option.some.injEq] at hk
              subst hk
              rw [hother _ hnd.1, TableIds.get_cons, if_pos rfl]
            | succ j =>
              simp only [List.getElem?_cons_succ] at hk
              rw [hnodup hnd.2 j td hk]
              omega

/-- C16: when `createTableMapEvents` returns, it has made exactly one TableMap event for
each table delta that has data changes and is not a drop, in the order of the deltas; the
event of the `k`-th such delta (counted from 1) has table id `2 + k`, so the ids of one
invocation are `3, 4, ...`, and `tablesToId` maps the name of the delta (`ToName`, or
`FromName` when `ToName` is empty) to that id when these deltas have distinct names, and
holds no other name.  (Fewer than `2^64 - 2` such deltas, as every slice has.) -/
theorem createTableMapEvents_ids (env : Env) (databaseName : String)
    (tableDeltas : List TableDelta) (s : State) (events : List BinlogEvent)
    (tablesToId : TableIds)
    (hlen : 2 + (dataDeltas tableDeltas).length < 2 ^ 64)
    (h : (createTableMapEvents env databaseName tableDeltas s).1
      = Except.ok (events, tablesToId)) :
    events.length = (dataDeltas tableDeltas).length ∧
      (∀ (k : Nat) (td : TableDelta), (dataDeltas tableDeltas)[k]? = some td →
        ∃ tm p, createTableMapFromDoltTable env databaseName td.tableName td.ToTable
            = Except.ok tm ∧
          events[k]? = some ⟨EventKind.tableMap (2 + (k + 1)) tm, p⟩) ∧
      (∀ name, name ∉ (dataDeltas tableDeltas).map TableDelta.tableName →
        tablesToId.get name = 0) ∧
      (((dataDeltas tableDeltas).map TableDelta.tableName).Nodup →
        ∀ (k : Nat) (td : TableDelta), (dataDeltas tableDeltas)[k]? = some td →
          tablesToId.get td.tableName = 2 + (k + 1)) := by
  have hfull : createTableMapEvents env databaseName tableDeltas s
      = (Except.ok (events, tablesToId),
          (createTableMapEvents env databaseName tableDeltas s).2) :=
    Prod.ext h rfl
  unfold createTableMapEvents at hfull
  obtain ⟨new, hnew, hl, hget, hother, hnodup⟩ :=
    tableMapLoop_ids env databaseName tableDeltas 2 [] [] s events tablesToId _ hlen hfull
  rw [List.nil_append] at hnew
  subst hnew
  exact ⟨hl, hget, fun name hname => by rw [hother name hname]; rfl, hnodup⟩

/-- Witness of C16: a delta without data changes followed by the deltas of the tables `t`
and `u` with data changes: two TableMap events with the ids 3 and 4, and `tablesToId`
maps `t` to 3 and `u` to 4. -/
theorem createTableMapEvents_ids_witness :
    (createTableMapEvents sampleEnv "db" [sampleAlter, sampleCreateAndInsert, sampleOther]
        freshState).1 =
      Except.ok
        ([⟨EventKind.tableMap 3 ⟨0, "db", "t", [3, 3], [false, true], [0, 0]⟩, 0⟩,
          ⟨EventKind.tableMap 4 ⟨0, "db", "u", [3, 3], [false, true], [0, 0]⟩, 19⟩],
          [("u", 4), ("t", 3)]) ∧
      TableIds.get [("u", 4), ("t", 3)] sampleCreateAndInsert.tableName = 2 + (0 + 1) ∧
      TableIds.get [("u", 4), ("t", 3)] sampleOther.tableName = 2 + (1 + 1) :=
  have key := createTableMapEvents_ids sampleEnv "db"
    [sampleAlter, sampleCreateAndInsert, sampleOther] freshState
    [⟨EventKind.tableMap 3 ⟨0, "db", "t", [3, 3], [false, true], [0, 0]⟩, 0⟩,
      ⟨EventKind.tableMap 4 ⟨0, "db", "u", [3, 3], [false, true], [0, 0]⟩, 19⟩]
    [("u", 4), ("t", 3)] (by decide) (by decide)
  ⟨by decide, key.2.2.2 (by decide) 0 sampleCreateAndInsert rfl,
    key.2.2.2 (by decide) 1 sampleOther rfl⟩

/-! ### Row classification -/

/-- The row events that the end of the loop body of `createRowEvents` adds carry the three
row slices: a write rows event with the rows to write, a delete rows event with the rows
to delete and an update rows event with the rows to update, each only for a slice that is
not empty. -/
theorem rowEventsOfBuffers_kinds (env : Env) (columns tableId : Nat) (bufs : RowBuffers)
    (events : List BinlogEvent) (s : State) :
    (rowEventsOfBuffers env columns tableId bufs events s).1.map (fun e => e.kind) =
      events.map (fun e => e.kind) ++
        (if bufs.tableRowsToWrite ≠ [] then
          [EventKind.writeRows tableId ⟨List.replicate columns true, [], bufs.tableRowsToWrite⟩]
          else []) ++
        (if bufs.tableRowsToDelete ≠ [] then
          [EventKind.deleteRows tableId ⟨[], List.replicate columns true, bufs.tableRowsToDelete⟩]
          else []) ++
        (if bufs.tableRowsToUpdate ≠ [] then
          [EventKind.updateRows tableId
            ⟨List.replicate columns true, List.replicate columns true, bufs.tableRowsToUpdate⟩]
          else []) := by
  unfold rowEventsOfBuffers
  by_cases h1 : bufs.tableRowsToWrite ≠ [] <;> by_cases h2 : bufs.tableRowsToDelete ≠ [] <;>
    by_cases h3 : bufs.tableRowsToUpdate ≠ [] <;>
    simp [h1, h2, h3, State.newEvent]

/-- C21: for a schema that is not keyless and every diff, `extractRowCountAndDiffType`
returns the row count 1, the type of the diff and no error, and the diff callback of
`createRowEvents` appends exactly one row to the slice of the matching type and leaves the
other two as they are: an Added diff to the rows to write, a Modified diff to the rows to
update, a Removed diff to the rows to delete (when the row serializes).  The slices become
the rows of the WriteRows, UpdateRows and DeleteRows events of the table. -/
theorem keyed_diff_one_row (env : Env) (sch : Schema) (tableDelta : TableDelta)
    (bufs : RowBuffers) (diff : Diff) (hk : sch.keyless = false) :
    extractRowCountAndDiffType sch diff = (1, diff.Type_, none) ∧
      (diff.Type_ = DiffType.AddedDiff →
        ∀ data nullBitmap,
          env.serializeRow sch diff.Key diff.To tableDelta.ToTable.NodeStore
              = Except.ok (data, nullBitmap) →
            diffCallback env sch tableDelta bufs diff =
              (none, ⟨bufs.tableRowsToWrite ++ [⟨nullBitmap, data, [], []⟩],
                bufs.tableRowsToDelete, bufs.tableRowsToUpdate⟩)) ∧
      (diff.Type_ = DiffType.ModifiedDiff →
        ∀ data nullColumns identify nullIdentifyColumns,
          env.serializeRow sch diff.Key diff.To tableDelta.ToTable.NodeStore
              = Except.ok (data, nullColumns) →
          env.serializeRow sch diff.Key diff.From tableDelta.FromTable.NodeStore
              = Except.ok (identify, nullIdentifyColumns) →
            diffCallback env sch tableDelta bufs diff =
              (none, ⟨bufs.tableRowsToWrite, bufs.tableRowsToDelete,
                bufs.tableRowsToUpdate ++ [⟨nullColumns, data, nullIdentifyColumns, identify⟩]⟩)) ∧
      (diff.Type_ = DiffType.RemovedDiff →
        ∀ identifyData nullBitmap,
          env.serializeRow sch diff.Key diff.From tableDelta.FromTable.NodeStore
              = Except.ok (identifyData, nullBitmap) →
            diffCallback env sch tableDelta bufs diff =
              (none, ⟨bufs.tableRowsToWrite,
                bufs.tableRowsToDelete ++ [⟨[], [], nullBitmap, identifyData⟩],
                bufs.tableRowsToUpdate⟩)) ∧
      (∀ (columns tableId : Nat) (events : List BinlogEvent) (s : State),
        (rowEventsOfBuffers env columns tableId bufs events s).1.map (fun e => e.kind) =
          events.map (fun e => e.kind) ++
            (if bufs.tableRowsToWrite ≠ [] then
              [EventKind.writeRows tableId
                ⟨List.replicate columns true, [], bufs.tableRowsToWrite⟩]
              else []) ++
            (if bufs.tableRowsToDelete ≠ [] then
              [EventKind.deleteRows tableId
                ⟨[], List.replicate columns true, bufs.tableRowsToDelete⟩]
              else []) ++
            (if bufs.tableRowsToUpdate ≠ [] then
              [EventKind.updateRows tableId
                ⟨List.replicate columns true, List.replicate columns true,
                  bufs.tableRowsToUpdate⟩]
              else [])) := by
  have hx : extractRowCountAndDiffType sch diff = (1, diff.Type_, none) := by
    simp [extractRowCountAndDiffType, hk]
  refine ⟨hx, ?_, ?_, ?_, fun columns tableId events s =>
    rowEventsOfBuffers_kinds env columns tableId bufs events s⟩
  · intro hty data nullBitmap hs
    simp [diffCallback, hx, hty, hs]
  · intro hty data nullColumns identify nullIdentifyColumns hs1 hs2
    simp [diffCallback, hx, hty, hs1, hs2]
  · intro hty identifyData nullBitmap hs
    simp [diffCallback, hx, hty, hs]

/-- Witness of C21: an Added diff of a table with a primary key adds one row to the rows
to write. -/
theorem keyed_diff_one_row_witness :
    extractRowCountAndDiffType ⟨false, [⟨3, false⟩, ⟨3, true⟩]⟩
        ⟨[some 1], [], [some 7], DiffType.AddedDiff⟩ = (1, DiffType.AddedDiff, none) ∧
      diffCallback sampleEnv ⟨false, [⟨3, false⟩, ⟨3, true⟩]⟩ (sampleDelta false [])
        ⟨[], [], []⟩ ⟨[some 1], [], [some 7], DiffType.AddedDiff⟩ =
        (none, ⟨[] ++ [⟨[false, false], [1, 7], [], []⟩], [], []⟩) :=
  ⟨(keyed_diff_one_row sampleEnv ⟨false, [⟨3, false⟩, ⟨3, true⟩]⟩ (sampleDelta false [])
      ⟨[], [], []⟩ ⟨[some 1], [], [some 7], DiffType.AddedDiff⟩ rfl).1,
    (keyed_diff_one_row sampleEnv ⟨false, [⟨3, false⟩, ⟨3, true⟩]⟩ (sampleDelta false [])
      ⟨[], [], []⟩ ⟨[some 1], [], [some 7], DiffType.AddedDiff⟩ rfl).2.1 rfl [1, 7]
      [false, false] rfl⟩

/-- C22: for a keyless schema, when the duplicate count (value field 0) is null on a side
that the diff type reads (`To` for Added, `From` for Removed, either side for Modified), or
the diff type is none of Added, Removed and Modified, `extractRowCountAndDiffType` returns
an error and the row count 0, and the diff callback of `createRowEvents` returns that
error without adding a row. -/
theorem keyless_null_or_unexpected_error (sch : Schema) (diff : Diff)
    (hk : sch.keyless = true)
    (h : (diff.Type_ = DiffType.AddedDiff ∧ (GetUint64 0 diff.To).2 = false) ∨
      (diff.Type_ = DiffType.RemovedDiff ∧ (GetUint64 0 diff.From).2 = false) ∨
      (diff.Type_ = DiffType.ModifiedDiff ∧
        ((GetUint64 0 diff.To).2 = false ∨ (GetUint64 0 diff.From).2 = false)) ∨
      (∃ code, diff.Type_ = DiffType.other code)) :
    (extractRowCountAndDiffType sch diff).2.2 ≠ none ∧
      (extractRowCountAndDiffType sch diff).1 = 0 ∧
      ∀ (env : Env) (tableDelta : TableDelta) (bufs : RowBuffers),
        diffCallback env sch tableDelta bufs diff
          = ((extractRowCountAndDiffType sch diff).2.2, bufs) := by
  have hcb : (extractRowCountAndDiffType sch diff).2.2 ≠ none →
      ∀ (env : Env) (tableDelta : TableDelta) (bufs : RowBuffers),
        diffCallback env sch tableDelta bufs diff
          = ((extractRowCountAndDiffType sch diff).2.2, bufs) := by
    intro hne env tableDelta bufs
    cases hx : (extractRowCountAndDiffType sch diff).2.2 with
    | none => exact absurd hx hne
    | some err => simp only [diffCallback, hx]
  have hmain : (extractRowCountAndDiffType sch diff).2.2 ≠ none ∧
      (extractRowCountAndDiffType sch diff).1 = 0 := by
    cases hto : GetUint64 0 diff.To with
    | mk t tn =>
      cases hfrom : GetUint64 0 diff.From with
      | mk f fn =>
        rw [hto, hfrom] at h
        simp only at h
        rcases h with ⟨hty, hn⟩ | ⟨hty, hn⟩ | ⟨hty, hn⟩ | ⟨code, hty⟩
        · subst hn
          simp [extractRowCountAndDiffType, hk, hty, hto]
        · subst hn
          simp [extractRowCountAndDiffType, hk, hty, hfrom]
        · rcases hn with hn | hn
          · subst hn
            simp [extractRowCountAndDiffType, hk, hty, hto]
          · subst hn
            cases tn <;> simp [extractRowCountAndDiffType, hk, hty, hto, hfrom]
        · simp [extractRowCountAndDiffType, hk, hty]
  exact ⟨hmain.1, hmain.2, hcb hmain.1⟩

/-- Witness of C22: an Added diff of a keyless table whose duplicate count is NULL. -/
theorem keyless_null_or_unexpected_error_witness :
    (extractRowCountAndDiffType ⟨true, []⟩ ⟨[], [], [none], DiffType.AddedDiff⟩).2.2 ≠ none ∧
      (extractRowCountAndDiffType ⟨true, []⟩ ⟨[], [], [none], DiffType.AddedDiff⟩).1 = 0 :=
  ⟨(keyless_null_or_unexpected_error ⟨true, []⟩ ⟨[], [], [none], DiffType.AddedDiff⟩ rfl
      (Or.inl ⟨rfl, rfl⟩)).1,
    (keyless_null_or_unexpected_error ⟨true, []⟩ ⟨[], [], [none], DiffType.AddedDiff⟩ rfl
      (Or.inl ⟨rfl, rfl⟩)).2.1⟩

/-- C23: for a keyless table and a Modified diff with the duplicate count 4 on the `To`
side and 2 on the `From` side, which is the example in the doc comment of
`extractRowCountAndDiffType`, the function returns the row count 2 with `AddedDiff` and
no error, not the row count 2 with `RemovedDiff` that the doc comment gives for it. -/
theorem keyless_four_from_two_not_removed :
    extractRowCountAndDiffType ⟨true, []⟩ ⟨[], [some 2], [some 4], DiffType.ModifiedDiff⟩
        = (2, DiffType.AddedDiff, none) ∧
      extractRowCountAndDiffType ⟨true, []⟩ ⟨[], [some 2], [some 4], DiffType.ModifiedDiff⟩
        ≠ (2, DiffType.RemovedDiff, none) := by
  decide

/-- For every keyless schema and every Modified diff whose duplicate count in `diff.To` is
4 and whose duplicate count in `diff.From` is 2, `extractRowCountAndDiffType` translates
the diff to an addition of 2 rows: it returns the row count 2, the diff type `AddedDiff`
and no error. -/
theorem keyless_four_from_two_added (sch : Schema) (diff : Diff) (hk : sch.keyless = true)
    (hty : diff.Type_ = DiffType.ModifiedDiff) (hto : GetUint64 0 diff.To = (4, true))
    (hfrom : GetUint64 0 diff.From = (2, true)) :
    extractRowCountAndDiffType sch diff = (2, DiffType.AddedDiff, none) := by
  simp [extractRowCountAndDiffType, hk, hty, hto, hfrom]

/-- An instance of `keyless_four_from_two_added`: the schema of a keyless table without
further columns. -/
theorem keyless_four_from_two_added_witness :
    extractRowCountAndDiffType ⟨true, []⟩ ⟨[], [some 2], [some 4], DiffType.ModifiedDiff⟩
      = (2, DiffType.AddedDiff, none) :=
  keyless_four_from_two_added ⟨true, []⟩ ⟨[], [some 2], [some 4], DiffType.ModifiedDiff⟩ rfl rfl
    rfl rfl

/-- C24: on a producer whose position store holds a GTID set with two intervals, whose
string `<uuid>:1-3:5-7` does not split on `:` into two parts, the first call of
`initializeGtidPosition` returns the error `unexpected GTID format`, but the second call
on the same producer returns nil, because the first call had set `gtidPosition` before it
parsed the string; the `createGtidEvent` that follows issues a GTID with the sequence
number 0 from the position that was never parsed. -/
theorem initializeGtidPosition_second_call_no_error :
    (gapState.positionStore.map (fun p => p.gtidString)) =
        some "00000000-0000-0000-0000-000000000001:1-3:5-7".data ∧
      (initializeGtidPosition sampleEnv gapState).1
        = some (GoError.msg "unexpected GTID format") ∧
      (initializeGtidPosition sampleEnv (initializeGtidPosition sampleEnv gapState).2).1
        = none ∧
      (createGtidEvent sampleEnv gapState).1
        = Except.error (GoError.msg "unexpected GTID format") ∧
      (createGtidEvent sampleEnv (createGtidEvent sampleEnv gapState).2).1 =
        Except.ok ⟨EventKind.gtid ⟨⟨[0, 0, 0, 0, 0, 0, 0, 0, 0, 0, 0, 0, 0, 0, 0, 1]⟩, 0⟩, 0⟩ := by
  decide

/-- C25: for a branch name other than `BinlogBranch`, `WorkingRootUpdated` returns nil and
leaves the producer and its collaborators as they are: no call of `sendEvents` or of the
position store is added to the trace, and `gtidSequence`, `gtidPosition`, the stored
position and `LogPosition` are unchanged. -/
theorem WorkingRootUpdated_other_branch (env : Env) (databaseName branchName : String)
    (tableDeltas : Except GoError (List TableDelta)) (s : State)
    (h : branchName ≠ BinlogBranch) :
    WorkingRootUpdated env databaseName branchName tableDeltas s = (none, s) ∧
      (WorkingRootUpdated env databaseName branchName tableDeltas s).2.trace = s.trace ∧
      sentDuring s (WorkingRootUpdated env databaseName branchName tableDeltas s).2 = [] ∧
      (WorkingRootUpdated env databaseName branchName tableDeltas s).2.gtidSequence
        = s.gtidSequence ∧
      (WorkingRootUpdated env databaseName branchName tableDeltas s).2.gtidPosition
        = s.gtidPosition ∧
      (WorkingRootUpdated env databaseName branchName tableDeltas s).2.positionStore
        = s.positionStore ∧
      (WorkingRootUpdated env databaseName branchName tableDeltas s).2.LogPosition
        = s.LogPosition := by
  have hw : WorkingRootUpdated env databaseName branchName tableDeltas s = (none, s) := by
    unfold WorkingRootUpdated
    rw [if_pos h]
  rw [hw]
  refine ⟨rfl, rfl, ?_, rfl, rfl, rfl, rfl⟩
  simp [sentDuring, sentEvents]

/-- Witness of C25: a commit on the branch `feature`. -/
theorem WorkingRootUpdated_other_branch_witness :
    WorkingRootUpdated sampleEnv "db" "feature" (Except.ok [sampleCreateAndInsert]) freshState
      = (none, freshState) :=
  (WorkingRootUpdated_other_branch sampleEnv "db" "feature" (Except.ok [sampleCreateAndInsert])
    freshState (by decide)).1

/-- Counterexample to C29 as stated: a commit that creates table `t` and inserts a row,
whose row data cannot be read, on a producer that has issued one GTID.
`WorkingRootUpdated` returns the error after it made the events of the schema change and
the GTID event of the transaction: `gtidSequence` went from 2 to 4, the stored position
from `1` to `1-3` and `LogPosition` from 38 to 133. -/
theorem WorkingRootUpdated_error_keeps_bookkeeping :
    (WorkingRootUpdated sampleEnv "db" "main" (Except.ok [sampleUnreadable]) usedState).1
        = some (GoError.msg "cannot read row data") ∧
      usedState.gtidSequence = 2 ∧
      (WorkingRootUpdated sampleEnv "db" "main" (Except.ok [sampleUnreadable])
        usedState).2.gtidSequence = 4 ∧
      usedState.LogPosition = 38 ∧
      (WorkingRootUpdated sampleEnv "db" "main" (Except.ok [sampleUnreadable])
        usedState).2.LogPosition = 133 ∧
      usedState.positionStore =
        some ⟨some ⟨[(⟨[0, 0, 0, 0, 0, 0, 0, 0, 0, 0, 0, 0, 0, 0, 0, 1]⟩, [⟨1, 1⟩])]⟩⟩ ∧
      (WorkingRootUpdated sampleEnv "db" "main" (Except.ok [sampleUnreadable])
        usedState).2.positionStore =
        some ⟨some ⟨[(⟨[0, 0, 0, 0, 0, 0, 0, 0, 0, 0, 0, 0, 0, 0, 0, 1]⟩, [⟨1, 3⟩])]⟩⟩ := by
  refine ⟨by decide, by decide, by decide, by decide, by decide, by decide, by decide⟩

/-- C29 (as amended): if `WorkingRootUpdated` returns an error, no event of that call is
delivered: `sendEvents` is not called.  When the error is that of reading the table
deltas, the producer and its collaborators, with `gtidSequence`, the stored position and
`LogPosition`, are as before the call. -/
theorem WorkingRootUpdated_error_sends_nothing (env : Env) (databaseName branchName : String)
    (tableDeltas : Except GoError (List TableDelta)) (s : State)
    (herr : (WorkingRootUpdated env databaseName branchName tableDeltas s).1 ≠ none) :
    sentDuring s (WorkingRootUpdated env databaseName branchName tableDeltas s).2 = [] ∧
      (∀ err, tableDeltas = Except.error err →
        (WorkingRootUpdated env databaseName branchName tableDeltas s).2 = s) := by
  have hself : sentDuring s s = [] := by simp [sentDuring, sentEvents]
  by_cases hb : branchName = BinlogBranch
  · subst hb
    cases tableDeltas with
    | error err =>
      have hw : WorkingRootUpdated env databaseName BinlogBranch (Except.error err) s
          = (some err, s) := by
        unfold WorkingRootUpdated
        rw [if_neg (fun hne => hne rfl)]
      rw [hw]
      exact ⟨hself, fun _ _ => rfl⟩
    | ok deltas =>
      obtain ⟨acts, hacts, hquiet, _⟩ := WorkingRootUpdated_spec env databaseName deltas s
      refine ⟨?_, fun err h => by cases h⟩
      rw [sentDuring_of_trace s _ acts hacts]
      exact sentEvents_of_NoSend acts (hquiet herr)
  · have hw : WorkingRootUpdated env databaseName branchName tableDeltas s = (none, s) := by
      unfold WorkingRootUpdated
      rw [if_pos hb]
    rw [hw] at herr
    exact absurd rfl herr

/-- Witness of C29 (as amended): the commit whose row data cannot be read. -/
theorem WorkingRootUpdated_error_sends_nothing_witness :
    (WorkingRootUpdated sampleEnv "db" "main" (Except.ok [sampleUnreadable]) usedState).1
        ≠ none ∧
      sentDuring usedState
        (WorkingRootUpdated sampleEnv "db" "main" (Except.ok [sampleUnreadable]) usedState).2
          = [] :=
  ⟨by decide,
    (WorkingRootUpdated_error_sends_nothing sampleEnv "db" "main"
      (Except.ok [sampleUnreadable]) usedState (by decide)).1⟩

end Binlog

namespace Statspro

/-- Reading a key of a map right after it was assigned gives the assigned value. -/
theorem GoMap.get?_set_self {κ α : Type} [DecidableEq κ] (m : GoMap κ α) (k : κ) (v : α) :
    GoMap.get? (GoMap.set m k v) k = some v := by
  induction m with
  | nil => simp [GoMap.set, GoMap.get?]
  | cons e rest ih =>
    by_cases h : e.1 = k
    · simp [GoMap.set, GoMap.get?, h]
    · simp [GoMap.set, GoMap.get?, h, ih]

/-- Assigning a key of a map leaves every other key as it was. -/
theorem GoMap.get?_set_other {κ α : Type} [DecidableEq κ] (m : GoMap κ α) (k k2 : κ) (v : α)
    (hne : k2 ≠ k) : GoMap.get? (GoMap.set m k v) k2 = GoMap.get? m k2 := by
  induction m with
  | nil => simp [GoMap.set, GoMap.get?, Ne.symm hne]
  | cons e rest ih =>
    by_cases h : e.1 = k
    · simp [GoMap.set, GoMap.get?, h, Ne.symm hne]
    · by_cases h2 : e.1 = k2
      · simp only [GoMap.set, if_neg h, GoMap.get?, if_pos h2]
      · simp only [GoMap.set, if_neg h, GoMap.get?, if_neg h2]
        exact ih

/-- C8: for a non-nil `newStats`, a context that is not cancelled and `gcKv = nil`: if the
generation counter equals `prevGen`, `trySwapStats` sets the counter to `prevGen + 1` (in
`uint64`), sets `sc.Stats` to `newStats` and returns `(true, nil)`, the controller then
going through the unlocked `Flush` unless it is `memOnly`; if the counter differs from
`prevGen`, it returns `(false, nil)` and leaves the whole controller, so the counter,
`sc.Stats` and `sc.kv`, unchanged. -/
theorem trySwapStats_compare_and_swap (env : Env) (sc : StatsController) (prevGen : Nat)
    (newStats : rootStats) :
    (sc.genCnt = prevGen →
      trySwapStats env none prevGen (some newStats) none sc =
        ((true, none),
          if sc.memOnly then { sc with genCnt := (prevGen + 1) % 2 ^ 64, Stats := newStats }
          else env.Flush { sc with genCnt := (prevGen + 1) % 2 ^ 64, Stats := newStats })) ∧
    (sc.genCnt ≠ prevGen →
      trySwapStats env none prevGen (some newStats) none sc = ((false, none), sc)) := by
  constructor
  · intro h
    cases hm : sc.memOnly <;> simp [trySwapStats, h, hm]
  · intro h
    simp [trySwapStats, h]

/-- Witness of C8: at generation 4, a swap from 4 publishes and moves the counter to 5, a
swap from 3 is discarded. -/
theorem trySwapStats_compare_and_swap_witness :
    trySwapStats sampleEnv none 4 (some newRootStats) none sampleController =
        ((true, none), { sampleController with genCnt := 5, Stats := newRootStats }) ∧
      trySwapStats sampleEnv none 3 (some newRootStats) none sampleController =
        ((false, none), sampleController) :=
  ⟨(trySwapStats_compare_and_swap sampleEnv sampleController 4 newRootStats).1 rfl,
    (trySwapStats_compare_and_swap sampleEnv sampleController 3 newRootStats).2 (by decide)⟩

/-- A step that leaves the counter and the snapshot alone does so under a condition too. -/
theorem frame_ite (f : StatsController → StatsController)
    (hf : ∀ x, (f x).genCnt = x.genCnt ∧ (f x).Stats = x.Stats) (c : Prop) [Decidable c]
    (x : StatsController) :
    (if c then f x else x).genCnt = x.genCnt ∧ (if c then f x else x).Stats = x.Stats := by
  by_cases h : c
  · simp [h, hf]
  · simp [h]

/-- A successful `trySwapStats` whose GC cache, if any, carries the generation the pass
observed: the counter moves to `prevGen + 1` and the snapshot is the one of the call,
when the unlocked storage calls leave the counter and the snapshot alone. -/
theorem trySwapStats_first (env : Env) (sc : StatsController) (g : Nat) (newStats : rootStats)
    (gcKv : Option memStats) (hg : sc.genCnt = g)
    (hgc : ∀ kv, gcKv = some kv → kv.GcGen = g)
    (hFlush : ∀ x, (env.Flush x).genCnt = x.genCnt ∧ (env.Flush x).Stats = x.Stats)
    (hRotate : ∀ x, (env.rotateStorage x).genCnt = x.genCnt ∧ (env.rotateStorage x).Stats = x.Stats) :
    (trySwapStats env none g (some newStats) gcKv sc).1 = (true, none) ∧
      (trySwapStats env none g (some newStats) gcKv sc).2.genCnt = (g + 1) % 2 ^ 64 ∧
      (trySwapStats env none g (some newStats) gcKv sc).2.Stats = newStats := by
  cases gcKv with
  | none =>
    simp only [trySwapStats, hg, if_true]
    exact ⟨trivial, by rw [(frame_ite env.Flush hFlush _ _).1],
      by rw [(frame_ite env.Flush hFlush _ _).2]⟩
  | some kv =>
    have hkv : kv.GcGen = g := hgc kv rfl
    simp only [trySwapStats, hg, if_true, hkv, ne_eq, not_true_eq_false, if_false]
    exact ⟨trivial,
      by rw [(frame_ite env.Flush hFlush _ _).1, (frame_ite env.rotateStorage hRotate _ _).1],
      by rw [(frame_ite env.Flush hFlush _ _).2, (frame_ite env.rotateStorage hRotate _ _).2]⟩

/-- A `trySwapStats` from a generation that is not the current one changes nothing. -/
theorem trySwapStats_stale (env : Env) (sc : StatsController) (g : Nat) (newStats : rootStats)
    (gcKv : Option memStats) (hg : sc.genCnt ≠ g) :
    trySwapStats env none g (some newStats) gcKv sc = ((false, none), sc) := by
  simp [trySwapStats, hg]

/-- C9: for a controller whose generation counter is `g` and two passes that both observed
`g` (their GC cache, if any, recorded `g`, as `runWorker` sets it), in whichever order the
two `trySwapStats(g, ...)` calls take effect: the call that runs first returns `ok = true`,
the second returns `(false, nil)` and changes nothing, the published snapshot is the one
of the first call and the counter ends at `g + 1`.  No `trySwapStats` call lowers a counter
that is below the largest `uint64`.  The unlocked storage calls are taken to leave the
counter and the snapshot alone. -/
theorem generation_counter_single_winner (env : Env) (sc : StatsController) (g : Nat)
    (statsA statsB : rootStats) (gcA gcB : Option memStats) (hg : sc.genCnt = g)
    (hgcA : ∀ kv, gcA = some kv → kv.GcGen = g) (hgcB : ∀ kv, gcB = some kv → kv.GcGen = g)
    (hFlush : ∀ x, (env.Flush x).genCnt = x.genCnt ∧ (env.Flush x).Stats = x.Stats)
    (hRotate : ∀ x, (env.rotateStorage x).genCnt = x.genCnt ∧ (env.rotateStorage x).Stats = x.Stats) :
    ((trySwapStats env none g (some statsA) gcA sc).1 = (true, none) ∧
      (trySwapStats env none g (some statsB) gcB
        (trySwapStats env none g (some statsA) gcA sc).2).1 = (false, none) ∧
      (trySwapStats env none g (some statsB) gcB
        (trySwapStats env none g (some statsA) gcA sc).2).2.Stats = statsA ∧
      (trySwapStats env none g (some statsB) gcB
        (trySwapStats env none g (some statsA) gcA sc).2).2.genCnt = (g + 1) % 2 ^ 64) ∧
    ((trySwapStats env none g (some statsB) gcB sc).1 = (true, none) ∧
      (trySwapStats env none g (some statsA) gcA
        (trySwapStats env none g (some statsB) gcB sc).2).1 = (false, none) ∧
      (trySwapStats env none g (some statsA) gcA
        (trySwapStats env none g (some statsB) gcB sc).2).2.Stats = statsB ∧
      (trySwapStats env none g (some statsA) gcA
        (trySwapStats env none g (some statsB) gcB sc).2).2.genCnt = (g + 1) % 2 ^ 64) ∧
    (g + 1 < 2 ^ 64 → (g + 1) % 2 ^ 64 = g + 1) ∧
    (∀ (ctxErr : Option GoError) (prevGen : Nat) (newStats : Option rootStats)
        (gcKv : Option memStats) (sc0 : StatsController), sc0.genCnt + 1 < 2 ^ 64 →
      sc0.genCnt ≤ (trySwapStats env ctxErr prevGen newStats gcKv sc0).2.genCnt) := by
  have hne : (g + 1) % 2 ^ 64 ≠ g := by
    intro h
    by_cases hlt : g + 1 < 2 ^ 64
    · rw [Nat.mod_eq_of_lt hlt] at h; omega
    · have h1 : (g + 1) % 2 ^ 64 < 2 ^ 64 := Nat.mod_lt _ (by decide)
      omega
  have key : ∀ (s1 s2 : rootStats) (k1 k2 : Option memStats),
      (∀ kv, k1 = some kv → kv.GcGen = g) →
      (trySwapStats env none g (some s1) k1 sc).1 = (true, none) ∧
      (trySwapStats env none g (some s2) k2 (trySwapStats env none g (some s1) k1 sc).2).1
        = (false, none) ∧
      (trySwapStats env none g (some s2) k2 (trySwapStats env none g (some s1) k1 sc).2).2.Stats
        = s1 ∧
      (trySwapStats env none g (some s2) k2 (trySwapStats env none g (some s1) k1 sc).2).2.genCnt
        = (g + 1) % 2 ^ 64 := by
    intro s1 s2 k1 k2 hk1
    obtain ⟨h1, h2, h3⟩ := trySwapStats_first env sc g s1 k1 hg hk1 hFlush hRotate
    have hst := trySwapStats_stale env (trySwapStats env none g (some s1) k1 sc).2 g s2 k2
      (by rw [h2]; exact hne)
    rw [hst]
    exact ⟨h1, rfl, h3, h2⟩
  refine ⟨key statsA statsB gcA gcB hgcA, key statsB statsA gcB gcA hgcB, ?_, ?_⟩
  · intro h
    exact Nat.mod_eq_of_lt h
  · intro ctxErr prevGen newStats gcKv sc0 hlt
    unfold trySwapStats
    cases newStats with
    | none => simp
    | some ns =>
      cases ctxErr with
      | some c => simp
      | none =>
        by_cases hc : sc0.genCnt = prevGen
        · have hmod : (prevGen + 1) % 2 ^ 64 = prevGen + 1 := by
            rw [← hc]; exact Nat.mod_eq_of_lt hlt
          cases gcKv with
          | none =>
            simp only [hc, if_true, hmod]
            rw [(frame_ite env.Flush hFlush _ _).1]
            exact Nat.le_succ _
          | some kv =>
            simp only [hc, if_true, hmod]
            split
            · exact Nat.le_succ _
            · simp only []
              rw [(frame_ite env.Flush hFlush _ _).1,
                (frame_ite env.rotateStorage hRotate _ _).1]
              exact Nat.le_succ _
        · simp [hc]

/-- Witness of C9: two passes that both observed generation 4. -/
theorem generation_counter_single_winner_witness :
    (trySwapStats sampleEnv none 4 (some newRootStats) none sampleController).1 = (true, none) ∧
      (trySwapStats sampleEnv none 4 (some sampleStats) (some ⟨4, [], [], []⟩)
        (trySwapStats sampleEnv none 4 (some newRootStats) none sampleController).2).1
          = (false, none) ∧
      (trySwapStats sampleEnv none 4 (some sampleStats) (some ⟨4, [], [], []⟩)
        (trySwapStats sampleEnv none 4 (some newRootStats) none sampleController).2).2.Stats
          = newRootStats ∧
      (trySwapStats sampleEnv none 4 (some sampleStats) (some ⟨4, [], [], []⟩)
        (trySwapStats sampleEnv none 4 (some newRootStats) none sampleController).2).2.genCnt
          = (4 + 1) % 2 ^ 64 :=
  (generation_counter_single_winner sampleEnv sampleController 4 newRootStats sampleStats none
    (some ⟨4, [], [], []⟩) rfl (by intro kv h; cases h) (by intro kv h; cases h; rfl)
    (fun _ => ⟨rfl, rfl⟩) (fun _ => ⟨rfl, rfl⟩)).1

/-- C10: for a `trySwapStats(prevGen, newStats, gcKv)` call with `gcKv` non-nil whose
compare-and-swap succeeds: if `gcKv.GcGen()` equals `prevGen`, the primary cache `sc.kv`
becomes `gcKv`, `doGc` becomes false and `gcCnt` increases by one (an `int`), the call
returns `(true, nil)` and the controller then goes through the unlocked `rotateStorage` and
`Flush` unless it is `memOnly`; if `gcKv.GcGen()` differs from `prevGen`, the call returns
the generation-mismatch error with `ok = false`, and `sc.kv`, `doGc` and `gcCnt` are
unchanged. -/
theorem trySwapStats_gc_promotion (env : Env) (sc : StatsController) (prevGen : Nat)
    (newStats : rootStats) (gcKv : memStats) (hcas : sc.genCnt = prevGen) :
    (gcKv.GcGen = prevGen →
      (trySwapStats env none prevGen (some newStats) (some gcKv) sc).1 = (true, none) ∧
      (∃ sc2 : StatsController,
        sc2.kv = gcKv ∧ sc2.doGc = false ∧ sc2.gcCnt = wrapInt64 (sc.gcCnt + 1) ∧
        (sc.gcCnt + 1 < 2 ^ 63 → -(2 : Int) ^ 63 ≤ sc.gcCnt + 1 → sc2.gcCnt = sc.gcCnt + 1) ∧
        (trySwapStats env none prevGen (some newStats) (some gcKv) sc).2 =
          (if sc.memOnly then sc2
           else if (env.rotateStorage sc2).memOnly then env.rotateStorage sc2
           else env.Flush (env.rotateStorage sc2)))) ∧
    (gcKv.GcGen ≠ prevGen →
      (trySwapStats env none prevGen (some newStats) (some gcKv) sc).1 =
        (false, some (GoError.msg "gc gen didn't match update gen")) ∧
      (trySwapStats env none prevGen (some newStats) (some gcKv) sc).2.kv = sc.kv ∧
      (trySwapStats env none prevGen (some newStats) (some gcKv) sc).2.doGc = sc.doGc ∧
      (trySwapStats env none prevGen (some newStats) (some gcKv) sc).2.gcCnt = sc.gcCnt) := by
  obtain ⟨genCnt, Stats, kv, doGc, gcCnt, memOnly, errLog, clock⟩ := sc
  simp only at hcas
  subst hcas
  constructor
  · intro h
    refine ⟨by simp [trySwapStats, h], ?_⟩
    refine ⟨⟨(genCnt + 1) % 2 ^ 64, newStats, gcKv, false, wrapInt64 (gcCnt + 1), memOnly,
      errLog, clock⟩, rfl, rfl, rfl, ?_, ?_⟩
    · intro h1 h2
      simp only at h1 h2
      show wrapInt64 (gcCnt + 1) = gcCnt + 1
      unfold wrapInt64
      omega
    · cases memOnly with
      | true => simp [trySwapStats, h]
      | false =>
        simp only [trySwapStats, h, if_true, ne_eq, not_true_eq_false, if_false, Bool.not_false,
          Bool.false_eq_true]
        split_ifs <;> simp_all
  · intro h
    have h2 : ¬ genCnt = gcKv.GcGen := fun e => h e.symm
    simp [trySwapStats, h2]

/-- Witness of C10: at generation 4, a GC cache recorded at generation 4 is promoted, one
recorded at generation 3 is not. -/
theorem trySwapStats_gc_promotion_witness :
    trySwapStats sampleEnv none 4 (some newRootStats) (some ⟨4, [((1, 1), ⟨1, 1, 0, [], 0, [], []⟩)], [], []⟩)
        sampleController =
      ((true, none), ⟨5, newRootStats, ⟨4, [((1, 1), ⟨1, 1, 0, [], 0, [], []⟩)], [], []⟩, false, 1,
        true, [], 0⟩) ∧
    (trySwapStats sampleEnv none 4 (some newRootStats) (some ⟨3, [], [], []⟩) sampleController).1 =
      (false, some (GoError.msg "gc gen didn't match update gen")) := by
  have h1 := (trySwapStats_gc_promotion sampleEnv sampleController 4 newRootStats
    ⟨4, [((1, 1), ⟨1, 1, 0, [], 0, [], []⟩)], [], []⟩ rfl).1 rfl
  have h2 := (trySwapStats_gc_promotion sampleEnv sampleController 4 newRootStats
    ⟨3, [], [], []⟩ rfl).2 (by decide)
  exact ⟨by decide, h2.1⟩

/-- C7: for a table whose current content hash equals the hash recorded for its table key
in the published snapshot, when no GC is in progress (`gcKv` is nil) and the table and its
hash are read without error, `updateTable` returns nil and stores in the new snapshot
exactly the statistics list of the published snapshot and that hash for the key,
increments `TablesSkipped` by one, leaves `TablesProcessed`, `BucketWrites` and every other
key unchanged, and computes no bucket: the cache and the error log of the controller are
the same and only the clock of the rate limiter moves. -/
theorem updateTable_skip_unchanged (env : Env) (tableName : String) (sqlDb : SqlDatabase)
    (bypassRateLimit openSessionCmds : Bool) (p : Pass) (sqlTable : SqleDoltTable)
    (dTab : DoltTable) (tableHash : Hash)
    (hgc : p.gcKv = none)
    (hrate : bypassRateLimit = true ∨ env.rateLimit p.sc.clock = none)
    (htab : GetLatestTable tableName sqlDb = Except.ok (sqlTable, dTab))
    (hhash : dTab.HashOf = Except.ok tableHash)
    (hrec : p.sc.Stats.hashes.get?
      ⟨ToLower sqlDb.AliasedName, ToLower sqlDb.Revision, ToLower tableName,
        ToLower sqlTable.SchemaName⟩ = some tableHash) :
    ∃ newStats : rootStats,
      updateTable env tableName sqlDb bypassRateLimit openSessionCmds p =
        (none, ⟨if bypassRateLimit then p.sc else { p.sc with clock := p.sc.clock + 1 },
          newStats, none⟩) ∧
      newStats.stats.get? ⟨ToLower sqlDb.AliasedName, ToLower sqlDb.Revision, ToLower tableName,
          ToLower sqlTable.SchemaName⟩ =
        some ((p.sc.Stats.stats.get? ⟨ToLower sqlDb.AliasedName, ToLower sqlDb.Revision,
          ToLower tableName, ToLower sqlTable.SchemaName⟩).getD []) ∧
      newStats.hashes.get? ⟨ToLower sqlDb.AliasedName, ToLower sqlDb.Revision, ToLower tableName,
          ToLower sqlTable.SchemaName⟩ = some tableHash ∧
      newStats.TablesSkipped = p.newStats.TablesSkipped + 1 ∧
      newStats.TablesProcessed = p.newStats.TablesProcessed ∧
      newStats.BucketWrites = p.newStats.BucketWrites ∧
      newStats.DbCnt = p.newStats.DbCnt ∧
      (∀ k : tableIndexesKey,
        k ≠ ⟨ToLower sqlDb.AliasedName, ToLower sqlDb.Revision, ToLower tableName,
          ToLower sqlTable.SchemaName⟩ →
        newStats.stats.get? k = p.newStats.stats.get? k ∧
        newStats.hashes.get? k = p.newStats.hashes.get? k) := by
  obtain ⟨sc, ns, gcKv⟩ := p
  simp only at hgc hrate hrec
  subst hgc
  refine ⟨{ ns with
      stats := ns.stats.set ⟨ToLower sqlDb.AliasedName, ToLower sqlDb.Revision,
        ToLower tableName, ToLower sqlTable.SchemaName⟩
          ((sc.Stats.stats.get? ⟨ToLower sqlDb.AliasedName, ToLower sqlDb.Revision,
            ToLower tableName, ToLower sqlTable.SchemaName⟩).getD []),
      hashes := ns.hashes.set ⟨ToLower sqlDb.AliasedName, ToLower sqlDb.Revision,
        ToLower tableName, ToLower sqlTable.SchemaName⟩ tableHash,
      TablesSkipped := ns.TablesSkipped + 1 }, ?_, ?_, ?_, rfl, rfl, rfl, rfl, ?_⟩
  · cases hb : bypassRateLimit with
    | true =>
      simp [updateTable, execWithOptionalRateLimit, htab, hhash, preexistingStats, hrec]
    | false =>
      have hr : env.rateLimit sc.clock = none := by
        rcases hrate with h | h
        · rw [hb] at h; cases h
        · exact h
      simp [updateTable, execWithOptionalRateLimit, htab, hhash, preexistingStats, hrec, hr]
  · exact GoMap.get?_set_self _ _ _
  · exact GoMap.get?_set_self _ _ _
  · intro k hk
    exact ⟨GoMap.get?_set_other _ _ _ _ hk, GoMap.get?_set_other _ _ _ _ hk⟩

/-- Witness of C7: the table `t` still has the hash 77 that the published snapshot
records, so a pass without GC copies its statistics forward. -/
theorem updateTable_skip_unchanged_witness :
    ∃ newStats : rootStats,
      updateTable sampleEnv "T" sampleDatabase false true ⟨sampleController, newRootStats, none⟩ =
        (none, ⟨{ sampleController with clock := 1 }, newStats, none⟩) ∧
      newStats.stats.get? ⟨"db", "main", "t", "public"⟩ =
        some [⟨3, 2, 0, [], [], ⟨"db", "", "t", "primary"⟩, ["pk"], [1], 0, some ⟨false⟩, [1]⟩] ∧
      newStats.hashes.get? ⟨"db", "main", "t", "public"⟩ = some 77 ∧
      newStats.TablesSkipped = 1 ∧ newStats.TablesProcessed = 0 ∧ newStats.BucketWrites = 0 := by
  obtain ⟨ns, h1, h2, h3, h4, h5, h6, -⟩ :=
    updateTable_skip_unchanged sampleEnv "T" sampleDatabase false true
      ⟨sampleController, newRootStats, none⟩ sampleSqleTable
      ⟨Except.ok 77, Except.ok ⟨[[some 1], [some 2]], Except.ok []⟩,
        fun _ => Except.error (GoError.msg "index not found")⟩ 77 rfl (Or.inr rfl) rfl
      rfl (by decide)
  exact ⟨ns, h1, h2, h3, h4, h5, h6⟩

/-- The sum of a field of the buckets of a histogram. -/
theorem finalizeHistogram_fold (buckets : List Bucket) :
    ∀ t : Statistic, t.RowCnt < 2 ^ 64 → t.DistinctCnt < 2 ^ 64 → t.NullCnt < 2 ^ 64 →
      (buckets.foldl
        (fun t b =>
          { t with RowCnt := (t.RowCnt + b.RowCnt) % 2 ^ 64,
                   DistinctCnt := (t.DistinctCnt + b.DistinctCnt) % 2 ^ 64,
                   NullCnt := (t.NullCnt + b.NullCnt) % 2 ^ 64,
                   Hist := t.Hist ++ [b] }) t) =
        { t with RowCnt := (t.RowCnt + (buckets.map (fun b => b.RowCnt)).sum) % 2 ^ 64,
                 DistinctCnt := (t.DistinctCnt + (buckets.map (fun b => b.DistinctCnt)).sum) % 2 ^ 64,
                 NullCnt := (t.NullCnt + (buckets.map (fun b => b.NullCnt)).sum) % 2 ^ 64,
                 Hist := t.Hist ++ buckets } := by
  induction buckets with
  | nil =>
    intro t h1 h2 h3
    cases t
    simp only at h1 h2 h3
    simp only [List.foldl_nil, List.map_nil, List.sum_nil, Nat.add_zero, List.append_nil,
      Nat.mod_eq_of_lt h1, Nat.mod_eq_of_lt h2, Nat.mod_eq_of_lt h3]
  | cons b rest ih =>
    intro t h1 h2 h3
    simp only [List.foldl_cons, List.map_cons, List.sum_cons]
    rw [ih _ (Nat.mod_lt _ (by decide)) (Nat.mod_lt _ (by decide)) (Nat.mod_lt _ (by decide))]
    simp only [Nat.mod_add_mod, List.append_assoc, List.singleton_append, Nat.add_assoc]

/-- C11: for a template whose `RowCnt`, `DistinctCnt` and `NullCnt` are zero and whose
`Hist` is empty (as `getTemplate` builds it) and every list of buckets, `finalizeHistogram`
returns the template with `Hist` exactly the given buckets in the given order, `RowCnt`,
`DistinctCnt` and `NullCnt` the sums of the corresponding bucket fields (`uint64` sums,
so modulo `2^64`, the plain sum whenever it fits) and `LowerBnd` the given `firstBound`. -/
theorem finalizeHistogram_sums (template : Statistic) (buckets : List Bucket)
    (firstBound : SqlRow) (hr : template.RowCnt = 0) (hd : template.DistinctCnt = 0)
    (hn : template.NullCnt = 0) (hh : template.Hist = []) :
    finalizeHistogram template buckets firstBound =
        { template with
            RowCnt := (buckets.map (fun b => b.RowCnt)).sum % 2 ^ 64,
            DistinctCnt := (buckets.map (fun b => b.DistinctCnt)).sum % 2 ^ 64,
            NullCnt := (buckets.map (fun b => b.NullCnt)).sum % 2 ^ 64,
            Hist := buckets,
            LowerBnd := firstBound } ∧
      ((buckets.map (fun b => b.RowCnt)).sum < 2 ^ 64 →
        (finalizeHistogram template buckets firstBound).RowCnt
          = (buckets.map (fun b => b.RowCnt)).sum) ∧
      ((buckets.map (fun b => b.DistinctCnt)).sum < 2 ^ 64 →
        (finalizeHistogram template buckets firstBound).DistinctCnt
          = (buckets.map (fun b => b.DistinctCnt)).sum) ∧
      ((buckets.map (fun b => b.NullCnt)).sum < 2 ^ 64 →
        (finalizeHistogram template buckets firstBound).NullCnt
          = (buckets.map (fun b => b.NullCnt)).sum) := by
  have hfold := finalizeHistogram_fold buckets { template with LowerBnd := firstBound }
    (by simp [hr]) (by simp [hd]) (by simp [hn])
  have heq : finalizeHistogram template buckets firstBound =
      { template with
          RowCnt := (buckets.map (fun b => b.RowCnt)).sum % 2 ^ 64,
          DistinctCnt := (buckets.map (fun b => b.DistinctCnt)).sum % 2 ^ 64,
          NullCnt := (buckets.map (fun b => b.NullCnt)).sum % 2 ^ 64,
          Hist := buckets,
          LowerBnd := firstBound } := by
    unfold finalizeHistogram
    rw [hfold]
    simp [hr, hd, hn, hh]
  refine ⟨heq, ?_, ?_, ?_⟩ <;> intro h <;> rw [heq] <;> exact Nat.mod_eq_of_lt h

/-- Witness of C11: two buckets on a template as `getTemplate` builds it. -/
theorem finalizeHistogram_sums_witness :
    finalizeHistogram ⟨0, 0, 0, [], [], ⟨"db", "", "t", "primary"⟩, ["pk"], [1], 0, some ⟨false⟩, [1]⟩
        [⟨5, 4, 1, [], 1, [some 9], []⟩, ⟨7, 7, 0, [], 1, [some 20], []⟩] [some 1] =
      ⟨12, 11, 1, [⟨5, 4, 1, [], 1, [some 9], []⟩, ⟨7, 7, 0, [], 1, [some 20], []⟩], [some 1],
        ⟨"db", "", "t", "primary"⟩, ["pk"], [1], 0, some ⟨false⟩, [1]⟩ :=
  (finalizeHistogram_sums
    ⟨0, 0, 0, [], [], ⟨"db", "", "t", "primary"⟩, ["pk"], [1], 0, some ⟨false⟩, [1]⟩
    [⟨5, 4, 1, [], 1, [some 9], []⟩, ⟨7, 7, 0, [], 1, [some 20], []⟩] [some 1] rfl rfl rfl rfl).1

/-- For a hash other than the zero hash, `preexistingStats` finds the statistics exactly when
the snapshot records that hash for the key; the statistics are those recorded for the key,
and the nil list when nothing is found. -/
theorem preexistingStats_found_iff_of_ne_zero (sc : StatsController) (k : tableIndexesKey)
    (h : Hash) (hne : h ≠ 0) :
    ((preexistingStats sc k h).2 = true ↔ sc.Stats.hashes.get? k = some h) ∧
      ((preexistingStats sc k h).2 = true →
        (preexistingStats sc k h).1 = (sc.Stats.stats.get? k).getD []) ∧
      ((preexistingStats sc k h).2 = false → (preexistingStats sc k h).1 = []) := by
  unfold preexistingStats
  cases hk : sc.Stats.hashes.get? k with
  | none =>
    have : ¬ (0 = h) := fun e => hne e.symm
    simp [this]
  | some h0 =>
    by_cases he : h0 = h
    · simp [he]
    · simp [he]

/-- C20: `preexistingStats(k, h)` on a published snapshot with no recorded hash for the
table key `k` and `h` the zero hash returns `found = true` (with the nil statistics list):
the lookup `sc.Stats.hashes[k]` of a key that is not in the map reads as the zero hash,
which equals `h`. -/
theorem preexistingStats_zero_hash_absent_key :
    sampleController.Stats.hashes.get? ⟨"db", "main", "other", "public"⟩ = none ∧
      preexistingStats sampleController ⟨"db", "main", "other", "public"⟩ 0 = ([], true) := by
  decide

/-! ### The ordinal ranges of `collectIndexNodes` -/

/-- The ranges of two runs of counts. -/
theorem ordinalRanges_append (b : List Nat) : ∀ (a : List Nat) (offset : Nat),
    ordinalRanges offset (a ++ b) = ordinalRanges offset a ++ ordinalRanges (offset + a.sum) b := by
  intro a
  induction a with
  | nil => intro offset; simp [ordinalRanges]
  | cons c rest ih =>
    intro offset
    show (offset, offset + c) :: ordinalRanges (offset + c) (rest ++ b) = _
    rw [ih]
    simp only [ordinalRanges, List.sum_cons, Nat.add_assoc, List.cons_append]

/-- The range of node `i` runs from the sum of the counts before it to that sum plus its
own count. -/
theorem ordinalRanges_get : ∀ (counts : List Nat) (offset i c : Nat), counts[i]? = some c →
    (ordinalRanges offset counts)[i]? =
      some (offset + (counts.take i).sum, offset + (counts.take i).sum + c) := by
  intro counts
  induction counts with
  | nil => intro offset i c h; simp at h
  | cons c0 rest ih =>
    intro offset i c h
    cases i with
    | zero =>
      simp only [List.getElem?_cons_zero, Option.some.injEq] at h
      subst h
      simp [ordinalRanges]
    | succ j =>
      simp only [List.getElem?_cons_succ] at h
      simp only [ordinalRanges, List.getElem?_cons_succ, List.take_succ_cons, List.sum_cons]
      rw [ih (offset + c0) j c h]
      simp [Nat.add_assoc]

/-- Every range lies between the start offset and the start offset plus all counts. -/
theorem ordinalRanges_bounds : ∀ (counts : List Nat) (offset : Nat),
    ∀ a ∈ ordinalRanges offset counts, offset ≤ a.1 ∧ a.1 ≤ a.2 ∧ a.2 ≤ offset + counts.sum := by
  intro counts
  induction counts with
  | nil => intro offset a h; simp [ordinalRanges] at h
  | cons c0 rest ih =>
    intro offset a h
    simp only [ordinalRanges, List.mem_cons] at h
    rcases h with h | h
    · subst h
      simp only [List.sum_cons]
      omega
    · have := ih (offset + c0) a h
      simp only [List.sum_cons]
      omega

/-- The ranges are pairwise disjoint: a range ends where a later one starts, or before. -/
theorem ordinalRanges_disjoint : ∀ (counts : List Nat) (offset : Nat),
    (ordinalRanges offset counts).Pairwise (fun a b => a.2 ≤ b.1) := by
  intro counts
  induction counts with
  | nil => intro offset; simp [ordinalRanges]
  | cons c0 rest ih =>
    intro offset
    simp only [ordinalRanges, List.pairwise_cons]
    exact ⟨fun b hb => (ordinalRanges_bounds rest (offset + c0) b hb).1, ih _⟩

/-- The ranges are contiguous: each range starts where the one before it ends. -/
theorem ordinalRanges_contiguous : ∀ (counts : List Nat) (offset : Nat),
    (ordinalRanges offset counts).Chain' (fun a b => a.2 = b.1) := by
  intro counts
  induction counts with
  | nil => intro offset; simp [ordinalRanges]
  | cons c0 rest ih =>
    intro offset
    cases rest with
    | nil => simp [ordinalRanges]
    | cons c1 rest1 =>
      have := ih (offset + c0)
      simp only [ordinalRanges, List.chain'_cons] at this ⊢
      simpa using this

/-- The first range starts at the start offset and the last one ends at the start offset
plus all counts. -/
theorem ordinalRanges_ends : ∀ (counts : List Nat) (offset : Nat), counts ≠ [] →
    ((ordinalRanges offset counts).map Prod.fst).head? = some offset ∧
      ((ordinalRanges offset counts).map Prod.snd).getLast? = some (offset + counts.sum) := by
  intro counts
  induction counts with
  | nil => intro offset h; exact absurd rfl h
  | cons c0 rest ih =>
    intro offset _
    refine ⟨by simp [ordinalRanges], ?_⟩
    cases rest with
    | nil => simp [ordinalRanges]
    | cons c1 rest1 =>
      have := (ih (offset + c0) (by simp)).2
      simp only [ordinalRanges, List.map_cons, List.sum_cons] at this ⊢
      rw [List.getLast?_cons_cons, this]
      simp [Nat.add_assoc]

/-- The tree counts of the nodes after the first `k`, when these have a count. -/
theorem treeCounts_drop : ∀ (nodes : List Node) (k : Nat), k ≤ (treeCounts nodes).length →
    treeCounts (nodes.drop k) = (treeCounts nodes).drop k := by
  intro nodes
  induction nodes with
  | nil => intro k _; simp [treeCounts]
  | cons n rest ih =>
    intro k hk
    cases k with
    | zero => rfl
    | succ j =>
      cases hn : n.TreeCount with
      | error err => simp [treeCounts, hn] at hk
      | ok c =>
        simp only [treeCounts, hn, List.length_cons, Nat.add_le_add_iff_right] at hk
        simp only [List.drop_succ_cons, treeCounts, hn]
        exact ih j hk

/-- There are no more tree counts than nodes. -/
theorem treeCounts_length_le : ∀ nodes : List Node, (treeCounts nodes).length ≤ nodes.length := by
  intro nodes
  induction nodes with
  | nil => simp [treeCounts]
  | cons n rest ih =>
    cases hn : n.TreeCount with
    | error err => simp [treeCounts, hn]
    | ok c => simpa [treeCounts, hn] using ih

/-- What one call of the batch closure does to the captured variables: it visits the first
`k` nodes, all of which have a tree count, and records their ranges from `offset`; when
it returns nil, `rest` and `offset` moved past these nodes, and `k` is positive when there
was a node to visit. -/
theorem batchClosure_ranges (env : Env) (prollyMap : ProllyMap) (idxLen : Nat) :
    ∀ (rest : List Node) (newWrites offset writes : Nat) (ranges : List (Nat × Nat))
      (sc : StatsController), offset + (treeCounts rest).sum < 2 ^ 64 →
      ∃ k, k ≤ (treeCounts rest).length ∧
        (batchClosure env prollyMap idxLen rest newWrites offset writes ranges sc).2.1.ranges
          = ranges ++ ordinalRanges offset ((treeCounts rest).take k) ∧
        ((batchClosure env prollyMap idxLen rest newWrites offset writes ranges sc).1 = none →
          (batchClosure env prollyMap idxLen rest newWrites offset writes ranges sc).2.1.rest
            = rest.drop k ∧
          (batchClosure env prollyMap idxLen rest newWrites offset writes ranges sc).2.1.offset
            = offset + ((treeCounts rest).take k).sum ∧
          (newWrites < collectBatchSize → rest ≠ [] → 0 < k)) := by
  intro rest
  induction rest with
  | nil =>
    intro newWrites offset writes ranges sc _
    exact ⟨0, by simp, by simp [batchClosure, ordinalRanges], fun _ =>
      ⟨rfl, by simp [batchClosure], fun _ h => absurd rfl h⟩⟩
  | cons n rest ih =>
    intro newWrites offset writes ranges sc hlt
    unfold batchClosure
    by_cases hfull : ¬ newWrites < collectBatchSize
    · rw [if_pos hfull]
      exact ⟨0, by simp, by simp [ordinalRanges], fun _ => ⟨rfl, by simp, fun h => absurd h hfull⟩⟩
    · rw [if_neg hfull]
      cases hn : n.TreeCount with
      | error err =>
        exact ⟨0, by simp, by simp [ordinalRanges], fun h => by simp at h⟩
      | ok treeCnt =>
        have hcounts : treeCounts (n :: rest) = treeCnt :: treeCounts rest := by
          simp [treeCounts, hn]
        rw [hcounts] at hlt ⊢
        simp only [List.sum_cons] at hlt
        have hmod : (offset + treeCnt) % 2 ^ 64 = offset + treeCnt :=
          Nat.mod_eq_of_lt (by omega)
        simp only [hmod]
        have hone : ∃ k, k ≤ (treeCnt :: treeCounts rest).length ∧
            ranges ++ [(offset, offset + treeCnt)]
              = ranges ++ ordinalRanges offset ((treeCnt :: treeCounts rest).take k) :=
          ⟨1, by simp, by simp [ordinalRanges]⟩
        have hrec : ∀ (nw w : Nat) (sc1 : StatsController),
            ∃ k, k ≤ (treeCnt :: treeCounts rest).length ∧
              (batchClosure env prollyMap idxLen rest nw (offset + treeCnt) w
                (ranges ++ [(offset, offset + treeCnt)]) sc1).2.1.ranges
                = ranges ++ ordinalRanges offset ((treeCnt :: treeCounts rest).take k) ∧
              ((batchClosure env prollyMap idxLen rest nw (offset + treeCnt) w
                (ranges ++ [(offset, offset + treeCnt)]) sc1).1 = none →
                (batchClosure env prollyMap idxLen rest nw (offset + treeCnt) w
                  (ranges ++ [(offset, offset + treeCnt)]) sc1).2.1.rest
                  = (n :: rest).drop k ∧
                (batchClosure env prollyMap idxLen rest nw (offset + treeCnt) w
                  (ranges ++ [(offset, offset + treeCnt)]) sc1).2.1.offset
                  = offset + ((treeCnt :: treeCounts rest).take k).sum ∧
                (newWrites < collectBatchSize → n :: rest ≠ [] → 0 < k)) := by
          intro nw w sc1
          obtain ⟨k, hk, hr, hnone⟩ := ih nw (offset + treeCnt) w
            (ranges ++ [(offset, offset + treeCnt)]) sc1 (by omega)
          refine ⟨k + 1, by simpa using hk, ?_, ?_⟩
          · rw [hr]
            simp [ordinalRanges]
          · intro h
            obtain ⟨h1, h2, _⟩ := hnone h
            refine ⟨by rw [h1]; rfl, ?_, fun _ _ => Nat.succ_pos k⟩
            rw [h2]
            simp [Nat.add_assoc]
        cases hb : sc.GetBucket env n.HashOf idxLen with
        | error err =>
          obtain ⟨k, hk, hr⟩ := hone
          exact ⟨k, hk, hr, fun h => by simp at h⟩
        | ok found =>
          cases found with
          | some b => exact hrec _ _ _
          | none =>
            simp only
            cases hi : prollyMap.IterOrdinalRange offset (offset + treeCnt) with
            | error err =>
              obtain ⟨k, hk, hr⟩ := hone
              exact ⟨k, hk, hr, fun h => by simp at h⟩
            | ok keys =>
              simp only
              cases hf : env.finalize idxLen (keys.map (fun key => key.take idxLen)) with
              | error err =>
                obtain ⟨k, hk, hr⟩ := hone
                exact ⟨k, hk, hr, fun h => by simp at h⟩
              | ok newBucket =>
                simp only
                cases hp : sc.PutBucket env n.HashOf newBucket idxLen with
                | mk e sc1 =>
                  cases e with
                  | some err =>
                    obtain ⟨k, hk, hr⟩ := hone
                    exact ⟨k, hk, hr, fun h => by simp at h⟩
                  | none => exact hrec _ _ _

/-- What one round of the loop of `collectIndexNodes` does to the captured variables. -/
theorem batchRound_ranges (env : Env) (prollyMap : ProllyMap) (idxLen : Nat)
    (bypassRateLimit openSessionCmds : Bool) (st : BatchState) (sc : StatsController)
    (hlt : st.offset + (treeCounts st.rest).sum < 2 ^ 64) :
    ∃ k, k ≤ (treeCounts st.rest).length ∧
      (batchRound env prollyMap idxLen bypassRateLimit openSessionCmds st sc).2.1.ranges
        = st.ranges ++ ordinalRanges st.offset ((treeCounts st.rest).take k) ∧
      ((batchRound env prollyMap idxLen bypassRateLimit openSessionCmds st sc).1 = none →
        (batchRound env prollyMap idxLen bypassRateLimit openSessionCmds st sc).2.1.rest
          = st.rest.drop k ∧
        (batchRound env prollyMap idxLen bypassRateLimit openSessionCmds st sc).2.1.offset
          = st.offset + ((treeCounts st.rest).take k).sum ∧
        (st.rest ≠ [] → 0 < k)) := by
  have hzero : 0 < collectBatchSize := by decide
  unfold batchRound execWithOptionalRateLimit
  by_cases hb : bypassRateLimit = true
  · simp only [hb, if_true]
    obtain ⟨k, hk, hr, hnone⟩ :=
      batchClosure_ranges env prollyMap idxLen st.rest 0 st.offset st.writes st.ranges sc hlt
    exact ⟨k, hk, hr, fun h => ⟨(hnone h).1, (hnone h).2.1, (hnone h).2.2 hzero⟩⟩
  · simp only [hb]
    cases hr : env.rateLimit sc.clock with
    | some err =>
      exact ⟨0, by simp, by simp [ordinalRanges], fun h => by simp at h⟩
    | none =>
      simp only
      obtain ⟨k, hk, hr, hnone⟩ :=
        batchClosure_ranges env prollyMap idxLen st.rest 0 st.offset st.writes st.ranges
          { sc with clock := sc.clock + 1 } hlt
      exact ⟨k, hk, hr, fun h => ⟨(hnone h).1, (hnone h).2.1, (hnone h).2.2 hzero⟩⟩

/-- The loop of `collectIndexNodes` with nothing left to visit. -/
theorem batchLoop_done (env : Env) (prollyMap : ProllyMap) (idxLen : Nat)
    (bypassRateLimit openSessionCmds : Bool) (fuel : Nat) (st : BatchState)
    (sc : StatsController) (h : st.rest = []) :
    batchLoop env prollyMap idxLen bypassRateLimit openSessionCmds fuel st sc = (none, st, sc) := by
  cases fuel <;> simp [batchLoop, h]

/-- The state after a round that returned nil, seen from the state before it. -/
theorem batchRound_next (st st1 : BatchState) (k : Nat) (hk : k ≤ (treeCounts st.rest).length)
    (hrest : st1.rest = st.rest.drop k)
    (hoff : st1.offset = st.offset + ((treeCounts st.rest).take k).sum) :
    treeCounts st1.rest = (treeCounts st.rest).drop k ∧
      st1.offset + (treeCounts st1.rest).sum = st.offset + (treeCounts st.rest).sum := by
  have hd : treeCounts st1.rest = (treeCounts st.rest).drop k := by
    rw [hrest, treeCounts_drop _ _ hk]
  refine ⟨hd, ?_⟩
  rw [hd, hoff, Nat.add_assoc, List.sum_take_add_sum_drop]

/-- What the loop of `collectIndexNodes` does to the captured variables: it records the
ranges of the first `k` nodes from `offset`; when it returns nil these are all the nodes. -/
theorem batchLoop_ranges (env : Env) (prollyMap : ProllyMap) (idxLen : Nat)
    (bypassRateLimit openSessionCmds : Bool) :
    ∀ (fuel : Nat) (st : BatchState) (sc : StatsController),
      st.offset + (treeCounts st.rest).sum < 2 ^ 64 →
      ∃ k, k ≤ (treeCounts st.rest).length ∧
        (batchLoop env prollyMap idxLen bypassRateLimit openSessionCmds fuel st sc).2.1.ranges
          = st.ranges ++ ordinalRanges st.offset ((treeCounts st.rest).take k) ∧
        ((batchLoop env prollyMap idxLen bypassRateLimit openSessionCmds fuel st sc).1 = none →
          k = st.rest.length ∧
          (batchLoop env prollyMap idxLen bypassRateLimit openSessionCmds fuel st sc).2.1.offset
            = st.offset + (treeCounts st.rest).sum) := by
  intro fuel
  induction fuel with
  | zero =>
    intro st sc _
    by_cases hr : st.rest = []
    · rw [batchLoop_done _ _ _ _ _ _ _ _ hr]
      exact ⟨0, by simp, by simp [ordinalRanges], fun _ => by simp [hr, treeCounts]⟩
    · simp only [batchLoop, hr, if_false]
      exact ⟨0, by simp, by simp [ordinalRanges], fun h => by simp at h⟩
  | succ fuel ih =>
    intro st sc hlt
    by_cases hr : st.rest = []
    · rw [batchLoop_done _ _ _ _ _ _ _ _ hr]
      exact ⟨0, by simp, by simp [ordinalRanges], fun _ => by simp [hr, treeCounts]⟩
    · simp only [batchLoop, hr, if_false]
      obtain ⟨k1, hk1, hr1, hnone1⟩ :=
        batchRound_ranges env prollyMap idxLen bypassRateLimit openSessionCmds st sc hlt
      cases hround : batchRound env prollyMap idxLen bypassRateLimit openSessionCmds st sc with
      | mk e rest1 =>
        obtain ⟨st1, sc1⟩ := rest1
        rw [hround] at hr1 hnone1
        simp only at hr1 hnone1
        cases e with
        | some err => exact ⟨k1, hk1, hr1, fun h => by simp at h⟩
        | none =>
          simp only
          obtain ⟨hrest, hoff, _⟩ := hnone1 rfl
          obtain ⟨hd, hsum⟩ := batchRound_next st st1 k1 hk1 hrest hoff
          obtain ⟨k2, hk2, hr2, hnone2⟩ := ih st1 sc1 (by rw [hsum]; exact hlt)
          rw [hd] at hk2 hr2
          simp only [List.length_drop] at hk2
          have hlen := treeCounts_length_le st.rest
          refine ⟨k1 + k2, by omega, ?_, ?_⟩
          · rw [hr2, hr1, hoff, List.append_assoc, ← ordinalRanges_append, ← List.take_add]
          · intro h
            obtain ⟨h1, h2⟩ := hnone2 h
            rw [hrest, List.length_drop] at h1
            exact ⟨by omega, by rw [h2, hsum]⟩

/-- The loop of `collectIndexNodes` needs no more rounds than there are nodes left: more
fuel gives the same result. -/
theorem batchLoop_fuel (env : Env) (prollyMap : ProllyMap) (idxLen : Nat)
    (bypassRateLimit openSessionCmds : Bool) :
    ∀ (fuel : Nat) (st : BatchState) (sc : StatsController),
      st.offset + (treeCounts st.rest).sum < 2 ^ 64 → st.rest.length ≤ fuel →
      ∀ extra, batchLoop env prollyMap idxLen bypassRateLimit openSessionCmds (fuel + extra) st sc
        = batchLoop env prollyMap idxLen bypassRateLimit openSessionCmds fuel st sc := by
  intro fuel
  induction fuel with
  | zero =>
    intro st sc _ hlen extra
    have hr : st.rest = [] := List.length_eq_zero.1 (Nat.le_zero.1 hlen)
    rw [batchLoop_done _ _ _ _ _ _ _ _ hr, batchLoop_done _ _ _ _ _ _ _ _ hr]
  | succ fuel ih =>
    intro st sc hlt hlen extra
    by_cases hr : st.rest = []
    · rw [batchLoop_done _ _ _ _ _ _ _ _ hr, batchLoop_done _ _ _ _ _ _ _ _ hr]
    · have hf : fuel + 1 + extra = (fuel + extra) + 1 := by omega
      rw [hf]
      simp only [batchLoop, hr, if_false]
      obtain ⟨k1, hk1, _, hnone1⟩ :=
        batchRound_ranges env prollyMap idxLen bypassRateLimit openSessionCmds st sc hlt
      cases hround : batchRound env prollyMap idxLen bypassRateLimit openSessionCmds st sc with
      | mk e rest1 =>
        obtain ⟨st1, sc1⟩ := rest1
        rw [hround] at hnone1
        simp only at hnone1
        cases e with
        | some err => rfl
        | none =>
          simp only
          obtain ⟨hrest, hoff, hpos⟩ := hnone1 rfl
          obtain ⟨_, hsum⟩ := batchRound_next st st1 k1 hk1 hrest hoff
          have hk := hpos hr
          have hlen1 : st1.rest.length ≤ fuel := by
            rw [hrest, List.length_drop]
            omega
          exact ih st1 sc1 (by rw [hsum]; exact hlt) hlen1 extra

/-- C12: the loop of `collectIndexNodes`, started as `collectIndexNodes` starts it on the
level nodes `nodes` (with fuel for one round per node, which is all it needs), computes
for node `i` the pair `start, stop` of the half-open ordinal range from the sum of the
tree counts before it to that sum plus its own tree count, whatever the state of the
cache and of the other collaborators: what it recorded when it ends, with or without an
error, are the first of these ranges, and when it ends without an error they are the
ranges of all nodes and `offset` is the total row count.  These ranges are pairwise
disjoint, contiguous, start at 0 and end at the total row count.  (The counts are
`uint64` values; their sum is taken to be below `2^64`.) -/
theorem collectIndexNodes_ordinal_ranges (env : Env) (prollyMap : ProllyMap) (idxLen : Nat)
    (bypassRateLimit openSessionCmds : Bool) (nodes : List Node) (sc : StatsController)
    (htotal : (treeCounts nodes).sum < 2 ^ 64) :
    (∃ later, ordinalRanges 0 (treeCounts nodes) =
        (batchLoop env prollyMap idxLen bypassRateLimit openSessionCmds nodes.length
          ⟨nodes, 0, 0, []⟩ sc).2.1.ranges ++ later) ∧
      ((batchLoop env prollyMap idxLen bypassRateLimit openSessionCmds nodes.length
          ⟨nodes, 0, 0, []⟩ sc).1 = none →
        (batchLoop env prollyMap idxLen bypassRateLimit openSessionCmds nodes.length
          ⟨nodes, 0, 0, []⟩ sc).2.1.ranges = ordinalRanges 0 (treeCounts nodes) ∧
        (treeCounts nodes).length = nodes.length ∧
        (batchLoop env prollyMap idxLen bypassRateLimit openSessionCmds nodes.length
          ⟨nodes, 0, 0, []⟩ sc).2.1.offset = (treeCounts nodes).sum) ∧
      (∀ extra, batchLoop env prollyMap idxLen bypassRateLimit openSessionCmds
          (nodes.length + extra) ⟨nodes, 0, 0, []⟩ sc
        = batchLoop env prollyMap idxLen bypassRateLimit openSessionCmds nodes.length
          ⟨nodes, 0, 0, []⟩ sc) ∧
      (∀ (i c : Nat), (treeCounts nodes)[i]? = some c →
        (ordinalRanges 0 (treeCounts nodes))[i]? =
          some (((treeCounts nodes).take i).sum, ((treeCounts nodes).take i).sum + c)) ∧
      (ordinalRanges 0 (treeCounts nodes)).Pairwise (fun a b => a.2 ≤ b.1) ∧
      (ordinalRanges 0 (treeCounts nodes)).Chain' (fun a b => a.2 = b.1) ∧
      (treeCounts nodes ≠ [] →
        ((ordinalRanges 0 (treeCounts nodes)).map Prod.fst).head? = some 0 ∧
        ((ordinalRanges 0 (treeCounts nodes)).map Prod.snd).getLast?
          = some (treeCounts nodes).sum) ∧
      (∀ res sc1, collectIndexNodes env prollyMap idxLen nodes bypassRateLimit openSessionCmds sc
          = (Except.ok res, sc1) →
        ∃ sc0, (batchLoop env prollyMap idxLen bypassRateLimit openSessionCmds nodes.length
            ⟨nodes, 0, 0, []⟩ sc0).1 = none ∧
          (batchLoop env prollyMap idxLen bypassRateLimit openSessionCmds nodes.length
            ⟨nodes, 0, 0, []⟩ sc0).2.1.ranges = ordinalRanges 0 (treeCounts nodes)) := by
  have hall : ∀ sc0 : StatsController,
      (batchLoop env prollyMap idxLen bypassRateLimit openSessionCmds nodes.length
          ⟨nodes, 0, 0, []⟩ sc0).1 = none →
        (batchLoop env prollyMap idxLen bypassRateLimit openSessionCmds nodes.length
          ⟨nodes, 0, 0, []⟩ sc0).2.1.ranges = ordinalRanges 0 (treeCounts nodes) := by
    intro sc0 h
    obtain ⟨k, hk, hr, hnone⟩ :=
      batchLoop_ranges env prollyMap idxLen bypassRateLimit openSessionCmds nodes.length
        ⟨nodes, 0, 0, []⟩ sc0 (by simpa using htotal)
    simp only [List.nil_append] at hr hk hnone
    have hlen := treeCounts_length_le nodes
    have hfull : (treeCounts nodes).length = nodes.length := by
      have := (hnone h).1
      omega
    rw [hr, (hnone h).1, ← hfull, List.take_length]
  have hlt : (⟨nodes, 0, 0, []⟩ : BatchState).offset
      + (treeCounts (⟨nodes, 0, 0, []⟩ : BatchState).rest).sum < 2 ^ 64 := by
    simpa using htotal
  obtain ⟨k, hk, hr, hnone⟩ :=
    batchLoop_ranges env prollyMap idxLen bypassRateLimit openSessionCmds nodes.length
      ⟨nodes, 0, 0, []⟩ sc hlt
  simp only [List.nil_append] at hr hk hnone
  refine ⟨?_, ?_, ?_, ?_, ordinalRanges_disjoint _ _, ordinalRanges_contiguous _ _, ?_, ?_⟩
  · refine ⟨ordinalRanges (0 + ((treeCounts nodes).take k).sum) ((treeCounts nodes).drop k), ?_⟩
    rw [hr, ← ordinalRanges_append, List.take_append_drop]
  · intro h
    obtain ⟨h1, h2⟩ := hnone h
    have hlen := treeCounts_length_le nodes
    have hfull : (treeCounts nodes).length = nodes.length := by omega
    refine ⟨?_, hfull, by simpa using h2⟩
    rw [hr, h1, ← hfull, List.take_length]
  · exact batchLoop_fuel env prollyMap idxLen bypassRateLimit openSessionCmds nodes.length
      ⟨nodes, 0, 0, []⟩ sc hlt (Nat.le_refl _)
  · intro i c hi
    have := ordinalRanges_get (treeCounts nodes) 0 i c hi
    simpa using this
  · intro hne
    have := ordinalRanges_ends (treeCounts nodes) 0 hne
    simpa using this
  · intro res sc1 hc
    unfold collectIndexNodes at hc
    cases nodes with
    | nil => simp at hc
    | cons first others =>
      simp only at hc
      split at hc
      · simp at hc
      · rename_i lowerBound sc2 _
        split at hc
        · simp at hc
        · rename_i st sc3 hloop
          exact ⟨sc2, by rw [hloop], hall sc2 (by rw [hloop])⟩

/-- Witness of C12: two nodes with the tree counts 2 and 3 over a map of five keys, on an
empty cache: the ranges are `[0, 2)` and `[2, 5)`. -/
theorem collectIndexNodes_ordinal_ranges_witness :
    (batchLoop sampleEnv sampleMap 1 true false sampleNodes.length ⟨sampleNodes, 0, 0, []⟩
        sampleController).1 = none ∧
      (batchLoop sampleEnv sampleMap 1 true false sampleNodes.length ⟨sampleNodes, 0, 0, []⟩
        sampleController).2.1.ranges = [(0, 2), (2, 5)] ∧
      (batchLoop sampleEnv sampleMap 1 true false sampleNodes.length ⟨sampleNodes, 0, 0, []⟩
        sampleController).2.1.ranges = ordinalRanges 0 (treeCounts sampleNodes) :=
  ⟨by decide, by decide,
    ((collectIndexNodes_ordinal_ranges sampleEnv sampleMap 1 true false sampleNodes
      sampleController (by decide)).2.1 (by decide)).1⟩

/-! ### The collection pass `newStatsForRoot` -/

/-- The table loop ends at the first table whose `updateTable` returns an error: the
tables after it are not visited. -/
theorem tableLoop_abort (env : Env) (sqlDb : SchemaDb) (db : SqlDatabase)
    (bypassRateLimit openSessionCmds : Bool) (tableName : String) (post : List String)
    (err : GoError) (p2 p3 : Pass) (hdb : sqlDb.asSqlDatabase = some db)
    (hfail : updateTable env tableName db bypassRateLimit openSessionCmds p2 = (some err, p3)) :
    ∀ (pre : List String) (p : Pass),
      tableLoop env sqlDb bypassRateLimit openSessionCmds pre p = (none, p2) →
      tableLoop env sqlDb bypassRateLimit openSessionCmds (pre ++ tableName :: post) p
        = (some err, p3) := by
  intro pre
  induction pre with
  | nil =>
    intro p h
    simp only [tableLoop, Prod.mk.injEq, true_and] at h
    subst h
    simp only [List.nil_append, tableLoop, hdb, hfail]
  | cons name rest ih =>
    intro p h
    simp only [tableLoop, hdb] at h
    simp only [List.cons_append, tableLoop, hdb]
    cases hu : updateTable env name db bypassRateLimit openSessionCmds p with
    | mk e p1 =>
      rw [hu] at h
      cases e with
      | some err1 => simp at h
      | none =>
        simp only at h ⊢
        exact ih p1 h

/-- The schema loop over schemas that all passed goes on with the schemas after them. -/
theorem schemaLoop_append (env : Env) (bypassRateLimit openSessionCmds : Bool)
    (rest : List SchemaDb) (p1 : Pass) :
    ∀ (done : List SchemaDb) (p : Pass),
      schemaLoop env bypassRateLimit openSessionCmds done p = (none, p1) →
      schemaLoop env bypassRateLimit openSessionCmds (done ++ rest) p
        = schemaLoop env bypassRateLimit openSessionCmds rest p1 := by
  intro done
  induction done with
  | nil =>
    intro p h
    simp only [schemaLoop, Prod.mk.injEq, true_and] at h
    subst h
    rfl
  | cons sqlDb more ih =>
    intro p h
    simp only [schemaLoop] at h
    simp only [List.cons_append, schemaLoop]
    split
    · rename_i hskip
      rw [if_pos hskip] at h
      exact ih p h
    · rename_i hskip
      rw [if_neg hskip] at h
      cases hx : execWithOptionalRateLimit env bypassRateLimit openSessionCmds
          (fun sc0 => (sqlDb.GetTableNames, sc0)) p.sc with
      | mk r sc1 =>
        rw [hx] at h
        cases r with
        | error err =>
          simp only at h ⊢
          split
          · rename_i hp
            rw [if_pos hp] at h
            simp at h
          · rename_i hp
            rw [if_neg hp] at h
            exact ih _ h
        | ok tableNames =>
          simp only at h ⊢
          cases ht : tableLoop env sqlDb bypassRateLimit openSessionCmds tableNames
              ⟨sc1, { p.newStats with DbCnt := p.newStats.DbCnt + 1 }, p.gcKv⟩ with
          | mk e p2 =>
            rw [ht] at h
            cases e with
            | some err => simp at h
            | none =>
              simp only at h ⊢
              exact ih p2 h

/-- C17 (as amended): when the pass has come to a table of a schema, that is, the first
closure gathered the schemas, the schemas before this one passed, the table names of
this schema were read and the tables before this one were updated without error, and
`updateTable` returns an error for the table (for a table that is not found, or whose
hash, index list, histogram level or template cannot be read), then `newStatsForRoot`
does not go on with the remaining tables: it returns no snapshot together with that
error, and the deferred function reports the error with `descError`. -/
theorem newStatsForRoot_table_error_aborts (env : Env) (session : Session)
    (gcKv : Option memStats) (bypassRateLimit openSessionCmds : Bool) (sc : StatsController)
    (digest : List Hash) (toVisit : List (List SchemaDb)) (sc1 : StatsController)
    (done later : List SchemaDb) (sqlDb : SchemaDb) (db : SqlDatabase) (p : Pass)
    (sc2 : StatsController) (pre post : List String) (tableName : String) (p2 p3 : Pass)
    (err : GoError)
    (hcollect : execWithOptionalRateLimit env bypassRateLimit openSessionCmds
      (collectSchemas session) sc = (Except.ok (digest, toVisit), sc1))
    (hvisit : toVisit.flatten = done ++ sqlDb :: later)
    (hdone : schemaLoop env bypassRateLimit openSessionCmds done ⟨sc1, newRootStats, gcKv⟩
      = (none, p))
    (hname : ¬ (sqlDb.SchemaName = "dolt" ∨ sqlDb.SchemaName = "information_schema" ∨
      sqlDb.SchemaName = "pg_catalog"))
    (hnames : execWithOptionalRateLimit env bypassRateLimit openSessionCmds
      (fun sc0 => (sqlDb.GetTableNames, sc0)) p.sc
        = (Except.ok (pre ++ tableName :: post), sc2))
    (hdb : sqlDb.asSqlDatabase = some db)
    (hpre : tableLoop env sqlDb bypassRateLimit openSessionCmds pre
      ⟨sc2, { p.newStats with DbCnt := p.newStats.DbCnt + 1 }, p.gcKv⟩ = (none, p2))
    (hfail : updateTable env tableName db bypassRateLimit openSessionCmds p2 = (some err, p3))
    (hpanic : err.isPanic = false) :
    newStatsForRoot env session gcKv bypassRateLimit openSessionCmds sc =
      ((none, some err),
        { p3 with sc := p3.sc.descError "stats update interrupted" (some err) }) := by
  have hloop : schemaLoop env bypassRateLimit openSessionCmds toVisit.flatten
      ⟨sc1, newRootStats, gcKv⟩ = (some err, p3) := by
    rw [hvisit, schemaLoop_append env bypassRateLimit openSessionCmds _ p done _ hdone]
    simp only [schemaLoop]
    rw [if_neg hname, hnames]
    simp only
    rw [tableLoop_abort env sqlDb db bypassRateLimit openSessionCmds tableName post err p2 p3
      hdb hfail pre _ hpre]
  unfold newStatsForRoot newStatsForRootBody
  rw [hcollect]
  simp only [hloop]
  cases err with
  | panic r => simp [GoError.isPanic] at hpanic
  | eof => rfl
  | msg text => rfl

/-- Counterexample to C17 as stated: in a schema with the tables `t` and `missing`, where
`t` is updated without error and `missing` is not found, `newStatsForRoot` returns no
snapshot, only the error. -/
theorem newStatsForRoot_table_not_found_no_snapshot :
    (updateTable sampleEnv "t" sampleDatabase true false
        ⟨sampleController, newRootStats, none⟩).1 = none ∧
      (updateTable sampleEnv "missing" sampleDatabase true false
        ⟨sampleController, newRootStats, none⟩).1
          = some (GoError.msg "statistics refresh error: table not found") ∧
      (newStatsForRoot sampleEnv (sampleSession [sampleSchema]) none true false
        sampleController).1
          = (none, some (GoError.msg "statistics refresh error: table not found")) := by
  decide

/-- Witness of C17 (as amended): the schema with the tables `t` and `missing`: no snapshot,
the error of `missing`, and the error reported with `descError`. -/
theorem newStatsForRoot_table_error_aborts_witness :
    (newStatsForRoot sampleEnv (sampleSession [sampleSchema]) none true false
        sampleController).1
          = (none, some (GoError.msg "statistics refresh error: table not found")) ∧
      (newStatsForRoot sampleEnv (sampleSession [sampleSchema]) none true false
        sampleController).2.sc.errLog
          = [("stats update interrupted",
              some (GoError.msg "statistics refresh error: table not found"))] :=
  have key := newStatsForRoot_table_error_aborts sampleEnv (sampleSession [sampleSchema]) none
    true false sampleController [5] [[sampleSchema]] sampleController [] [] sampleSchema
    sampleDatabase ⟨sampleController, newRootStats, none⟩ sampleController ["t"] [] "missing"
    (tableLoop sampleEnv sampleSchema true false ["t"]
      ⟨sampleController, ⟨[], [], 1, 0, 0, 0, 0⟩, none⟩).2
    (updateTable sampleEnv "missing" sampleDatabase true false
      (tableLoop sampleEnv sampleSchema true false ["t"]
        ⟨sampleController, ⟨[], [], 1, 0, 0, 0, 0⟩, none⟩).2).2
    (GoError.msg "statistics refresh error: table not found")
    rfl rfl rfl (by decide) rfl rfl (Prod.ext (by decide) rfl) (Prod.ext (by decide) rfl) rfl
  ⟨congrArg Prod.fst key, (congrArg (fun x => x.2.sc.errLog) key).trans (by decide)⟩

/-- C18: whenever the body of `newStatsForRoot` is ended by a panic with the value `r`,
`newStatsForRoot` returns to its caller with a non-nil error, the message of which is
`worker panicked running work: ` followed by `r` and the stack, and this error is the one
reported last with `descError`, under `stats update interrupted`.  In no case does
`newStatsForRoot` hand a panic to its caller. -/
theorem newStatsForRoot_recovers_panic (env : Env) (session : Session)
    (gcKv : Option memStats) (bypassRateLimit openSessionCmds : Bool) (sc : StatsController)
    (r : String)
    (h : (newStatsForRootBody env session gcKv bypassRateLimit openSessionCmds sc).1
      = some (GoError.panic r)) :
    (newStatsForRoot env session gcKv bypassRateLimit openSessionCmds sc).1.2 =
        some (GoError.msg ("worker panicked running work: " ++ r ++ "\n" ++ session.Stack)) ∧
      (∃ more, (newStatsForRoot env session gcKv bypassRateLimit openSessionCmds sc).1.2 =
        some (GoError.msg ("worker panicked running work" ++ more))) ∧
      (newStatsForRoot env session gcKv bypassRateLimit openSessionCmds sc).2.sc.errLog =
        (newStatsForRootBody env session gcKv bypassRateLimit openSessionCmds sc).2.sc.errLog ++
          [("stats update interrupted",
            some (GoError.msg
              ("worker panicked running work: " ++ r ++ "\n" ++ session.Stack)))] ∧
      (∀ (session0 : Session) (sc0 : StatsController),
        ((newStatsForRoot env session0 gcKv bypassRateLimit openSessionCmds sc0).1.2.map
          GoError.isPanic) ≠ some true) := by
  have hnever : ∀ (session0 : Session) (sc0 : StatsController),
      ((newStatsForRoot env session0 gcKv bypassRateLimit openSessionCmds sc0).1.2.map
        GoError.isPanic) ≠ some true := by
    intro session0 sc0
    unfold newStatsForRoot
    cases hb : newStatsForRootBody env session0 gcKv bypassRateLimit openSessionCmds sc0 with
    | mk e p =>
      cases e with
      | none => simp
      | some err => cases err <;> simp [GoError.isPanic]
  cases hb : newStatsForRootBody env session gcKv bypassRateLimit openSessionCmds sc with
  | mk e p =>
    rw [hb] at h
    simp only at h
    subst h
    have hres : newStatsForRoot env session gcKv bypassRateLimit openSessionCmds sc =
        ((some p.newStats,
          some (GoError.msg ("worker panicked running work: " ++ r ++ "\n" ++ session.Stack))),
          ⟨p.sc.descError "stats update interrupted"
            (some (GoError.msg
              ("worker panicked running work: " ++ r ++ "\n" ++ session.Stack))),
            p.newStats, p.gcKv⟩) := by
      unfold newStatsForRoot
      rw [hb]
    rw [hres]
    refine ⟨rfl, ⟨": " ++ r ++ "\n" ++ session.Stack, ?_⟩, rfl, hnever⟩
    simp only [Option.some.injEq, GoError.msg.injEq, String.append_assoc]
    rfl

/-- Witness of C18: a schema whose dynamic type is not a `dsess.SqlDatabase` makes the type
assertion of the `updateTable` call panic. -/
theorem newStatsForRoot_recovers_panic_witness :
    (newStatsForRoot sampleEnv (sampleSession [sampleForeignSchema]) none true false
        sampleController).1.2 =
      some (GoError.msg ("worker panicked running work: " ++
        "interface conversion: not a dsess.SqlDatabase" ++ "\n" ++
        (sampleSession [sampleForeignSchema]).Stack)) :=
  (newStatsForRoot_recovers_panic sampleEnv (sampleSession [sampleForeignSchema]) none true
    false sampleController "interface conversion: not a dsess.SqlDatabase" (by decide)).1

/-! ### Termination of the batching loop of `collectIndexNodes` -/

/-- What one call of the batch closure visits: the first `k` of the nodes that are left,
each once; it writes at most `collectBatchSize - newWrites` buckets, and when it returns
nil and there was room for a write and a node to visit, it has visited a node. -/
theorem batchClosure_visits (env : Env) (prollyMap : ProllyMap) (idxLen : Nat) :
    ∀ (rest : List Node) (newWrites offset writes : Nat) (ranges : List (Nat × Nat))
      (sc : StatsController),
      ∃ k, k ≤ rest.length ∧
        (batchClosure env prollyMap idxLen rest newWrites offset writes ranges sc).2.1.rest
          = rest.drop k ∧
        writes ≤
          (batchClosure env prollyMap idxLen rest newWrites offset writes ranges sc).2.1.writes ∧
        (batchClosure env prollyMap idxLen rest newWrites offset writes ranges sc).2.1.writes
          ≤ writes + (collectBatchSize - newWrites) ∧
        ((batchClosure env prollyMap idxLen rest newWrites offset writes ranges sc).1 = none →
          newWrites < collectBatchSize → rest ≠ [] → 0 < k) := by
  have hsize : collectBatchSize = 20 := rfl
  intro rest
  induction rest with
  | nil =>
    intro newWrites offset writes ranges sc
    exact ⟨0, by simp, by simp [batchClosure], by simp [batchClosure], by simp [batchClosure],
      fun _ _ h => absurd rfl h⟩
  | cons n rest ih =>
    intro newWrites offset writes ranges sc
    unfold batchClosure
    by_cases hfull : ¬ newWrites < collectBatchSize
    · rw [if_pos hfull]
      exact ⟨0, by simp, rfl, Nat.le_refl _, Nat.le_add_right _ _, fun _ h => absurd h hfull⟩
    · rw [if_neg hfull]
      have hroom : newWrites < 20 := by
        rw [hsize] at hfull
        omega
      have hrec : ∀ (nw w : Nat) (off : Nat) (rg : List (Nat × Nat)) (sc1 : StatsController),
          writes ≤ w → w + (collectBatchSize - nw) ≤ writes + (collectBatchSize - newWrites) →
          ∃ k, k ≤ (n :: rest).length ∧
            (batchClosure env prollyMap idxLen rest nw off w rg sc1).2.1.rest
              = (n :: rest).drop k ∧
            writes ≤ (batchClosure env prollyMap idxLen rest nw off w rg sc1).2.1.writes ∧
            (batchClosure env prollyMap idxLen rest nw off w rg sc1).2.1.writes
              ≤ writes + (collectBatchSize - newWrites) ∧
            ((batchClosure env prollyMap idxLen rest nw off w rg sc1).1 = none →
              newWrites < collectBatchSize → n :: rest ≠ [] → 0 < k) := by
        intro nw w off rg sc1 hw1 hw2
        obtain ⟨k, hk, hr, hlo, hhi, _⟩ := ih nw off w rg sc1
        exact ⟨k + 1, by simpa using hk, by rw [hr]; rfl, Nat.le_trans hw1 hlo,
          Nat.le_trans hhi hw2, fun _ _ _ => Nat.succ_pos k⟩
      have hfail : ∀ (err : GoError) (off w : Nat) (rg : List (Nat × Nat))
          (sc1 : StatsController), writes ≤ w → w ≤ writes + 1 →
          ∃ k, k ≤ (n :: rest).length ∧
            ((some err, (⟨rest, off, w, rg⟩ : BatchState), sc1) :
              Option GoError × BatchState × StatsController).2.1.rest = (n :: rest).drop k ∧
            writes ≤ ((some err, (⟨rest, off, w, rg⟩ : BatchState), sc1) :
              Option GoError × BatchState × StatsController).2.1.writes ∧
            ((some err, (⟨rest, off, w, rg⟩ : BatchState), sc1) :
              Option GoError × BatchState × StatsController).2.1.writes
              ≤ writes + (collectBatchSize - newWrites) ∧
            (((some err, (⟨rest, off, w, rg⟩ : BatchState), sc1) :
              Option GoError × BatchState × StatsController).1 = none →
              newWrites < collectBatchSize → n :: rest ≠ [] → 0 < k) := by
        intro err off w rg sc1 hw1 hw2
        refine ⟨1, by simp, rfl, hw1, ?_, fun h => by simp at h⟩
        simp only [hsize]
        omega
      cases hn : n.TreeCount with
      | error err => exact hfail err _ _ _ _ (Nat.le_refl _) (Nat.le_succ _)
      | ok treeCnt =>
        simp only
        cases hb : sc.GetBucket env n.HashOf idxLen with
        | error err => exact hfail err _ _ _ _ (Nat.le_refl _) (Nat.le_succ _)
        | ok found =>
          cases found with
          | some b => exact hrec _ _ _ _ _ (Nat.le_refl _) (Nat.le_refl _)
          | none =>
            simp only
            cases hi : prollyMap.IterOrdinalRange offset ((offset + treeCnt) % 2 ^ 64) with
            | error err => exact hfail err _ _ _ _ (Nat.le_succ _) (Nat.le_refl _)
            | ok keys =>
              simp only
              cases hf : env.finalize idxLen (keys.map (fun key => key.take idxLen)) with
              | error err => exact hfail err _ _ _ _ (Nat.le_succ _) (Nat.le_refl _)
              | ok newBucket =>
                simp only
                cases hp : sc.PutBucket env n.HashOf newBucket idxLen with
                | mk e sc1 =>
                  cases e with
                  | some err => exact hfail err _ _ _ _ (Nat.le_succ _) (Nat.le_refl _)
                  | none =>
                    refine hrec _ _ _ _ _ (Nat.le_succ _) ?_
                    simp only [hsize]
                    omega

/-- What one round of the loop of `collectIndexNodes` visits: the first `k` of the nodes
that are left; it writes at most `collectBatchSize` buckets, and when it returns nil and
there was a node left, it has visited a node. -/
theorem batchRound_visits (env : Env) (prollyMap : ProllyMap) (idxLen : Nat)
    (bypassRateLimit openSessionCmds : Bool) (st : BatchState) (sc : StatsController) :
    ∃ k, k ≤ st.rest.length ∧
      (batchRound env prollyMap idxLen bypassRateLimit openSessionCmds st sc).2.1.rest
        = st.rest.drop k ∧
      st.writes ≤
        (batchRound env prollyMap idxLen bypassRateLimit openSessionCmds st sc).2.1.writes ∧
      (batchRound env prollyMap idxLen bypassRateLimit openSessionCmds st sc).2.1.writes
        ≤ st.writes + collectBatchSize ∧
      ((batchRound env prollyMap idxLen bypassRateLimit openSessionCmds st sc).1 = none →
        st.rest ≠ [] → 0 < k) := by
  have hzero : 0 < collectBatchSize := by decide
  unfold batchRound execWithOptionalRateLimit
  by_cases hb : bypassRateLimit = true
  · simp only [hb, if_true]
    obtain ⟨k, hk, hr, hlo, hhi, hpos⟩ :=
      batchClosure_visits env prollyMap idxLen st.rest 0 st.offset st.writes st.ranges sc
    exact ⟨k, hk, hr, hlo, by simpa using hhi, fun h => hpos h hzero⟩
  · simp only [hb]
    cases hr : env.rateLimit sc.clock with
    | some err =>
      exact ⟨0, by simp, by simp, Nat.le_refl _, Nat.le_add_right _ _, fun h => by simp at h⟩
    | none =>
      simp only
      obtain ⟨k, hk, hr, hlo, hhi, hpos⟩ :=
        batchClosure_visits env prollyMap idxLen st.rest 0 st.offset st.writes st.ranges
          { sc with clock := sc.clock + 1 }
      exact ⟨k, hk, hr, hlo, by simpa using hhi, fun h => hpos h hzero⟩

/-- The loop of `collectIndexNodes` makes no more rounds than there are nodes left, however
many rounds it may make. -/
theorem batchLoopRounds_le (env : Env) (prollyMap : ProllyMap) (idxLen : Nat)
    (bypassRateLimit openSessionCmds : Bool) :
    ∀ (fuel : Nat) (st : BatchState) (sc : StatsController),
      batchLoopRounds env prollyMap idxLen bypassRateLimit openSessionCmds fuel st sc
        ≤ st.rest.length := by
  intro fuel
  induction fuel with
  | zero => intro st sc; simp [batchLoopRounds]
  | succ fuel ih =>
    intro st sc
    by_cases hr : st.rest = []
    · simp [batchLoopRounds, hr]
    · simp only [batchLoopRounds, hr, if_false]
      obtain ⟨k, hk, hrest, _, _, hpos⟩ :=
        batchRound_visits env prollyMap idxLen bypassRateLimit openSessionCmds st sc
      have hlen : 0 < st.rest.length := List.length_pos.2 hr
      cases hround : batchRound env prollyMap idxLen bypassRateLimit openSessionCmds st sc with
      | mk e rest1 =>
        obtain ⟨st1, sc1⟩ := rest1
        rw [hround] at hrest hpos
        simp only at hrest hpos
        cases e with
        | some err => exact hlen
        | none =>
          simp only
          have := ih st1 sc1
          have hk0 := hpos rfl hr
          rw [hrest, List.length_drop] at this
          omega

/-- The loop of `collectIndexNodes` only moves forward through the nodes, and one round for
each node that is left is all it needs: more rounds give the same result, and when it
returns nil no node is left. -/
theorem batchLoop_forward (env : Env) (prollyMap : ProllyMap) (idxLen : Nat)
    (bypassRateLimit openSessionCmds : Bool) :
    ∀ (fuel : Nat) (st : BatchState) (sc : StatsController),
      (∃ k, k ≤ st.rest.length ∧
        (batchLoop env prollyMap idxLen bypassRateLimit openSessionCmds fuel st sc).2.1.rest
          = st.rest.drop k) ∧
      (st.rest.length ≤ fuel →
        (∀ extra,
          batchLoop env prollyMap idxLen bypassRateLimit openSessionCmds (fuel + extra) st sc
            = batchLoop env prollyMap idxLen bypassRateLimit openSessionCmds fuel st sc) ∧
        ((batchLoop env prollyMap idxLen bypassRateLimit openSessionCmds fuel st sc).1 = none →
          (batchLoop env prollyMap idxLen bypassRateLimit openSessionCmds fuel st sc).2.1.rest
            = [])) := by
  intro fuel
  induction fuel with
  | zero =>
    intro st sc
    refine ⟨⟨0, by simp, ?_⟩, ?_⟩
    · by_cases hr : st.rest = [] <;> simp [batchLoop, hr]
    · intro hlen
      have hr : st.rest = [] := List.length_eq_zero.1 (Nat.le_zero.1 hlen)
      refine ⟨fun extra => ?_, fun _ => ?_⟩
      · rw [batchLoop_done _ _ _ _ _ _ _ _ hr, batchLoop_done _ _ _ _ _ _ _ _ hr]
      · rw [batchLoop_done _ _ _ _ _ _ _ _ hr]
        exact hr
  | succ fuel ih =>
    intro st sc
    by_cases hr : st.rest = []
    · refine ⟨⟨0, by simp, by rw [batchLoop_done _ _ _ _ _ _ _ _ hr]; rfl⟩, fun _ => ⟨?_, ?_⟩⟩
      · intro extra
        rw [batchLoop_done _ _ _ _ _ _ _ _ hr, batchLoop_done _ _ _ _ _ _ _ _ hr]
      · intro _
        rw [batchLoop_done _ _ _ _ _ _ _ _ hr]
        exact hr
    · obtain ⟨k1, hk1, hrest1, _, _, hpos⟩ :=
        batchRound_visits env prollyMap idxLen bypassRateLimit openSessionCmds st sc
      cases hround : batchRound env prollyMap idxLen bypassRateLimit openSessionCmds st sc with
      | mk e rest1 =>
        obtain ⟨st1, sc1⟩ := rest1
        rw [hround] at hrest1 hpos
        simp only at hrest1 hpos
        cases e with
        | some err =>
          refine ⟨⟨k1, hk1, by simp [batchLoop, hr, hround, hrest1]⟩, fun _ => ⟨?_, ?_⟩⟩
          · intro extra
            have hf : fuel + 1 + extra = (fuel + extra) + 1 := by omega
            rw [hf]
            simp [batchLoop, hr, hround]
          · intro h
            simp [batchLoop, hr, hround] at h
        | none =>
          obtain ⟨⟨k2, hk2, hrest2⟩, hstable⟩ := ih st1 sc1
          have hk0 := hpos rfl hr
          have hlen1 : st1.rest.length = st.rest.length - k1 := by
            rw [hrest1, List.length_drop]
          have hstep : ∀ f, batchLoop env prollyMap idxLen bypassRateLimit openSessionCmds
              (f + 1) st sc
                = batchLoop env prollyMap idxLen bypassRateLimit openSessionCmds f st1 sc1 := by
            intro f
            simp [batchLoop, hr, hround]
          refine ⟨⟨k1 + k2, by omega, ?_⟩, fun hlen => ?_⟩
          · rw [hstep, hrest2, hrest1, List.drop_drop]
          · obtain ⟨hs1, hs2⟩ := hstable (by omega)
            refine ⟨fun extra => ?_, ?_⟩
            · have hf : fuel + 1 + extra = (fuel + extra) + 1 := by omega
              rw [hf, hstep, hstep]
              exact hs1 extra
            · rw [hstep]
              exact hs2

/-- C26: the batching loop of `collectIndexNodes` on the node list `nodes` makes at most
`len(nodes)` rounds, each of which invokes the batch closure at most once, however many
rounds it is allowed: with one round per node it has ended by itself (more rounds give the
same result, and when it returns nil no node is left).  The loop only moves forward
through the nodes, so that no node is visited twice: every round visits the first `k` of
the nodes that are left and leaves the others, `k` is positive when the round returns nil
and a node was left, and a round writes at most `collectBatchSize = 20` new buckets
(a bucket found in the cache is not a write). -/
theorem batchLoop_terminates (env : Env) (prollyMap : ProllyMap) (idxLen : Nat)
    (bypassRateLimit openSessionCmds : Bool) (nodes : List Node) (sc : StatsController) :
    (∀ fuel, batchLoopRounds env prollyMap idxLen bypassRateLimit openSessionCmds fuel
        ⟨nodes, 0, 0, []⟩ sc ≤ nodes.length) ∧
      (∀ extra, batchLoop env prollyMap idxLen bypassRateLimit openSessionCmds
          (nodes.length + extra) ⟨nodes, 0, 0, []⟩ sc
        = batchLoop env prollyMap idxLen bypassRateLimit openSessionCmds nodes.length
          ⟨nodes, 0, 0, []⟩ sc) ∧
      ((batchLoop env prollyMap idxLen bypassRateLimit openSessionCmds nodes.length
          ⟨nodes, 0, 0, []⟩ sc).1 = none →
        (batchLoop env prollyMap idxLen bypassRateLimit openSessionCmds nodes.length
          ⟨nodes, 0, 0, []⟩ sc).2.1.rest = []) ∧
      (∃ k, k ≤ nodes.length ∧
        (batchLoop env prollyMap idxLen bypassRateLimit openSessionCmds nodes.length
          ⟨nodes, 0, 0, []⟩ sc).2.1.rest = nodes.drop k) ∧
      (∀ (st : BatchState) (sc0 : StatsController),
        ∃ k, k ≤ st.rest.length ∧
          (batchRound env prollyMap idxLen bypassRateLimit openSessionCmds st sc0).2.1.rest
            = st.rest.drop k ∧
          st.writes ≤
            (batchRound env prollyMap idxLen bypassRateLimit openSessionCmds st sc0).2.1.writes ∧
          (batchRound env prollyMap idxLen bypassRateLimit openSessionCmds st sc0).2.1.writes
            ≤ st.writes + 20 ∧
          ((batchRound env prollyMap idxLen bypassRateLimit openSessionCmds st sc0).1 = none →
            st.rest ≠ [] → 0 < k)) := by
  obtain ⟨hfw, hst⟩ := batchLoop_forward env prollyMap idxLen bypassRateLimit openSessionCmds
    nodes.length ⟨nodes, 0, 0, []⟩ sc
  obtain ⟨hs1, hs2⟩ := hst (Nat.le_refl _)
  exact ⟨fun fuel => batchLoopRounds_le env prollyMap idxLen bypassRateLimit openSessionCmds
      fuel ⟨nodes, 0, 0, []⟩ sc, hs1, hs2, hfw,
    fun st sc0 => batchRound_visits env prollyMap idxLen bypassRateLimit openSessionCmds st sc0⟩

/-- C27: a pass over the schema `public` with the table `t` and then a schema whose
dynamic type is not a `dsess.SqlDatabase`: the type assertion of the second schema panics
after `t` was recorded.  `newStatsForRoot` returns the error made from the recovered panic
together with the snapshot as built so far, not nil, and the `trySwapStats` call that
`runWorker` makes next with these results publishes that partly built snapshot. -/
theorem newStatsForRoot_panic_returns_partial_snapshot :
    (newStatsForRoot sampleEnv (sampleSession [sampleGoodSchema, sampleForeignSchema]) none
        true false sampleController).1.2 =
      some (GoError.msg ("worker panicked running work: " ++
        "interface conversion: not a dsess.SqlDatabase" ++ "\n" ++ "goroutine 1 [running]")) ∧
      (newStatsForRoot sampleEnv (sampleSession [sampleGoodSchema, sampleForeignSchema]) none
        true false sampleController).1.1 =
      some ⟨[(⟨"db", "main", "t", "public"⟩, 77)],
        [(⟨"db", "main", "t", "public"⟩,
          [⟨3, 2, 0, [], [], ⟨"db", "", "t", "primary"⟩, ["pk"], [1], 0, some ⟨false⟩, [1]⟩])],
        2, 0, 0, 1, 0⟩ ∧
      (trySwapStats sampleEnv none 4
        (newStatsForRoot sampleEnv (sampleSession [sampleGoodSchema, sampleForeignSchema]) none
          true false sampleController).1.1 none
        (newStatsForRoot sampleEnv (sampleSession [sampleGoodSchema, sampleForeignSchema]) none
          true false sampleController).2.sc).1 = (true, none) ∧
      (trySwapStats sampleEnv none 4
        (newStatsForRoot sampleEnv (sampleSession [sampleGoodSchema, sampleForeignSchema]) none
          true false sampleController).1.1 none
        (newStatsForRoot sampleEnv (sampleSession [sampleGoodSchema, sampleForeignSchema]) none
          true false sampleController).2.sc).2.Stats =
      ⟨[(⟨"db", "main", "t", "public"⟩, 77)],
        [(⟨"db", "main", "t", "public"⟩,
          [⟨3, 2, 0, [], [], ⟨"db", "", "t", "primary"⟩, ["pk"], [1], 0, some ⟨false⟩, [1]⟩])],
        2, 0, 0, 1, 0⟩ := by
  refine ⟨by decide, by decide, by decide, by decide⟩

/-- In three of the four ways in which `trySwapStats` returns `ok = false` (a nil
`newStats`, a cancelled context, a generation counter that has moved on) the controller
is left as it was. -/
theorem trySwapStats_refused_unchanged (env : Env) (ctxErr : Option GoError) (prevGen : Nat)
    (newStats : Option rootStats) (gcKv : Option memStats) (sc : StatsController)
    (h : newStats = none ∨ ctxErr ≠ none ∨ sc.genCnt ≠ prevGen) :
    (trySwapStats env ctxErr prevGen newStats gcKv sc).1.1 = false ∧
      (trySwapStats env ctxErr prevGen newStats gcKv sc).2 = sc := by
  unfold trySwapStats
  cases newStats with
  | none => exact ⟨rfl, rfl⟩
  | some st =>
    cases ctxErr with
    | some cause => exact ⟨rfl, rfl⟩
    | none =>
      rcases h with h | h | h
      · cases h
      · exact absurd rfl h
      · simp [h]

/-- C28: whenever `trySwapStats` is called as `runWorker` and `CollectOnce` call it, that
is without a GC cache or with a GC cache whose generation is `prevGen`, and returns
`ok = false`, then `newStats` is nil, the context is cancelled or the compare-and-swap
failed, and the published snapshot `sc.Stats`, the generation counter and every other
field of the controller are the same as before the call. -/
theorem trySwapStats_not_ok_unchanged (env : Env) (ctxErr : Option GoError) (prevGen : Nat)
    (newStats : Option rootStats) (gcKv : Option memStats) (sc : StatsController)
    (hgc : ∀ kv, gcKv = some kv → kv.GcGen = prevGen)
    (hfalse : (trySwapStats env ctxErr prevGen newStats gcKv sc).1.1 = false) :
    (newStats = none ∨ ctxErr ≠ none ∨ sc.genCnt ≠ prevGen) ∧
      (trySwapStats env ctxErr prevGen newStats gcKv sc).2.Stats = sc.Stats ∧
      (trySwapStats env ctxErr prevGen newStats gcKv sc).2.genCnt = sc.genCnt ∧
      (trySwapStats env ctxErr prevGen newStats gcKv sc).2 = sc := by
  have hcause : newStats = none ∨ ctxErr ≠ none ∨ sc.genCnt ≠ prevGen := by
    cases newStats with
    | none => exact Or.inl rfl
    | some st =>
      cases ctxErr with
      | some cause => exact Or.inr (Or.inl (by simp))
      | none =>
        refine Or.inr (Or.inr ?_)
        intro hgen
        cases gcKv with
        | none => simp [trySwapStats, hgen] at hfalse
        | some kv =>
          have hkv : kv.GcGen = prevGen := hgc kv rfl
          simp [trySwapStats, hgen, hkv] at hfalse
  have hsame := (trySwapStats_refused_unchanged env ctxErr prevGen newStats gcKv sc hcause).2
  exact ⟨hcause, by rw [hsame], by rw [hsame], hsame⟩

/-- Witness of C28: a pass that started at generation 3, with a GC cache of generation 3,
on a controller that has moved on to generation 4: the compare-and-swap fails and the
controller still publishes `sampleStats` at generation 4. -/
theorem trySwapStats_not_ok_unchanged_witness :
    (trySwapStats sampleEnv none 3 (some newRootStats) (some ⟨3, [], [], []⟩)
        sampleController).1 = (false, none) ∧
      (trySwapStats sampleEnv none 3 (some newRootStats) (some ⟨3, [], [], []⟩)
        sampleController).2.Stats = sampleStats ∧
      (trySwapStats sampleEnv none 3 (some newRootStats) (some ⟨3, [], [], []⟩)
        sampleController).2.genCnt = 4 :=
  ⟨by decide,
    (trySwapStats_not_ok_unchanged sampleEnv none 3 (some newRootStats)
      (some ⟨3, [], [], []⟩) sampleController (fun kv h => by cases h; rfl) (by decide)).2.1,
    (trySwapStats_not_ok_unchanged sampleEnv none 3 (some newRootStats)
      (some ⟨3, [], [], []⟩) sampleController (fun kv h => by cases h; rfl) (by decide)).2.2.1⟩

/-- The branch of `trySwapStats` that compares the generations, taken with a GC cache
whose generation is not `prevGen`, which no caller in `worker.go` passes: on a controller
at generation 4 that publishes `sampleStats`, called with `prevGen = 4`, a new snapshot
and a GC cache of generation 3, the compare-and-swap succeeds and the snapshot is replaced
before the generations are compared, so the call returns `ok = false` with the error
`gc gen didn't match update gen` while the generation counter is 5 and the published
snapshot is the new one. -/
theorem trySwapStats_gc_mismatch_after_swap :
    sampleController.genCnt = 4 ∧ sampleController.Stats = sampleStats ∧
      (trySwapStats sampleEnv none 4 (some newRootStats) (some ⟨3, [], [], []⟩)
        sampleController).1 = (false, some (GoError.msg "gc gen didn't match update gen")) ∧
      (trySwapStats sampleEnv none 4 (some newRootStats) (some ⟨3, [], [], []⟩)
        sampleController).2.genCnt = 5 ∧
      (trySwapStats sampleEnv none 4 (some newRootStats) (some ⟨3, [], [], []⟩)
        sampleController).2.Stats = newRootStats ∧
      newRootStats ≠ sampleStats := by
  refine ⟨by decide, by decide, by decide, by decide, by decide, by decide⟩

end Statspro

namespace Stats

/-- C19: `loadStats` on one stored row of the index `db.t.primary` with row count 5,
distinct count 3 and null count 1 builds a histogram of one bucket whose `NullCount` is 1,
and a `DoltStats` whose `RowCount` is 5, `DistinctCount` is 3 and `NullCount` is 5: the
null count of the statistic is the sum of the row counts of its buckets, not of their
null counts.  (The empty statistic that precedes the first row is stored under the empty
qualifier, whose string is not empty in this environment.) -/
theorem loadStats_null_count_adds_row_count :
    loadStats sampleEnv "db" (Except.ok [Except.ok sampleRow]) =
      Except.ok
        ⟨"db", [(11, 0)],
          [(⟨"", "", ""⟩, ⟨⟨"", "", ""⟩, [], [], [], [], 0, 0, 0, 0⟩),
            (⟨"db", "t", "primary"⟩,
              ⟨⟨"db", "t", "primary"⟩, ["pk".data], [], [3],
                [⟨11, 5, 3, 1, 100, [[some 7]], [2], 1, [some 9]⟩], 5, 3, 5, 100⟩)]⟩ := by
  decide

/-- The loop of `loadLowerBound` over the key fields panics at its first write when the
row it writes to is the nil slice. -/
theorem fillFirstRow_nil_panics (m : IndexMap) (firstKey : List (Option Nat)) (n i : Nat) :
    fillFirstRow m firstKey (n + 1) i [] = Except.error (GoError.panic "index out of range") := by
  simp [fillFirstRow, setIndex]

/-- C30: for the index `primary` of the table `t`, whose key descriptor has one field and
whose map holds one key, `loadLowerBound` does not return a row: its first write
`firstRow[0]` goes to the nil slice `firstRow`, which is an index out of range. -/
theorem loadLowerBound_nil_row_out_of_range :
    sampleIndexMap.Count = 1 ∧ sampleIndexMap.IterOrdinalRange = Except.ok [[some 7]] ∧
      setIndex ([] : SqlRow) 0 (some 7) = Except.error (GoError.panic "index out of range") ∧
      loadLowerBound sampleIndexEnv ⟨"db", "t", "primary"⟩
        = Except.error (GoError.panic "index out of range") := by
  refine ⟨rfl, rfl, by decide, by decide⟩

end Stats

end Dolt
